import Mathlib

/-!
Control plane: task manifest and replicated state machine.

A shallow embedding of `internal/models/task.go`, `internal/raft/log_entry.go`,
`internal/raft/fsm.go`, `internal/raft/cluster.go` and the handlers of
`internal/api`.

Conventions of the embedding:

* A Go `map[string]*T` is an association list `List (String × T)`; `GoMap.get`
  is the lookup `m[k]` and `GoMap.set` is the assignment `m[k] = v`, which also
  stands for a mutation of the record behind the stored pointer (every pointer
  stored in a map is fresh, so there is no aliasing between entries).
* A pointer that a handler keeps to a stored task is a `TaskPointer`: the key
  under which the map holds it and what it reads.
* `time.Now().Unix()` is an explicit argument `now : Int` of every function
  that reads the clock.
* `int32` fields are integers; the increment `ActiveTasks++` wraps as in Go.
* `encoding/json` is outside the repository: decoders are parameters.
* The mutex of the FSM is not modelled: every operation runs under the lock.
-/

namespace ControlPlane

/-! ## Protobuf records (`pkg/proto`) -/

/-- Modelled from the spec: the enum `pb.TaskStatus` of `pkg/proto`, with the
five values the source names. -/
inductive TaskStatus where
  | PENDING
  | ASSIGNED
  | RUNNING
  | COMPLETED
  | FAILED
deriving DecidableEq, Repr

/-- Modelled from the spec: the enum `pb.NodeStatus` of `pkg/proto`, with the
two values the source names. -/
inductive NodeStatus where
  | HEALTHY
  | UNHEALTHY
deriving DecidableEq, Repr

/-- A Go `float64`, kept as its bit pattern: the code only stores and copies
these values. -/
structure Float64 where
  bits : Nat := 0
deriving DecidableEq, Repr

/-- Modelled from the spec: the message `pb.Task` of `pkg/proto`, with the
fields `copyManifest` copies. Unset fields have Go's zero values. -/
structure Task where
  TaskId : String := ""
  TaskType : String := ""
  Status : TaskStatus := TaskStatus.PENDING
  AssignedNodeId : String := ""
  TaskData : String := ""
  CreatedAt : Int := 0
  StartedAt : Int := 0
  CompletedAt : Int := 0
  ResultData : String := ""
deriving DecidableEq, Repr

/-- Modelled from the spec: the message `pb.Node` of `pkg/proto`, with the
fields `copyManifest` copies. Unset fields have Go's zero values. -/
structure Node where
  NodeId : String := ""
  Address : String := ""
  CloudProvider : String := ""
  Region : String := ""
  Status : NodeStatus := NodeStatus.HEALTHY
  LastHeartbeat : Int := 0
  CpuUsage : Float64 := {}
  MemoryUsage : Float64 := {}
  ActiveTasks : Int := 0
deriving DecidableEq, Repr

/-! ## Go maps and machine integers -/

/-- A Go `map[string]*T`. -/
abbrev GoMap (α : Type) := List (String × α)

namespace GoMap

/-- The lookup `v, ok := m[k]`. -/
def get {α : Type} : GoMap α → String → Option α
  | [], _ => none
  | (k', v) :: rest, k => if k' = k then some v else get rest k

/-- The assignment `m[k] = v`: replaces the value stored under `k`, or adds
the key. -/
def set {α : Type} : GoMap α → String → α → GoMap α
  | [], k, v => [(k, v)]
  | (k', v') :: rest, k, v =>
    if k' = k then (k, v) :: rest else (k', v') :: set rest k v

/-- The keys of the map. -/
def keys {α : Type} (m : GoMap α) : List String := m.map Prod.fst

/-- A Go map holds each key once. -/
def WF {α : Type} (m : GoMap α) : Prop := (keys m).Nodup

end GoMap

/-- Two's-complement wrap-around of an `int32` result. -/
def wrapInt32 (x : Int) : Int := (x + 2147483648) % 4294967296 - 2147483648

/-- Two's-complement wrap-around of an `int64` result. -/
def wrapInt64 (x : Int) : Int :=
  (x + 9223372036854775808) % 18446744073709551616 - 9223372036854775808

/-- The statement `for k, v := range m` over a Go map: the sequence in which
one execution of the loop visits the entries of `m`. Go leaves the order open,
so it is a parameter of every function that ranges over a map. -/
abbrev MapRange (α : Type) := GoMap α → List (String × α)

/-- A loop over a map visits every entry once, in some order. -/
def MapRange.Valid {α : Type} (range : MapRange α) : Prop :=
  ∀ m : GoMap α, (range m).Perm m

/-! ## `internal/models/task.go` -/

/-- The struct `TaskManifest`: the global state of all tasks and nodes. -/
structure TaskManifest where
  Tasks : GoMap Task := []
  Nodes : GoMap Node := []
deriving DecidableEq, Repr

/-- The constructor `NewTaskManifest`. -/
def NewTaskManifest : TaskManifest := { Tasks := [], Nodes := [] }

namespace TaskManifest

/-- The method `AddTask`: `tm.Tasks[task.TaskId] = task`. -/
def AddTask (tm : TaskManifest) (task : Task) : TaskManifest :=
  { tm with Tasks := GoMap.set tm.Tasks task.TaskId task }

/-- The method `GetTask`. -/
def GetTask (tm : TaskManifest) (taskID : String) : Option Task :=
  GoMap.get tm.Tasks taskID

/-- The method `UpdateTaskStatus`. -/
def UpdateTaskStatus (tm : TaskManifest) (taskID : String) (status : TaskStatus) :
    TaskManifest × Bool :=
  match GoMap.get tm.Tasks taskID with
  | some task =>
    ({ tm with Tasks := GoMap.set tm.Tasks taskID { task with Status := status } }, true)
  | none => (tm, false)

/-- The method `AssignTask`; `now` is the reading of `time.Now().Unix()`. -/
def AssignTask (tm : TaskManifest) (now : Int) (taskID nodeID : String) :
    TaskManifest × Bool :=
  match GoMap.get tm.Tasks taskID with
  | some task =>
    let tasks := GoMap.set tm.Tasks taskID
      { task with AssignedNodeId := nodeID, Status := TaskStatus.ASSIGNED, StartedAt := now }
    match GoMap.get tm.Nodes nodeID with
    | some node =>
      ({ Tasks := tasks,
         Nodes := GoMap.set tm.Nodes nodeID
           { node with ActiveTasks := wrapInt32 (node.ActiveTasks + 1) } }, true)
    | none => ({ Tasks := tasks, Nodes := tm.Nodes }, true)
  | none => (tm, false)

/-- The decrement shared by `CompleteTask` and `FailTask`:
`if node, ok := tm.Nodes[id]; ok && node.ActiveTasks > 0 { node.ActiveTasks-- }`. -/
def decrementActive (nodes : GoMap Node) (nodeID : String) : GoMap Node :=
  match GoMap.get nodes nodeID with
  | some node =>
    if node.ActiveTasks > 0 then
      GoMap.set nodes nodeID { node with ActiveTasks := node.ActiveTasks - 1 }
    else nodes
  | none => nodes

/-- The method `CompleteTask`; `now` is the reading of `time.Now().Unix()`. -/
def CompleteTask (tm : TaskManifest) (now : Int) (taskID resultData : String) :
    TaskManifest × Bool :=
  match GoMap.get tm.Tasks taskID with
  | some task =>
    ({ Tasks := GoMap.set tm.Tasks taskID
         { task with Status := TaskStatus.COMPLETED, CompletedAt := now,
                     ResultData := resultData },
       Nodes := decrementActive tm.Nodes task.AssignedNodeId }, true)
  | none => (tm, false)

/-- The method `FailTask`; `now` is the reading of `time.Now().Unix()`. -/
def FailTask (tm : TaskManifest) (now : Int) (taskID errorMessage : String) :
    TaskManifest × Bool :=
  match GoMap.get tm.Tasks taskID with
  | some task =>
    ({ Tasks := GoMap.set tm.Tasks taskID
         { task with Status := TaskStatus.FAILED, CompletedAt := now,
                     ResultData := errorMessage },
       Nodes := decrementActive tm.Nodes task.AssignedNodeId }, true)
  | none => (tm, false)

/-- The method `UpdateNodeHeartbeat`; `now` is the reading of
`time.Now().Unix()`. -/
def UpdateNodeHeartbeat (tm : TaskManifest) (now : Int) (nodeID : String)
    (cpuUsage memUsage : Float64) (activeTasks : Int) : TaskManifest :=
  let node : Node :=
    (match GoMap.get tm.Nodes nodeID with
     | some node => node
     | none => { NodeId := nodeID, Status := NodeStatus.HEALTHY })
  let node : Node :=
    { node with LastHeartbeat := now, CpuUsage := cpuUsage, MemoryUsage := memUsage,
                ActiveTasks := activeTasks, Status := NodeStatus.HEALTHY }
  { tm with Nodes := GoMap.set tm.Nodes nodeID node }

/-- The method `MarkNodeUnhealthy`. -/
def MarkNodeUnhealthy (tm : TaskManifest) (nodeID : String) : TaskManifest × Bool :=
  match GoMap.get tm.Nodes nodeID with
  | some node =>
    let node : Node := { node with Status := NodeStatus.UNHEALTHY }
    ({ tm with Nodes := GoMap.set tm.Nodes nodeID node }, true)
  | none => (tm, false)

/-- The method `GetPendingTasks`. -/
def GetPendingTasks (tm : TaskManifest) (range : MapRange Task) : List Task :=
  ((range tm.Tasks).filter (fun p => decide (p.2.Status = TaskStatus.PENDING))).map Prod.snd

/-- The method `GetHealthyNodes`. -/
def GetHealthyNodes (tm : TaskManifest) (range : MapRange Node) : List Node :=
  ((range tm.Nodes).filter (fun p => decide (p.2.Status = NodeStatus.HEALTHY))).map Prod.snd

/-- The method `GetAllNodes`. -/
def GetAllNodes (tm : TaskManifest) (range : MapRange Node) : List Node :=
  (range tm.Nodes).map Prod.snd

/-- The loop of `SelectLeastLoadedNode` over `healthy[1:]`, started with
`minNode`. -/
def leastLoaded (minNode : Node) : List Node → Node
  | [] => minNode
  | node :: rest =>
    if node.ActiveTasks < minNode.ActiveTasks then leastLoaded node rest
    else leastLoaded minNode rest

/-- The method `SelectLeastLoadedNode`; `none` is the `nil` result. -/
def SelectLeastLoadedNode (tm : TaskManifest) (range : MapRange Node) : Option Node :=
  match tm.GetHealthyNodes range with
  | [] => none
  | first :: rest => some (leastLoaded first rest)

/-- The method `CheckStaleNodes`; `now` is the reading of `time.Now().Unix()`
and the difference `now-node.LastHeartbeat` is an `int64`. -/
def CheckStaleNodes (tm : TaskManifest) (range : MapRange Node) (now : Int)
    (timeoutSeconds : Int) : List String :=
  ((range tm.Nodes).filter (fun p =>
    decide (p.2.Status = NodeStatus.HEALTHY) &&
      decide (wrapInt64 (now - p.2.LastHeartbeat) > timeoutSeconds))).map Prod.fst

end TaskManifest

/-! ## `internal/raft/log_entry.go` -/

/-- The constant `LogEntryAddTask` of type `LogEntryType` (a `uint8`). -/
def LogEntryAddTask : Nat := 0
/-- The constant `LogEntryAssignTask`. -/
def LogEntryAssignTask : Nat := 1
/-- The constant `LogEntryUpdateTaskStatus`. -/
def LogEntryUpdateTaskStatus : Nat := 2
/-- The constant `LogEntryCompleteTask`. -/
def LogEntryCompleteTask : Nat := 3
/-- The constant `LogEntryFailTask`. -/
def LogEntryFailTask : Nat := 4
/-- The constant `LogEntryNodeHeartbeat`. -/
def LogEntryNodeHeartbeat : Nat := 5
/-- The constant `LogEntryRegisterNode`. -/
def LogEntryRegisterNode : Nat := 6

/-- The struct `LogEntry`; `B` is the type of byte strings. -/
structure LogEntry (B : Type) where
  Type_ : Nat
  Data : B

/-- The struct `AddTaskEntry`. -/
structure AddTaskEntry where
  TaskID : String := ""
  TaskType : String := ""
  TaskData : String := ""
  CreatedAt : Int := 0
deriving DecidableEq, Repr

/-- The struct `AssignTaskEntry`. -/
structure AssignTaskEntry where
  TaskID : String := ""
  NodeID : String := ""
  AssignedAt : Int := 0
deriving DecidableEq, Repr

/-- The struct `UpdateTaskStatusEntry`. -/
structure UpdateTaskStatusEntry where
  TaskID : String := ""
  Status : String := ""
  UpdatedAt : Int := 0
deriving DecidableEq, Repr

/-- The struct `CompleteTaskEntry`. -/
structure CompleteTaskEntry where
  TaskID : String := ""
  ResultData : String := ""
  CompletedAt : Int := 0
deriving DecidableEq, Repr

/-- The struct `FailTaskEntry`. -/
structure FailTaskEntry where
  TaskID : String := ""
  ErrorMessage : String := ""
  FailedAt : Int := 0
deriving DecidableEq, Repr

/-- The struct `NodeHeartbeatEntry`. -/
structure NodeHeartbeatEntry where
  NodeID : String := ""
  CPUUsage : Float64 := {}
  MemoryUsage : Float64 := {}
  ActiveTasks : Int := 0
  Timestamp : Int := 0
deriving DecidableEq, Repr

/-- The struct `RegisterNodeEntry`. -/
structure RegisterNodeEntry where
  NodeID : String := ""
  Address : String := ""
  CloudProvider : String := ""
  Region : String := ""
  RegisteredAt : Int := 0
deriving DecidableEq, Repr

/-- The calls of `json.Unmarshal` made on the apply path, one per target type;
`none` is a decoding error. `B` is the type of byte strings. -/
structure Unmarshal (B : Type) where
  logEntry : B → Option (LogEntry B)
  addTask : B → Option AddTaskEntry
  assignTask : B → Option AssignTaskEntry
  updateTaskStatus : B → Option UpdateTaskStatusEntry
  completeTask : B → Option CompleteTaskEntry
  failTask : B → Option FailTaskEntry
  nodeHeartbeat : B → Option NodeHeartbeatEntry
  registerNode : B → Option RegisterNodeEntry

/-- The values of the `error` (or `nil`) that `Apply` returns, one constructor
per `fmt.Errorf` of `fsm.go` and `log_entry.go`. -/
inductive ApplyError where
  | decodeLogEntry
  | unknownType (t : Nat)
  | unmarshalPayload (t : Nat)
  | assignFailed (taskID nodeID : String)
  | updateFailed (taskID : String)
  | completeFailed (taskID : String)
deriving DecidableEq, Repr

/-- The function `DecodeLogEntry`. -/
def DecodeLogEntry {B : Type} (json : Unmarshal B) (data : B) : Option (LogEntry B) :=
  json.logEntry data

/-! ## `internal/raft/fsm.go` -/

/-- The struct `TaskManifestFSM` (its mutex left out). -/
structure TaskManifestFSM where
  manifest : TaskManifest
deriving DecidableEq, Repr

/-- The constructor `NewTaskManifestFSM`. -/
def NewTaskManifestFSM : TaskManifestFSM := { manifest := NewTaskManifest }

/-- The helper `stringToTaskStatus`. -/
def stringToTaskStatus (status : String) : TaskStatus :=
  if status = "PENDING" then TaskStatus.PENDING
  else if status = "ASSIGNED" then TaskStatus.ASSIGNED
  else if status = "RUNNING" then TaskStatus.RUNNING
  else if status = "COMPLETED" then TaskStatus.COMPLETED
  else if status = "FAILED" then TaskStatus.FAILED
  else TaskStatus.PENDING

namespace TaskManifestFSM

/-- The method `applyAddTask`. -/
def applyAddTask {B : Type} (json : Unmarshal B) (fsm : TaskManifestFSM) (data : B) :
    TaskManifestFSM × Option ApplyError :=
  match json.addTask data with
  | none => (fsm, some (ApplyError.unmarshalPayload LogEntryAddTask))
  | some entry =>
    let task : Task :=
      { TaskId := entry.TaskID, TaskType := entry.TaskType, Status := TaskStatus.PENDING,
        TaskData := entry.TaskData, CreatedAt := entry.CreatedAt }
    ({ manifest := fsm.manifest.AddTask task }, none)

/-- The method `applyAssignTask`. -/
def applyAssignTask {B : Type} (json : Unmarshal B) (now : Int) (fsm : TaskManifestFSM)
    (data : B) : TaskManifestFSM × Option ApplyError :=
  match json.assignTask data with
  | none => (fsm, some (ApplyError.unmarshalPayload LogEntryAssignTask))
  | some entry =>
    let r := fsm.manifest.AssignTask now entry.TaskID entry.NodeID
    if r.2 then ({ manifest := r.1 }, none)
    else ({ manifest := r.1 }, some (ApplyError.assignFailed entry.TaskID entry.NodeID))

/-- The method `applyUpdateTaskStatus`. -/
def applyUpdateTaskStatus {B : Type} (json : Unmarshal B) (fsm : TaskManifestFSM)
    (data : B) : TaskManifestFSM × Option ApplyError :=
  match json.updateTaskStatus data with
  | none => (fsm, some (ApplyError.unmarshalPayload LogEntryUpdateTaskStatus))
  | some entry =>
    let status := stringToTaskStatus entry.Status
    let r := fsm.manifest.UpdateTaskStatus entry.TaskID status
    if r.2 then ({ manifest := r.1 }, none)
    else ({ manifest := r.1 }, some (ApplyError.updateFailed entry.TaskID))

/-- The method `applyCompleteTask`. -/
def applyCompleteTask {B : Type} (json : Unmarshal B) (now : Int) (fsm : TaskManifestFSM)
    (data : B) : TaskManifestFSM × Option ApplyError :=
  match json.completeTask data with
  | none => (fsm, some (ApplyError.unmarshalPayload LogEntryCompleteTask))
  | some entry =>
    let r := fsm.manifest.CompleteTask now entry.TaskID entry.ResultData
    if r.2 then ({ manifest := r.1 }, none)
    else ({ manifest := r.1 }, some (ApplyError.completeFailed entry.TaskID))

/-- The method `applyFailTask`: it calls `UpdateTaskStatus`, drops the boolean
and returns `nil`. -/
def applyFailTask {B : Type} (json : Unmarshal B) (fsm : TaskManifestFSM) (data : B) :
    TaskManifestFSM × Option ApplyError :=
  match json.failTask data with
  | none => (fsm, some (ApplyError.unmarshalPayload LogEntryFailTask))
  | some entry =>
    ({ manifest := (fsm.manifest.UpdateTaskStatus entry.TaskID TaskStatus.FAILED).1 }, none)

/-- The method `applyNodeHeartbeat`. -/
def applyNodeHeartbeat {B : Type} (json : Unmarshal B) (now : Int) (fsm : TaskManifestFSM)
    (data : B) : TaskManifestFSM × Option ApplyError :=
  match json.nodeHeartbeat data with
  | none => (fsm, some (ApplyError.unmarshalPayload LogEntryNodeHeartbeat))
  | some entry =>
    ({ manifest := fsm.manifest.UpdateNodeHeartbeat now entry.NodeID entry.CPUUsage
         entry.MemoryUsage entry.ActiveTasks }, none)

/-- The method `applyRegisterNode`. -/
def applyRegisterNode {B : Type} (json : Unmarshal B) (fsm : TaskManifestFSM) (data : B) :
    TaskManifestFSM × Option ApplyError :=
  match json.registerNode data with
  | none => (fsm, some (ApplyError.unmarshalPayload LogEntryRegisterNode))
  | some entry =>
    let node : Node :=
      { NodeId := entry.NodeID, Address := entry.Address,
        CloudProvider := entry.CloudProvider, Region := entry.Region,
        Status := NodeStatus.HEALTHY, LastHeartbeat := entry.RegisteredAt }
    ({ manifest := { fsm.manifest with
         Nodes := GoMap.set fsm.manifest.Nodes entry.NodeID node } }, none)

/-- The method `Apply`, on the bytes `log.Data`; `now` is what
`time.Now().Unix()` reads while the entry is applied. Returns the FSM after the
call and the returned error (`none` for `nil`). -/
def Apply {B : Type} (json : Unmarshal B) (now : Int) (fsm : TaskManifestFSM) (data : B) :
    TaskManifestFSM × Option ApplyError :=
  match DecodeLogEntry json data with
  | none => (fsm, some ApplyError.decodeLogEntry)
  | some entry =>
    if entry.Type_ = LogEntryAddTask then applyAddTask json fsm entry.Data
    else if entry.Type_ = LogEntryAssignTask then applyAssignTask json now fsm entry.Data
    else if entry.Type_ = LogEntryUpdateTaskStatus then applyUpdateTaskStatus json fsm entry.Data
    else if entry.Type_ = LogEntryCompleteTask then applyCompleteTask json now fsm entry.Data
    else if entry.Type_ = LogEntryFailTask then applyFailTask json fsm entry.Data
    else if entry.Type_ = LogEntryNodeHeartbeat then applyNodeHeartbeat json now fsm entry.Data
    else if entry.Type_ = LogEntryRegisterNode then applyRegisterNode json fsm entry.Data
    else (fsm, some (ApplyError.unknownType entry.Type_))

end TaskManifestFSM

/-- The struct `TaskManifestSnapshot`. -/
structure TaskManifestSnapshot where
  manifest : TaskManifest
deriving DecidableEq, Repr

/-- The struct `TaskManifestSnapshotData`: the serialized form of a snapshot. -/
structure TaskManifestSnapshotData where
  Tasks : GoMap Task
  Nodes : GoMap Node
deriving DecidableEq, Repr

/-- The JSON encoder and decoder of `encoding/json` at the type
`TaskManifestSnapshotData`; `none` is an error. `B` is the type of byte
strings. -/
structure SnapshotJson (B : Type) where
  encode : TaskManifestSnapshotData → Option B
  decode : B → Option TaskManifestSnapshotData

/-- The errors of `Persist` and `Restore`. -/
inductive SnapshotError where
  | encodeSnapshot
  | decodeSnapshot
deriving DecidableEq, Repr

namespace TaskManifestFSM

/-- The method `copyManifest`: a new manifest into which every task and every
node is copied field by field, under the key it had. -/
def copyManifest (fsm : TaskManifestFSM) : TaskManifest :=
  { Tasks := fsm.manifest.Tasks.foldl
      (fun copy p => GoMap.set copy p.1
        { TaskId := p.2.TaskId, TaskType := p.2.TaskType, Status := p.2.Status,
          AssignedNodeId := p.2.AssignedNodeId, TaskData := p.2.TaskData,
          CreatedAt := p.2.CreatedAt, StartedAt := p.2.StartedAt,
          CompletedAt := p.2.CompletedAt, ResultData := p.2.ResultData }) [],
    Nodes := fsm.manifest.Nodes.foldl
      (fun copy p => GoMap.set copy p.1
        { NodeId := p.2.NodeId, Address := p.2.Address,
          CloudProvider := p.2.CloudProvider, Region := p.2.Region, Status := p.2.Status,
          LastHeartbeat := p.2.LastHeartbeat, CpuUsage := p.2.CpuUsage,
          MemoryUsage := p.2.MemoryUsage, ActiveTasks := p.2.ActiveTasks }) [] }

/-- The method `Snapshot`; its error result is always `nil`. -/
def Snapshot (fsm : TaskManifestFSM) : TaskManifestSnapshot :=
  { manifest := copyManifest fsm }

/-- The method `Restore` on the bytes read from `rc`. -/
def Restore {B : Type} (json : SnapshotJson B) (fsm : TaskManifestFSM) (rc : B) :
    TaskManifestFSM × Option SnapshotError :=
  match json.decode rc with
  | none => (fsm, some SnapshotError.decodeSnapshot)
  | some snapshot =>
    ({ manifest := { Tasks := snapshot.Tasks, Nodes := snapshot.Nodes } }, none)

end TaskManifestFSM

/-- The method `TaskManifestSnapshot.Persist`: the bytes written to the sink,
or the encoding error. The result of `sink.Close()` belongs to the sink. -/
def TaskManifestSnapshot.Persist {B : Type} (json : SnapshotJson B)
    (s : TaskManifestSnapshot) : Except SnapshotError B :=
  match json.encode { Tasks := s.manifest.Tasks, Nodes := s.manifest.Nodes } with
  | none => Except.error SnapshotError.encodeSnapshot
  | some bytes => Except.ok bytes

/-! ## Logs -/

/-- A decoded log entry: the kind and the payload struct. -/
inductive Entry where
  | addTask (e : AddTaskEntry)
  | assignTask (e : AssignTaskEntry)
  | updateTaskStatus (e : UpdateTaskStatusEntry)
  | completeTask (e : CompleteTaskEntry)
  | failTask (e : FailTaskEntry)
  | nodeHeartbeat (e : NodeHeartbeatEntry)
  | registerNode (e : RegisterNodeEntry)
deriving DecidableEq, Repr

/-- The value of `LogEntry.Type` for each kind of entry. -/
def Entry.type : Entry → Nat
  | Entry.addTask _ => LogEntryAddTask
  | Entry.assignTask _ => LogEntryAssignTask
  | Entry.updateTaskStatus _ => LogEntryUpdateTaskStatus
  | Entry.completeTask _ => LogEntryCompleteTask
  | Entry.failTask _ => LogEntryFailTask
  | Entry.nodeHeartbeat _ => LogEntryNodeHeartbeat
  | Entry.registerNode _ => LogEntryRegisterNode

/-- The payload of an envelope decodes to the payload struct of `e`. -/
def PayloadDecodes {B : Type} (json : Unmarshal B) (p : B) : Entry → Prop
  | Entry.addTask e => json.addTask p = some e
  | Entry.assignTask e => json.assignTask p = some e
  | Entry.updateTaskStatus e => json.updateTaskStatus p = some e
  | Entry.completeTask e => json.completeTask p = some e
  | Entry.failTask e => json.failTask p = some e
  | Entry.nodeHeartbeat e => json.nodeHeartbeat p = some e
  | Entry.registerNode e => json.registerNode p = some e

/-- The bytes `data` are a well-formed log entry that decodes to `e`: the
envelope decodes, carries the type of `e`, and its payload decodes to the
struct of `e`. -/
def Decodes {B : Type} (json : Unmarshal B) (data : B) (e : Entry) : Prop :=
  ∃ p : B, DecodeLogEntry json data = some { Type_ := e.type, Data := p } ∧
    PayloadDecodes json p e

/-- The decoder over typed entries: the byte string of a log entry is
represented by the entry it encodes. -/
def entryJson : Unmarshal Entry where
  logEntry := fun d => some { Type_ := d.type, Data := d }
  addTask := fun d => match d with
    | Entry.addTask e => some e
    | _ => none
  assignTask := fun d => match d with
    | Entry.assignTask e => some e
    | _ => none
  updateTaskStatus := fun d => match d with
    | Entry.updateTaskStatus e => some e
    | _ => none
  completeTask := fun d => match d with
    | Entry.completeTask e => some e
    | _ => none
  failTask := fun d => match d with
    | Entry.failTask e => some e
    | _ => none
  nodeHeartbeat := fun d => match d with
    | Entry.nodeHeartbeat e => some e
    | _ => none
  registerNode := fun d => match d with
    | Entry.registerNode e => some e
    | _ => none

/-- The snapshot codec whose byte strings are the snapshot data themselves. -/
def plainSnapshotJson : SnapshotJson TaskManifestSnapshotData where
  encode := fun d => some d
  decode := fun b => some b

/-- The consensus layer applying the committed entries `log` in order, one call
of `Apply` per entry; `clock i` is what `time.Now().Unix()` reads on this
replica during the call numbered `i`, and `i` is the number of the next call. -/
def applyLog {B : Type} (json : Unmarshal B) (clock : Nat → Int) :
    Nat → TaskManifestFSM → List B → TaskManifestFSM
  | _, fsm, [] => fsm
  | i, fsm, data :: rest =>
    applyLog json clock (i + 1) (TaskManifestFSM.Apply json (clock i) fsm data).1 rest


/-- The maps of the manifest hold each key once. -/
def TaskManifest.WF (tm : TaskManifest) : Prop := GoMap.WF tm.Tasks ∧ GoMap.WF tm.Nodes

/-! ## `EncodeLogEntry` -/

/-- The calls of `json.Marshal` made by `EncodeLogEntry`, on the payload struct
and on the envelope; an error carries its text. `B` is the type of byte
strings. -/
structure Marshal (B : Type) where
  payload : Entry → Except String B
  logEntry : LogEntry B → Except String B

/-- The function `EncodeLogEntry`; `data` is the payload struct passed as
`interface{}`. -/
def EncodeLogEntry {B : Type} (json : Marshal B) (entryType : Nat) (data : Entry) :
    Except String B :=
  match json.payload data with
  | Except.error err => Except.error ("failed to marshal log entry data: " ++ err)
  | Except.ok entryData =>
    match json.logEntry { Type_ := entryType, Data := entryData } with
    | Except.error err => Except.error ("failed to marshal log entry: " ++ err)
    | Except.ok encoded => Except.ok encoded

/-! ## `internal/raft/cluster.go` -/

/-- The future returned by `rc.raft.Apply(data, timeout)`: `failed` when
`future.Error()` is not nil, else `done` with the text of the error that
`future.Response()` holds, if it holds one. -/
inductive ApplyFuture where
  | failed (err : String)
  | done (response : Option String)
deriving DecidableEq, Repr

/-- What a handler observes of the consensus library `*raft.Raft` during one
call: whether `State()` is `raft.Leader`, the pair (address, id) returned by
`LeaderWithID()`, and the future of its call number `n` of `Apply`. -/
structure Raft (B : Type) where
  isLeader : Bool
  leaderWithID : String × String
  apply : Nat → B → ApplyFuture

/-- The struct `RaftCluster`, with the fields the handlers use. -/
structure RaftCluster (B : Type) where
  raft : Raft B
  fsm : TaskManifestFSM

namespace RaftCluster

/-- The method `RaftCluster.Apply`, as call number `n` of the handler;
`none` is `nil`. -/
def Apply {B : Type} (rc : RaftCluster B) (n : Nat) (data : B) : Option String :=
  match rc.raft.apply n data with
  | ApplyFuture.failed err => some ("failed to apply log entry: " ++ err)
  | ApplyFuture.done (some err) => some ("FSM apply error: " ++ err)
  | ApplyFuture.done none => none

/-- Whether call number `n` of `RaftCluster.Apply` ran `data` through the FSM
of this node before it returned: the future of the consensus library reports no
error only once the FSM of the leader has applied the entry and returned its
response, and a future that reports an error has not applied it. -/
def applies {B : Type} (rc : RaftCluster B) (n : Nat) (data : B) : Bool :=
  match rc.raft.apply n data with
  | ApplyFuture.failed _ => false
  | ApplyFuture.done _ => true

/-- The method `IsLeader`. -/
def IsLeader {B : Type} (rc : RaftCluster B) : Bool := rc.raft.isLeader

/-- The method `GetLeader`: `_, leaderID := rc.raft.LeaderWithID()` and
`return string(leaderID)`. -/
def GetLeader {B : Type} (rc : RaftCluster B) : String := rc.raft.leaderWithID.2

/-- The method `GetFSM`. -/
def GetFSM {B : Type} (rc : RaftCluster B) : TaskManifestFSM := rc.fsm

end RaftCluster

/-- The struct `ClusterConfig`; a `time.Duration` is its count of nanoseconds. -/
structure ClusterConfig where
  NodeID : String := ""
  BindAddress : String := ""
  DataDir : String := ""
  BootstrapExpect : Int := 0
  Peers : List String := []
  HeartbeatTimeout : Int := 0
  ElectionTimeout : Int := 0
  CommitTimeout : Int := 0
  SnapshotInterval : Int := 0
  SnapshotThreshold : Nat := 0
deriving DecidableEq, Repr

/-- The struct `raft.Server` of the consensus library, with the fields that
`bootstrap` sets. -/
structure Server where
  ID : String := ""
  Address : String := ""
deriving DecidableEq, Repr

/-- The struct `raft.Configuration` of the consensus library. -/
structure Configuration where
  Servers : List Server := []
deriving DecidableEq, Repr

/-- What `NewRaftCluster` observes of the operating system and of the consensus
library during one call: `setup` is the error of the steps that come before the
bootstrap (`os.MkdirAll`, the two `raftboltdb.NewBoltStore`,
`raft.NewFileSnapshotStore`, `net.ResolveTCPAddr`, `raft.NewTCPTransport`,
`raft.NewRaft`), `none` when they all succeed; `hasExistingState` is the result
of `raft.HasExistingState(logStore, stableStore, snapshotStore)`; and
`bootstrapCluster c` is the error of the future of `BootstrapCluster(c)`,
`none` for nil. -/
structure ClusterLib where
  setup : Option String
  hasExistingState : Except String Bool
  bootstrapCluster : Configuration → Option String

/-- The outcome of `bootstrap` and of `NewRaftCluster`: the error returned
(`none` is `nil`) and the configurations passed to `BootstrapCluster`, in
order. -/
structure BootstrapOutcome where
  err : Option String
  submitted : List Configuration
deriving DecidableEq, Repr

/-- The loop of `bootstrap` over `rc.config.Peers`, started with `servers`. -/
def bootstrapServers (servers : List Server) : List String → List Server
  | [] => servers
  | peerAddr :: rest =>
    let peerID := "node-" ++ peerAddr
    bootstrapServers (servers ++ [{ ID := peerID, Address := peerAddr }]) rest

/-- The method `RaftCluster.bootstrap`, on the configuration `rc.config`. -/
def RaftCluster.bootstrap (config : ClusterConfig) (lib : ClusterLib) : BootstrapOutcome :=
  match lib.hasExistingState with
  | Except.error err =>
    { err := some ("failed to check existing state: " ++ err), submitted := [] }
  | Except.ok true => { err := none, submitted := [] }
  | Except.ok false =>
    let servers : List Server :=
      bootstrapServers [{ ID := config.NodeID, Address := config.BindAddress }] config.Peers
    let configuration : Configuration := { Servers := servers }
    match lib.bootstrapCluster configuration with
    | some err =>
      { err := some ("failed to bootstrap cluster: " ++ err), submitted := [configuration] }
    | none => { err := none, submitted := [configuration] }

/-- The constructor `NewRaftCluster`, as far as the bootstrap goes: the steps
before it are the observation `lib.setup`, and the cluster it returns when
`err` is `none` is left out. -/
def NewRaftCluster (config : ClusterConfig) (lib : ClusterLib) : BootstrapOutcome :=
  match lib.setup with
  | some err => { err := some err, submitted := [] }
  | none =>
    if config.BootstrapExpect > 0 then
      let r := RaftCluster.bootstrap config lib
      match r.err with
      | some err =>
        { err := some ("failed to bootstrap cluster: " ++ err), submitted := r.submitted }
      | none => { err := none, submitted := r.submitted }
    else { err := none, submitted := [] }

/-! ## `internal/api` -/

/-- Modelled from the spec: the message `pb.SubmitTaskRequest` of `pkg/proto`,
with the fields `SubmitTask` reads. -/
structure SubmitTaskRequest where
  TaskType : String := ""
  TaskData : String := ""
deriving DecidableEq, Repr

/-- Modelled from the spec: the message `pb.SubmitTaskResponse` of
`pkg/proto`. -/
structure SubmitTaskResponse where
  TaskId : String := ""
  Success : Bool := false
  ErrorMessage : String := ""
deriving DecidableEq, Repr

/-- Modelled from the spec: the message `pb.ListTasksRequest` of `pkg/proto`;
`Limit` is an `int32`. -/
structure ListTasksRequest where
  StatusFilter : TaskStatus := TaskStatus.PENDING
  Limit : Int := 0
deriving DecidableEq, Repr

/-- Modelled from the spec: the message `pb.ListTasksResponse` of
`pkg/proto`. -/
structure ListTasksResponse where
  Tasks : List Task := []
deriving DecidableEq, Repr

/-- Modelled from the spec: the message `pb.HeartbeatRequest` of `pkg/proto`. -/
structure HeartbeatRequest where
  NodeId : String := ""
  CpuUsage : Float64 := {}
  MemoryUsage : Float64 := {}
  ActiveTasks : Int := 0
deriving DecidableEq, Repr

/-- Modelled from the spec: the message `pb.HeartbeatResponse` of
`pkg/proto`. -/
structure HeartbeatResponse where
  Acknowledged : Bool := false
  LeaderAddress : String := ""
deriving DecidableEq, Repr

/-- Modelled from the spec: the message `pb.PollTaskRequest` of `pkg/proto`. -/
structure PollTaskRequest where
  NodeId : String := ""
deriving DecidableEq, Repr

/-- Modelled from the spec: the message `pb.PollTaskResponse` of `pkg/proto`;
`Task` is `none` for a nil pointer. -/
structure PollTaskResponse where
  Task : Option Task := none
  HasTask : Bool := false
deriving DecidableEq, Repr

/-- Modelled from the spec: the message `pb.ReportTaskResultRequest` of
`pkg/proto`. -/
structure ReportTaskResultRequest where
  TaskId : String := ""
  FinalStatus : TaskStatus := TaskStatus.PENDING
  ResultData : String := ""
deriving DecidableEq, Repr

/-- Modelled from the spec: the message `pb.ReportTaskResultResponse` of
`pkg/proto`. -/
structure ReportTaskResultResponse where
  Acknowledged : Bool := false
deriving DecidableEq, Repr

/-- Modelled from the spec: the method `String` of the enum `pb.TaskStatus`,
used by the format verb `%v`. -/
def TaskStatus.String : TaskStatus → String
  | TaskStatus.PENDING => "PENDING"
  | TaskStatus.ASSIGNED => "ASSIGNED"
  | TaskStatus.RUNNING => "RUNNING"
  | TaskStatus.COMPLETED => "COMPLETED"
  | TaskStatus.FAILED => "FAILED"

/-- What a handler returns and does: the response, the returned `error`
(`none` for `nil`), and the byte strings it passed to `cluster.Apply`, in
order, the one of a background call included. -/
structure Reply (R B : Type) where
  response : R
  err : Option String := none
  proposed : List B := []

/-- A `*pb.Task` that a handler took from the manifest: `key` is the key under
which the map holds this pointer, `none` once the map holds another pointer
under that key, and `task` is what the pointer reads. -/
structure TaskPointer where
  key : Option String
  task : Task
deriving DecidableEq, Repr

/-- The key under which the map holds the pointer `GetPendingTasks()[0]`. -/
def firstPendingKey (tm : TaskManifest) (range : MapRange Task) : Option String :=
  (((range tm.Tasks).filter (fun p => decide (p.2.Status = TaskStatus.PENDING))).map
    Prod.fst).head?

/-- Whether `Apply` of `data` stores a pointer under the key `k` of the task
map: of the methods that `Apply` reaches only `AddTask` assigns `tm.Tasks[id]`,
and it assigns a new pointer. -/
def storesTask {B : Type} (json : Unmarshal B) (data : B) (k : String) : Bool :=
  match DecodeLogEntry json data with
  | none => false
  | some entry =>
    if entry.Type_ = LogEntryAddTask then
      match json.addTask entry.Data with
      | none => false
      | some e => decide (e.TaskID = k)
    else false

/-- What a pointer reads after `Apply` of `data` took the FSM to `after`. The
other mutators write through the pointer that the map holds, so a pointer that
the map still holds reads the task stored under its key; an `AddTask` under that
key puts a new pointer in the map and leaves the old one as it was. -/
def TaskPointer.afterApply {B : Type} (json : Unmarshal B) (p : TaskPointer) (data : B)
    (after : TaskManifestFSM) : TaskPointer :=
  match p.key with
  | none => p
  | some k =>
    if storesTask json data k then { key := none, task := p.task }
    else { key := some k, task := (GoMap.get after.manifest.Tasks k).getD p.task }

/-- The struct `TaskServiceServer`. -/
structure TaskServiceServer (B : Type) where
  cluster : RaftCluster B

/-- The struct `NodeServiceServer`. -/
structure NodeServiceServer (B : Type) where
  cluster : RaftCluster B

namespace TaskServiceServer

/-- The handler `SubmitTask`; `uuid` is the result of `uuid.New().String()`
and `now` the reading of `time.Now().Unix()`. -/
def SubmitTask {B : Type} (s : TaskServiceServer B) (json : Marshal B) (uuid : String)
    (now : Int) (req : SubmitTaskRequest) : Reply SubmitTaskResponse B :=
  if !s.cluster.IsLeader then
    let leader := s.cluster.GetLeader
    { response := { Success := false,
                    ErrorMessage := "not leader, current leader: " ++ leader } }
  else
    let taskID := uuid
    let addEntry : AddTaskEntry :=
      { TaskID := taskID, TaskType := req.TaskType, TaskData := req.TaskData,
        CreatedAt := now }
    match EncodeLogEntry json LogEntryAddTask (Entry.addTask addEntry) with
    | Except.error err =>
      { response := { Success := false,
                      ErrorMessage := "failed to encode log entry: " ++ err } }
    | Except.ok data =>
      match s.cluster.Apply 0 data with
      | some err =>
        { response := { Success := false,
                        ErrorMessage := "failed to apply log entry: " ++ err },
          proposed := [data] }
      | none =>
        { response := { TaskId := taskID, Success := true }, proposed := [data] }

/-- The loop of `ListTasks` over the tasks still to visit, with the slice
`tasks` built so far. -/
def listTasksLoop (statusFilter : TaskStatus) (limit : Int) :
    List (String × Task) → List Task → List Task
  | [], tasks => tasks
  | (_, task) :: rest, tasks =>
    if statusFilter ≠ TaskStatus.PENDING ∧ task.Status ≠ statusFilter then
      listTasksLoop statusFilter limit rest tasks
    else if limit > 0 ∧ wrapInt32 ((tasks ++ [task]).length : Int) ≥ limit then
      tasks ++ [task]
    else listTasksLoop statusFilter limit rest (tasks ++ [task])

/-- The handler `ListTasks`. -/
def ListTasks {B : Type} (s : TaskServiceServer B) (range : MapRange Task)
    (req : ListTasksRequest) : Reply ListTasksResponse B :=
  let manifest := s.cluster.GetFSM.manifest
  { response :=
      { Tasks := listTasksLoop req.StatusFilter req.Limit (range manifest.Tasks) [] } }

end TaskServiceServer

namespace NodeServiceServer

/-- The handler `Heartbeat`; `now` is the reading of `time.Now().Unix()`. The
call of `cluster.Apply` is made in a goroutine whose result is not read. -/
def Heartbeat {B : Type} (s : NodeServiceServer B) (json : Marshal B) (now : Int)
    (req : HeartbeatRequest) : Reply HeartbeatResponse B :=
  if !s.cluster.IsLeader then
    let leader := s.cluster.GetLeader
    { response := { Acknowledged := false, LeaderAddress := leader } }
  else
    let heartbeatEntry : NodeHeartbeatEntry :=
      { NodeID := req.NodeId, CPUUsage := req.CpuUsage, MemoryUsage := req.MemoryUsage,
        ActiveTasks := req.ActiveTasks, Timestamp := now }
    match EncodeLogEntry json LogEntryNodeHeartbeat (Entry.nodeHeartbeat heartbeatEntry) with
    | Except.error err =>
      { response := { Acknowledged := false, LeaderAddress := s.cluster.GetLeader },
        err := some ("failed to encode heartbeat: " ++ err) }
    | Except.ok data =>
      { response := { Acknowledged := true, LeaderAddress := s.cluster.GetLeader },
        proposed := [data] }

/-- The handler `PollTask`; `now1` and `now2` are the two readings of
`time.Now().Unix()` in the handler, and the default value of `B` is the nil
byte string. `task` is a pointer into the manifest and the response holds that
pointer, so the response reads the task as the FSM of this node has left it
when the handler returns: `ujson` is the decoder of that FSM, and `fsmNow1` and
`fsmNow2` are what its clock reads while it applies the two entries. No method
writes the field `TaskId`, so `task.TaskId` reads the same before and after. -/
def PollTask {B : Type} [Inhabited B] (s : NodeServiceServer B) (json : Marshal B)
    (ujson : Unmarshal B) (range : MapRange Task) (now1 now2 fsmNow1 fsmNow2 : Int)
    (req : PollTaskRequest) : Reply PollTaskResponse B :=
  if !s.cluster.IsLeader then
    { response := { HasTask := false } }
  else
    let manifest := s.cluster.GetFSM.manifest
    let pendingTasks := manifest.GetPendingTasks range
    match pendingTasks with
    | [] => { response := { HasTask := false } }
    | task :: _ =>
      let pointer : TaskPointer := { key := firstPendingKey manifest range, task := task }
      let assignEntry : AssignTaskEntry :=
        { TaskID := task.TaskId, NodeID := req.NodeId, AssignedAt := now1 }
      match EncodeLogEntry json LogEntryAssignTask (Entry.assignTask assignEntry) with
      | Except.error err =>
        { response := { HasTask := false },
          err := some ("failed to encode assign entry: " ++ err) }
      | Except.ok data =>
        match s.cluster.Apply 0 data with
        | some err =>
          { response := { HasTask := false },
            err := some ("failed to apply assignment: " ++ err),
            proposed := [data] }
        | none =>
          let fsm1 := (TaskManifestFSM.Apply ujson fsmNow1 s.cluster.GetFSM data).1
          let pointer1 := pointer.afterApply ujson data fsm1
          let updateEntry : UpdateTaskStatusEntry :=
            { TaskID := task.TaskId, Status := "RUNNING", UpdatedAt := now2 }
          let updateData : B :=
            (match EncodeLogEntry json LogEntryUpdateTaskStatus
                (Entry.updateTaskStatus updateEntry) with
             | Except.error _ => default
             | Except.ok encoded => encoded)
          let pointer2 :=
            if s.cluster.applies 1 updateData then
              pointer1.afterApply ujson updateData
                (TaskManifestFSM.Apply ujson fsmNow2 fsm1 updateData).1
            else pointer1
          { response := { Task := some pointer2.task, HasTask := true },
            proposed := [data, updateData] }

/-- The handler `ReportTaskResult`; `now` is the reading of
`time.Now().Unix()`. -/
def ReportTaskResult {B : Type} (s : NodeServiceServer B) (json : Marshal B) (now : Int)
    (req : ReportTaskResultRequest) : Reply ReportTaskResultResponse B :=
  if !s.cluster.IsLeader then
    { response := { Acknowledged := false } }
  else
    let entry : Option (Nat × Entry) :=
      if req.FinalStatus = TaskStatus.COMPLETED then
        some (LogEntryCompleteTask, Entry.completeTask
          { TaskID := req.TaskId, ResultData := req.ResultData, CompletedAt := now })
      else if req.FinalStatus = TaskStatus.FAILED then
        some (LogEntryFailTask, Entry.failTask
          { TaskID := req.TaskId, ErrorMessage := req.ResultData, FailedAt := now })
      else none
    match entry with
    | none =>
      { response := { Acknowledged := false },
        err := some ("invalid final status: " ++ req.FinalStatus.String) }
    | some (entryType, logEntry) =>
      match EncodeLogEntry json entryType logEntry with
      | Except.error err =>
        { response := { Acknowledged := false },
          err := some ("failed to encode log entry: " ++ err) }
      | Except.ok data =>
        match s.cluster.Apply 0 data with
        | some err =>
          { response := { Acknowledged := false },
            err := some ("failed to apply log entry: " ++ err),
            proposed := [data] }
        | none => { response := { Acknowledged := true }, proposed := [data] }

end NodeServiceServer

/-- The task is not skipped by the filter test of `ListTasks`: the filter is
PENDING, or the status of the task equals the filter. -/
def passesFilter (statusFilter : TaskStatus) (p : String × Task) : Bool :=
  decide (statusFilter = TaskStatus.PENDING) || decide (p.2.Status = statusFilter)

/-! ## Active tasks -/

/-- The statuses of a task that occupies a node: ASSIGNED and RUNNING. -/
def TaskStatus.isActive : TaskStatus → Bool
  | TaskStatus.ASSIGNED => true
  | TaskStatus.RUNNING => true
  | _ => false

/-- The task is assigned to node `nodeID` and its status is ASSIGNED or
RUNNING. -/
def activeFor (nodeID : String) (task : Task) : Bool :=
  decide (task.AssignedNodeId = nodeID) && task.Status.isActive

/-- The number of tasks assigned to node `nodeID` whose status is ASSIGNED or
RUNNING. -/
def activeCount (tasks : GoMap Task) (nodeID : String) : Nat :=
  tasks.countP (fun p => activeFor nodeID p.2)

/-- Active-task conservation: every node is stored under its own id, and its
`ActiveTasks` is the number of ASSIGNED or RUNNING tasks assigned to it. -/
def Conserved (tm : TaskManifest) : Prop :=
  ∀ (k : String) (node : Node), GoMap.get tm.Nodes k = some node →
    node.NodeId = k ∧ node.ActiveTasks = (activeCount tm.Tasks node.NodeId : Int)

/-- The entry follows the task lifecycle in the manifest `tm`: an AddTask
carries a new id; an AssignTask names a task that is not ASSIGNED or RUNNING and
a node with fewer than 2147483647 such tasks; an UpdateTaskStatus does not move
its task into or out of ASSIGNED and RUNNING; a CompleteTask names a task that
is ASSIGNED or RUNNING; a NodeHeartbeat reports the number of ASSIGNED or
RUNNING tasks of its node; a RegisterNode names a node that has none. Tasks
that are missing are not constrained. No FailTask entry conforms. -/
def conforms (tm : TaskManifest) : Entry → Bool
  | Entry.addTask e => (GoMap.get tm.Tasks e.TaskID).isNone
  | Entry.assignTask e =>
    (match GoMap.get tm.Tasks e.TaskID with
     | some task => !task.Status.isActive
     | none => true) && decide (activeCount tm.Tasks e.NodeID < 2147483647)
  | Entry.updateTaskStatus e =>
    (match GoMap.get tm.Tasks e.TaskID with
     | some task => task.Status.isActive == (stringToTaskStatus e.Status).isActive
     | none => true)
  | Entry.completeTask e =>
    (match GoMap.get tm.Tasks e.TaskID with
     | some task => task.Status.isActive
     | none => true)
  | Entry.failTask _ => false
  | Entry.nodeHeartbeat e => decide (e.ActiveTasks = (activeCount tm.Tasks e.NodeID : Int))
  | Entry.registerNode e => decide (activeCount tm.Tasks e.NodeID = 0)

/-- Every well-formed entry of the log conforms to the manifest it is applied
to, when the log is applied from `fsm` on as `applyLog` does. -/
def ConformingLog {B : Type} (json : Unmarshal B) (clock : Nat → Int) :
    Nat → TaskManifestFSM → List B → Prop
  | _, _, [] => True
  | i, fsm, data :: rest =>
    (∀ e : Entry, Decodes json data e → conforms fsm.manifest e = true) ∧
    ConformingLog json clock (i + 1) (TaskManifestFSM.Apply json (clock i) fsm data).1 rest

/-! ## Example states -/

/-- A manifest in which task `t1` is ASSIGNED to the registered node `n1`. -/
def exampleAssigned : TaskManifestFSM :=
  { manifest :=
      { Tasks := [("t1", { TaskId := "t1", TaskType := "matmul",
                           Status := TaskStatus.ASSIGNED, AssignedNodeId := "n1",
                           StartedAt := 7 })],
        Nodes := [("n1", { NodeId := "n1", Address := "a:1", ActiveTasks := 1 })] } }

/-- A manifest in which task `t1` is PENDING and node `n1` reports the largest
`int32` number of active tasks. -/
def exampleSaturated : TaskManifestFSM :=
  { manifest :=
      { Tasks := [("t1", { TaskId := "t1" })],
        Nodes := [("n1", { NodeId := "n1", LastHeartbeat := 5,
                           ActiveTasks := 2147483647 })] } }

/-- A manifest in which task `t1`, once assigned to node `n1`, is COMPLETED. -/
def exampleCompleted : TaskManifestFSM :=
  { manifest :=
      { Tasks := [("t1", { TaskId := "t1", TaskType := "matmul",
                           Status := TaskStatus.COMPLETED, AssignedNodeId := "n1",
                           StartedAt := 7, CompletedAt := 8, ResultData := "ok" })],
        Nodes := [("n1", { NodeId := "n1", Address := "a:1" })] } }

/-- A manifest in which task `t1` is PENDING and node `n1` is registered. -/
def examplePending : TaskManifestFSM :=
  { manifest :=
      { Tasks := [("t1", { TaskId := "t1", TaskType := "matmul", CreatedAt := 1 })],
        Nodes := [("n1", { NodeId := "n1", Address := "a:1" })] } }

/-- A log of three entries: a task is added, a node is registered, and the
task is assigned to the node by an entry proposed at time 100. -/
def exampleLog : List Entry :=
  [Entry.addTask { TaskID := "t1", TaskType := "matmul", CreatedAt := 90 },
   Entry.registerNode { NodeID := "n1", Address := "a:1", RegisteredAt := 95 },
   Entry.assignTask { TaskID := "t1", NodeID := "n1", AssignedAt := 100 }]

/-- The task id a log entry carries, if its kind has one. -/
def Entry.taskID : Entry → Option String
  | Entry.addTask e => some e.TaskID
  | Entry.assignTask e => some e.TaskID
  | Entry.updateTaskStatus e => some e.TaskID
  | Entry.completeTask e => some e.TaskID
  | Entry.failTask e => some e.TaskID
  | Entry.nodeHeartbeat _ => none
  | Entry.registerNode _ => none

/-! ## Malformed entries -/

/-- The payload `p` of an envelope of type `t` fails to decode as the payload
struct of that type. -/
def PayloadFails {B : Type} (json : Unmarshal B) (t : Nat) (p : B) : Prop :=
  (t = LogEntryAddTask ∧ json.addTask p = none) ∨
  (t = LogEntryAssignTask ∧ json.assignTask p = none) ∨
  (t = LogEntryUpdateTaskStatus ∧ json.updateTaskStatus p = none) ∨
  (t = LogEntryCompleteTask ∧ json.completeTask p = none) ∨
  (t = LogEntryFailTask ∧ json.failTask p = none) ∨
  (t = LogEntryNodeHeartbeat ∧ json.nodeHeartbeat p = none) ∨
  (t = LogEntryRegisterNode ∧ json.registerNode p = none)

/-- The type `t` of an envelope is none of the seven known ones. -/
def UnknownType (t : Nat) : Prop :=
  t ≠ LogEntryAddTask ∧ t ≠ LogEntryAssignTask ∧ t ≠ LogEntryUpdateTaskStatus ∧
  t ≠ LogEntryCompleteTask ∧ t ≠ LogEntryFailTask ∧ t ≠ LogEntryNodeHeartbeat ∧
  t ≠ LogEntryRegisterNode

/-- The bytes `data` are a malformed entry: the envelope fails to decode, or
its type is unknown, or its payload fails to decode for its type. -/
def Malformed {B : Type} (json : Unmarshal B) (data : B) : Prop :=
  DecodeLogEntry json data = none ∨
  ∃ entry : LogEntry B, DecodeLogEntry json data = some entry ∧
    (UnknownType entry.Type_ ∨ PayloadFails json entry.Type_ entry.Data)

/-- Byte strings by what they hold: bytes that are not JSON, the JSON of an
envelope with its type and payload bytes, or the JSON of a payload struct. -/
inductive Wire where
  | garbage
  | envelope (type : Nat) (payload : Wire)
  | payload (e : Entry)
deriving DecidableEq, Repr

/-- The decoder over `Wire`: an envelope decodes to its type and payload, a
payload decodes to the struct it holds when that is the struct asked for, and
everything else is a decoding error. -/
def wireJson : Unmarshal Wire where
  logEntry := fun d => match d with
    | Wire.envelope t p => some { Type_ := t, Data := p }
    | _ => none
  addTask := fun d => match d with
    | Wire.payload (Entry.addTask e) => some e
    | _ => none
  assignTask := fun d => match d with
    | Wire.payload (Entry.assignTask e) => some e
    | _ => none
  updateTaskStatus := fun d => match d with
    | Wire.payload (Entry.updateTaskStatus e) => some e
    | _ => none
  completeTask := fun d => match d with
    | Wire.payload (Entry.completeTask e) => some e
    | _ => none
  failTask := fun d => match d with
    | Wire.payload (Entry.failTask e) => some e
    | _ => none
  nodeHeartbeat := fun d => match d with
    | Wire.payload (Entry.nodeHeartbeat e) => some e
    | _ => none
  registerNode := fun d => match d with
    | Wire.payload (Entry.registerNode e) => some e
    | _ => none

/-! ## Non-negative counters -/

/-- The entry cannot make a counter negative in the manifest `tm`: a
NodeHeartbeat reports a number of active tasks that is not negative, and an
AssignTask names a node that is unknown or has fewer than 2147483647 active
tasks. Entries of the other kinds are not constrained. -/
def keepsNonNegative (tm : TaskManifest) : Entry → Bool
  | Entry.nodeHeartbeat e => decide (0 ≤ e.ActiveTasks)
  | Entry.assignTask e =>
    (match GoMap.get tm.Nodes e.NodeID with
     | some node => decide (node.ActiveTasks < 2147483647)
     | none => true)
  | _ => true

/-- No node of the manifest has a negative `ActiveTasks`. -/
def NonNegative (tm : TaskManifest) : Prop :=
  ∀ (k : String) (node : Node), GoMap.get tm.Nodes k = some node → 0 ≤ node.ActiveTasks

/-- Every well-formed entry of the log satisfies `ok` on the manifest it is
applied to, when the log is applied from `fsm` on as `applyLog` does. -/
def EntriesSatisfy {B : Type} (json : Unmarshal B) (clock : Nat → Int)
    (ok : TaskManifest → Entry → Bool) : Nat → TaskManifestFSM → List B → Prop
  | _, _, [] => True
  | i, fsm, data :: rest =>
    (∀ e : Entry, Decodes json data e → ok fsm.manifest e = true) ∧
    EntriesSatisfy json clock ok (i + 1)
      (TaskManifestFSM.Apply json (clock i) fsm data).1 rest

/-- The loop over a map that visits the entries in the order of the
association list. -/
def listRange {α : Type} : MapRange α := fun m => m

/-- A manifest with one node, registered with the least `int64` as
registered_at. -/
def exampleAncient : TaskManifestFSM :=
  { manifest :=
      { Tasks := [],
        Nodes := [("n1", { NodeId := "n1", LastHeartbeat := -9223372036854775808 })] } }

/-- A manifest with three nodes: `n1` is UNHEALTHY and idle, `n2` and `n3` are
HEALTHY with two active tasks each. -/
def exampleFleet : TaskManifestFSM :=
  { manifest :=
      { Tasks := [],
        Nodes := [("n1", { NodeId := "n1", Status := NodeStatus.UNHEALTHY }),
                  ("n2", { NodeId := "n2", LastHeartbeat := 100, ActiveTasks := 2 }),
                  ("n3", { NodeId := "n3", LastHeartbeat := 40, ActiveTasks := 2 })] } }

/-! ## Example encoder and clusters -/

/-- The IEEE 754 double with these bits is neither an infinity nor a NaN: its
exponent field is not all ones. -/
def Float64.isFinite (f : Float64) : Bool :=
  decide ((f.bits / 4503599627370496) % 2048 ≠ 2047)

/-- The nil byte string of `Wire`. -/
instance : Inhabited Wire := ⟨Wire.garbage⟩

/-- The encoder over `Wire`, the inverse of `wireJson`. Like `encoding/json`,
it has no encoding for a float that is not finite and for an empty raw message
(the task_data of an AddTask and the result_data of a CompleteTask). -/
def wireMarshal : Marshal Wire where
  payload := fun e => match e with
    | Entry.nodeHeartbeat h =>
      if h.CPUUsage.isFinite && h.MemoryUsage.isFinite then Except.ok (Wire.payload e)
      else Except.error "json: unsupported value"
    | Entry.addTask a =>
      if a.TaskData = "" then Except.error "unexpected end of JSON input"
      else Except.ok (Wire.payload e)
    | Entry.completeTask c =>
      if c.ResultData = "" then Except.error "unexpected end of JSON input"
      else Except.ok (Wire.payload e)
    | _ => Except.ok (Wire.payload e)
  logEntry := fun l => Except.ok (Wire.envelope l.Type_ l.Data)

/-- A consensus library that commits every proposal: this node is the leader
`node-1`, reachable at `10.0.0.1:7000`. -/
def leaderRaft : Raft Wire :=
  { isLeader := true, leaderWithID := ("10.0.0.1:7000", "node-1"),
    apply := fun _ _ => ApplyFuture.done none }

/-- A consensus library on a follower: the leader is `node-1`, reachable at
`10.0.0.1:7000`, and proposals fail. -/
def followerRaft : Raft Wire :=
  { isLeader := false, leaderWithID := ("10.0.0.1:7000", "node-1"),
    apply := fun _ _ => ApplyFuture.failed "node is not the leader" }

/-- A task service on the leader whose manifest holds the COMPLETED task
`t1`. -/
def exampleTaskServer : TaskServiceServer Wire :=
  { cluster := { raft := leaderRaft, fsm := exampleCompleted } }

/-- A task service on a follower with an empty manifest. -/
def followerTaskServer : TaskServiceServer Wire :=
  { cluster := { raft := followerRaft, fsm := NewTaskManifestFSM } }

/-- A node service on the leader whose manifest holds the PENDING task `t1`
and the node `n1`. -/
def exampleNodeServer : NodeServiceServer Wire :=
  { cluster := { raft := leaderRaft, fsm := examplePending } }

/-- A node service on a follower with an empty manifest. -/
def followerNodeServer : NodeServiceServer Wire :=
  { cluster := { raft := followerRaft, fsm := NewTaskManifestFSM } }

/-- A heartbeat request whose cpu_usage is a NaN (bits 0x7FF8000000000000). -/
def nanHeartbeat : HeartbeatRequest :=
  { NodeId := "n1", CpuUsage := { bits := 9221120237041090560 }, ActiveTasks := 1 }

/-! ## Healthy nodes -/

/-- Every node of the manifest has status HEALTHY. -/
def AllHealthy (tm : TaskManifest) : Prop :=
  ∀ (k : String) (node : Node), GoMap.get tm.Nodes k = some node →
    node.Status = NodeStatus.HEALTHY

/-! ## Example snapshot codec and cluster configuration -/

/-- A snapshot codec over optional snapshot data: `none` is a reader whose
content is not a snapshot, and `some d` is the encoding of `d`. -/
def partialSnapshotJson : SnapshotJson (Option TaskManifestSnapshotData) where
  encode := fun d => some (some d)
  decode := fun b => b

/-- A configuration with two peers. -/
def exampleConfig : ClusterConfig :=
  { NodeID := "node-1", BindAddress := "10.0.0.1:7000", DataDir := "/data",
    BootstrapExpect := 3, Peers := ["10.0.0.2:7000", "10.0.0.3:7000"] }

/-- A fresh data directory on which every step succeeds. -/
def freshLib : ClusterLib :=
  { setup := none, hasExistingState := Except.ok false, bootstrapCluster := fun _ => none }

/-! ## Lemmas on Go maps -/

namespace GoMap

theorem get_set_self {α : Type} (m : GoMap α) (k : String) (v : α) :
    get (set m k v) k = some v := by
  induction m with
  | nil => simp [set, get]
  | cons p rest ih =>
    obtain ⟨k', v'⟩ := p
    by_cases h : k' = k
    · simp [set, get, h]
    · simp [set, get, h, ih]

theorem get_set_ne {α : Type} (m : GoMap α) (k k' : String) (v : α) (hne : k' ≠ k) :
    get (set m k v) k' = get m k' := by
  induction m with
  | nil =>
    have h : ¬ k = k' := fun h => hne h.symm
    simp [set, get, h]
  | cons p rest ih =>
    obtain ⟨k'', v'⟩ := p
    by_cases h : k'' = k
    · subst h
      have h2 : ¬ k'' = k' := fun h => hne h.symm
      simp [set, get, h2]
    · by_cases h3 : k'' = k'
      · subst h3
        simp [set, get, h]
      · simp [set, get, h, h3, ih]

theorem set_set {α : Type} (m : GoMap α) (k : String) (v v' : α) :
    set (set m k v) k v' = set m k v' := by
  induction m with
  | nil => simp [set]
  | cons p rest ih =>
    obtain ⟨k', w⟩ := p
    by_cases h : k' = k
    · simp [set, h]
    · simp [set, h, ih]

theorem set_of_get {α : Type} (m : GoMap α) (k : String) (v : α)
    (hget : get m k = some v) : set m k v = m := by
  induction m with
  | nil => simp [get] at hget
  | cons p rest ih =>
    obtain ⟨k', w⟩ := p
    by_cases h : k' = k
    · subst h
      simp [get] at hget
      simp [set, hget]
    · simp [get, h] at hget
      simp [set, h, ih hget]

theorem length_set_of_get_none {α : Type} (m : GoMap α) (k : String) (v : α)
    (hget : get m k = none) : (set m k v).length = m.length + 1 := by
  induction m with
  | nil => simp [set]
  | cons p rest ih =>
    obtain ⟨k', w⟩ := p
    by_cases h : k' = k
    · simp [get, h] at hget
    · simp [get, h] at hget
      simp [set, h, ih hget]

theorem length_set_of_get_some {α : Type} (m : GoMap α) (k : String) (v w : α)
    (hget : get m k = some w) : (set m k v).length = m.length := by
  induction m with
  | nil => simp [get] at hget
  | cons p rest ih =>
    obtain ⟨k', w'⟩ := p
    by_cases h : k' = k
    · simp [set, h]
    · simp [get, h] at hget
      simp [set, h, ih hget]

theorem set_eq_append {α : Type} (m : GoMap α) (k : String) (v : α)
    (hget : get m k = none) : set m k v = m ++ [(k, v)] := by
  induction m with
  | nil => simp [set]
  | cons p rest ih =>
    obtain ⟨k', w⟩ := p
    by_cases h : k' = k
    · simp [get, h] at hget
    · simp [get, h] at hget
      simp [set, h, ih hget]

theorem get_eq_none_iff {α : Type} (m : GoMap α) (k : String) :
    get m k = none ↔ k ∉ keys m := by
  induction m with
  | nil => simp [get, keys]
  | cons p rest ih =>
    obtain ⟨k', w⟩ := p
    by_cases h : k' = k
    · simp [get, keys, h]
    · have h2 : ¬ k = k' := fun e => h e.symm
      simp only [keys] at ih
      simp [get, keys, h, h2, ih]

theorem keys_set_of_get_some {α : Type} (m : GoMap α) (k : String) (v w : α)
    (hget : get m k = some w) : keys (set m k v) = keys m := by
  induction m with
  | nil => simp [get] at hget
  | cons p rest ih =>
    obtain ⟨k', w'⟩ := p
    by_cases h : k' = k
    · simp [set, keys, h]
    · simp [get, h] at hget
      have := ih hget
      simp only [keys] at this
      simp [set, keys, h, this]

theorem WF_set {α : Type} (m : GoMap α) (k : String) (v : α) (hwf : WF m) :
    WF (set m k v) := by
  cases hget : get m k with
  | none =>
    rw [set_eq_append m k v hget]
    have hk := (get_eq_none_iff m k).1 hget
    unfold WF keys at *
    rw [List.map_append, List.nodup_append]
    refine ⟨hwf, by simp, ?_⟩
    intro a ha hb
    simp at hb
    subst hb
    exact hk ha
  | some w =>
    unfold WF
    rw [keys_set_of_get_some m k v w hget]
    exact hwf

end GoMap

/-! ## Lemmas on `Apply` -/

open TaskManifestFSM

/-- On a well-formed entry, `Apply` does what it does on the typed entry. -/
theorem Apply_of_decodes {B : Type} (json : Unmarshal B) (now : Int) (fsm : TaskManifestFSM)
    (data : B) (e : Entry) (h : Decodes json data e) :
    Apply json now fsm data = Apply entryJson now fsm e := by
  obtain ⟨p, h1, h2⟩ := h
  simp only [DecodeLogEntry] at h1
  cases e <;>
    simp only [PayloadDecodes] at h2 <;>
    simp [Apply, h1, h2, Entry.type, DecodeLogEntry, entryJson, LogEntryAddTask,
      LogEntryAssignTask, LogEntryUpdateTaskStatus, LogEntryCompleteTask, LogEntryFailTask,
      LogEntryNodeHeartbeat, LogEntryRegisterNode, applyAddTask, applyAssignTask,
      applyUpdateTaskStatus, applyCompleteTask, applyFailTask, applyNodeHeartbeat,
      applyRegisterNode]

/-- The typed form of `applyAddTask`. -/
theorem Apply_addTask (now : Int) (fsm : TaskManifestFSM) (e : AddTaskEntry) :
    Apply entryJson now fsm (Entry.addTask e) =
      ({ manifest := fsm.manifest.AddTask
          { TaskId := e.TaskID, TaskType := e.TaskType, Status := TaskStatus.PENDING,
            TaskData := e.TaskData, CreatedAt := e.CreatedAt } }, none) := by
  simp [Apply, DecodeLogEntry, entryJson, Entry.type, LogEntryAddTask, applyAddTask]

/-- The typed form of `applyAssignTask`. -/
theorem Apply_assignTask (now : Int) (fsm : TaskManifestFSM) (e : AssignTaskEntry) :
    Apply entryJson now fsm (Entry.assignTask e) =
      if (fsm.manifest.AssignTask now e.TaskID e.NodeID).2 = true then
        ({ manifest := (fsm.manifest.AssignTask now e.TaskID e.NodeID).1 }, none)
      else
        ({ manifest := (fsm.manifest.AssignTask now e.TaskID e.NodeID).1 },
          some (ApplyError.assignFailed e.TaskID e.NodeID)) := by
  simp [Apply, DecodeLogEntry, entryJson, Entry.type, LogEntryAddTask, LogEntryAssignTask,
    applyAssignTask]

/-- The typed form of `applyUpdateTaskStatus`. -/
theorem Apply_updateTaskStatus (now : Int) (fsm : TaskManifestFSM)
    (e : UpdateTaskStatusEntry) :
    Apply entryJson now fsm (Entry.updateTaskStatus e) =
      if (fsm.manifest.UpdateTaskStatus e.TaskID (stringToTaskStatus e.Status)).2 = true then
        ({ manifest :=
            (fsm.manifest.UpdateTaskStatus e.TaskID (stringToTaskStatus e.Status)).1 }, none)
      else
        ({ manifest :=
            (fsm.manifest.UpdateTaskStatus e.TaskID (stringToTaskStatus e.Status)).1 },
          some (ApplyError.updateFailed e.TaskID)) := by
  simp [Apply, DecodeLogEntry, entryJson, Entry.type, LogEntryAddTask, LogEntryAssignTask,
    LogEntryUpdateTaskStatus, applyUpdateTaskStatus]

/-- The typed form of `applyCompleteTask`. -/
theorem Apply_completeTask (now : Int) (fsm : TaskManifestFSM) (e : CompleteTaskEntry) :
    Apply entryJson now fsm (Entry.completeTask e) =
      if (fsm.manifest.CompleteTask now e.TaskID e.ResultData).2 = true then
        ({ manifest := (fsm.manifest.CompleteTask now e.TaskID e.ResultData).1 }, none)
      else
        ({ manifest := (fsm.manifest.CompleteTask now e.TaskID e.ResultData).1 },
          some (ApplyError.completeFailed e.TaskID)) := by
  simp [Apply, DecodeLogEntry, entryJson, Entry.type, LogEntryAddTask, LogEntryAssignTask,
    LogEntryUpdateTaskStatus, LogEntryCompleteTask, applyCompleteTask]

/-- The typed form of `applyFailTask`. -/
theorem Apply_failTask (now : Int) (fsm : TaskManifestFSM) (e : FailTaskEntry) :
    Apply entryJson now fsm (Entry.failTask e) =
      ({ manifest := (fsm.manifest.UpdateTaskStatus e.TaskID TaskStatus.FAILED).1 }, none) := by
  simp [Apply, DecodeLogEntry, entryJson, Entry.type, LogEntryAddTask, LogEntryAssignTask,
    LogEntryUpdateTaskStatus, LogEntryCompleteTask, LogEntryFailTask, applyFailTask]

/-- The typed form of `applyNodeHeartbeat`. -/
theorem Apply_nodeHeartbeat (now : Int) (fsm : TaskManifestFSM) (e : NodeHeartbeatEntry) :
    Apply entryJson now fsm (Entry.nodeHeartbeat e) =
      ({ manifest := fsm.manifest.UpdateNodeHeartbeat now e.NodeID e.CPUUsage e.MemoryUsage
          e.ActiveTasks }, none) := by
  simp [Apply, DecodeLogEntry, entryJson, Entry.type, LogEntryAddTask, LogEntryAssignTask,
    LogEntryUpdateTaskStatus, LogEntryCompleteTask, LogEntryFailTask, LogEntryNodeHeartbeat,
    applyNodeHeartbeat]

/-- The typed form of `applyRegisterNode`. -/
theorem Apply_registerNode (now : Int) (fsm : TaskManifestFSM) (e : RegisterNodeEntry) :
    Apply entryJson now fsm (Entry.registerNode e) =
      ({ manifest := { fsm.manifest with
          Nodes := GoMap.set fsm.manifest.Nodes e.NodeID
            { NodeId := e.NodeID, Address := e.Address, CloudProvider := e.CloudProvider,
              Region := e.Region, Status := NodeStatus.HEALTHY,
              LastHeartbeat := e.RegisteredAt } } }, none) := by
  simp [Apply, DecodeLogEntry, entryJson, Entry.type, LogEntryAddTask, LogEntryAssignTask,
    LogEntryUpdateTaskStatus, LogEntryCompleteTask, LogEntryFailTask, LogEntryNodeHeartbeat,
    LogEntryRegisterNode, applyRegisterNode]

/-- Every typed entry is a well-formed entry of the typed decoder. -/
theorem decodes_entryJson (e : Entry) : Decodes entryJson e e :=
  ⟨e, rfl, by cases e <;> rfl⟩

/-- Whatever the bytes, `Apply` either leaves the FSM as it was or the bytes
are a well-formed entry. -/
theorem Apply_unchanged_or_decodes {B : Type} (json : Unmarshal B) (now : Int)
    (fsm : TaskManifestFSM) (data : B) :
    (Apply json now fsm data).1 = fsm ∨ ∃ e : Entry, Decodes json data e := by
  cases h : json.logEntry data with
  | none => left; simp [Apply, DecodeLogEntry, h]
  | some entry =>
    obtain ⟨t, p⟩ := entry
    by_cases h0 : t = LogEntryAddTask
    · subst h0
      cases h2 : json.addTask p with
      | none => left; simp [Apply, DecodeLogEntry, h, applyAddTask, h2]
      | some e => right; exact ⟨Entry.addTask e, p, h, h2⟩
    by_cases h1 : t = LogEntryAssignTask
    · subst h1
      cases h2 : json.assignTask p with
      | none => left; simp [Apply, DecodeLogEntry, h, applyAssignTask, h2, LogEntryAddTask,
          LogEntryAssignTask]
      | some e => right; exact ⟨Entry.assignTask e, p, h, h2⟩
    by_cases h2 : t = LogEntryUpdateTaskStatus
    · subst h2
      cases h2 : json.updateTaskStatus p with
      | none => left; simp [Apply, DecodeLogEntry, h, applyUpdateTaskStatus, h2,
          LogEntryAddTask, LogEntryAssignTask, LogEntryUpdateTaskStatus]
      | some e => right; exact ⟨Entry.updateTaskStatus e, p, h, h2⟩
    by_cases h3 : t = LogEntryCompleteTask
    · subst h3
      cases h2 : json.completeTask p with
      | none => left; simp [Apply, DecodeLogEntry, h, applyCompleteTask, h2,
          LogEntryAddTask, LogEntryAssignTask, LogEntryUpdateTaskStatus, LogEntryCompleteTask]
      | some e => right; exact ⟨Entry.completeTask e, p, h, h2⟩
    by_cases h4 : t = LogEntryFailTask
    · subst h4
      cases h2 : json.failTask p with
      | none => left; simp [Apply, DecodeLogEntry, h, applyFailTask, h2,
          LogEntryAddTask, LogEntryAssignTask, LogEntryUpdateTaskStatus, LogEntryCompleteTask,
          LogEntryFailTask]
      | some e => right; exact ⟨Entry.failTask e, p, h, h2⟩
    by_cases h5 : t = LogEntryNodeHeartbeat
    · subst h5
      cases h2 : json.nodeHeartbeat p with
      | none => left; simp [Apply, DecodeLogEntry, h, applyNodeHeartbeat, h2,
          LogEntryAddTask, LogEntryAssignTask, LogEntryUpdateTaskStatus, LogEntryCompleteTask,
          LogEntryFailTask, LogEntryNodeHeartbeat]
      | some e => right; exact ⟨Entry.nodeHeartbeat e, p, h, h2⟩
    by_cases h6 : t = LogEntryRegisterNode
    · subst h6
      cases h2 : json.registerNode p with
      | none => left; simp [Apply, DecodeLogEntry, h, applyRegisterNode, h2,
          LogEntryAddTask, LogEntryAssignTask, LogEntryUpdateTaskStatus, LogEntryCompleteTask,
          LogEntryFailTask, LogEntryNodeHeartbeat, LogEntryRegisterNode]
      | some e => right; exact ⟨Entry.registerNode e, p, h, h2⟩
    left
    simp [Apply, DecodeLogEntry, h, h0, h1, h2, h3, h4, h5, h6]

/-- In range, the `int32` increment is the integer increment. -/
theorem wrapInt32_succ (x : Int) (hlo : -2147483648 ≤ x) (hhi : x < 2147483647) :
    wrapInt32 (x + 1) = x + 1 := by
  unfold wrapInt32
  omega

/-! ## AddTask -/

/-- C5. AddTask idempotence: applying the same AddTask entry twice in a row
with `Apply` leaves the same manifest as applying it once (whatever the clock
reads at the two calls), and both calls return no error. -/
theorem C5_addTask_idempotent {B : Type} (json : Unmarshal B) (now1 now2 : Int)
    (fsm : TaskManifestFSM) (data : B) (e : AddTaskEntry)
    (hdec : Decodes json data (Entry.addTask e)) :
    (Apply json now2 (Apply json now1 fsm data).1 data).1 = (Apply json now1 fsm data).1 ∧
    (Apply json now1 fsm data).2 = none ∧
    (Apply json now2 (Apply json now1 fsm data).1 data).2 = none := by
  simp only [Apply_of_decodes json _ _ data _ hdec, Apply_addTask, TaskManifest.AddTask,
    GoMap.set_set, and_self]

theorem C5_addTask_idempotent_witness :
    Decodes entryJson (Entry.addTask { TaskID := "t1", TaskType := "matmul" })
      (Entry.addTask { TaskID := "t1", TaskType := "matmul" }) ∧
    (Apply entryJson 2 (Apply entryJson 1 NewTaskManifestFSM
        (Entry.addTask { TaskID := "t1", TaskType := "matmul" })).1
        (Entry.addTask { TaskID := "t1", TaskType := "matmul" })).1 =
      (Apply entryJson 1 NewTaskManifestFSM
        (Entry.addTask { TaskID := "t1", TaskType := "matmul" })).1 :=
  ⟨⟨_, rfl, rfl⟩,
   (C5_addTask_idempotent entryJson 1 2 NewTaskManifestFSM _ _ ⟨_, rfl, rfl⟩).1⟩

/-- C6, as stated, fails: on a manifest in which task `t1` is ASSIGNED to node
`n1`, an AddTask entry for `t1` is not a no-op; it puts `t1` back to PENDING
and clears its assignment and its start time. -/
theorem C6_addTask_existing_counterexample :
    GoMap.get exampleAssigned.manifest.Tasks "t1" =
      some { TaskId := "t1", TaskType := "matmul", Status := TaskStatus.ASSIGNED,
             AssignedNodeId := "n1", StartedAt := 7 } ∧
    (Apply entryJson 9 exampleAssigned (Entry.addTask { TaskID := "t1" })).1 ≠
      exampleAssigned ∧
    GoMap.get (Apply entryJson 9 exampleAssigned
        (Entry.addTask { TaskID := "t1" })).1.manifest.Tasks "t1" =
      some { TaskId := "t1", Status := TaskStatus.PENDING } := by
  decide

/-- C6, amended. AddTask on an existing id overwrites: `Apply` returns no
error and the task stored under the id is replaced by the PENDING task built
from the entry (no assignment, zero start and completion times, empty result),
whatever it was before; the number of tasks, every other task and all nodes
are unchanged. -/
theorem C6_addTask_existing_overwrites {B : Type} (json : Unmarshal B) (now : Int)
    (fsm : TaskManifestFSM) (data : B) (e : AddTaskEntry) (old : Task)
    (hdec : Decodes json data (Entry.addTask e))
    (hold : GoMap.get fsm.manifest.Tasks e.TaskID = some old) :
    (Apply json now fsm data).2 = none ∧
    GoMap.get (Apply json now fsm data).1.manifest.Tasks e.TaskID =
      some { TaskId := e.TaskID, TaskType := e.TaskType, Status := TaskStatus.PENDING,
             AssignedNodeId := "", TaskData := e.TaskData, CreatedAt := e.CreatedAt,
             StartedAt := 0, CompletedAt := 0, ResultData := "" } ∧
    (Apply json now fsm data).1.manifest.Tasks.length = fsm.manifest.Tasks.length ∧
    (∀ k : String, k ≠ e.TaskID →
      GoMap.get (Apply json now fsm data).1.manifest.Tasks k =
        GoMap.get fsm.manifest.Tasks k) ∧
    (Apply json now fsm data).1.manifest.Nodes = fsm.manifest.Nodes := by
  rw [Apply_of_decodes json _ _ data _ hdec, Apply_addTask]
  refine ⟨rfl, GoMap.get_set_self _ _ _, GoMap.length_set_of_get_some _ _ _ _ hold, ?_, rfl⟩
  intro k hk
  exact GoMap.get_set_ne _ _ _ _ hk

theorem C6_addTask_existing_overwrites_witness :
    GoMap.get exampleAssigned.manifest.Tasks "t1" =
      some { TaskId := "t1", TaskType := "matmul", Status := TaskStatus.ASSIGNED,
             AssignedNodeId := "n1", StartedAt := 7 } ∧
    (Apply entryJson 9 exampleAssigned (Entry.addTask { TaskID := "t1" })).1.manifest.Nodes =
      exampleAssigned.manifest.Nodes :=
  ⟨by decide,
   (C6_addTask_existing_overwrites entryJson 9 exampleAssigned
      (Entry.addTask { TaskID := "t1" }) { TaskID := "t1" }
      { TaskId := "t1", TaskType := "matmul", Status := TaskStatus.ASSIGNED,
        AssignedNodeId := "n1", StartedAt := 7 } ⟨_, rfl, rfl⟩ (by decide)).2.2.2.2⟩

/-- C7. AddTask inserts a PENDING task: when the manifest has no task under
the entry's id, `Apply` returns no error and afterwards the manifest has exactly
one more task, stored under that id, with status PENDING, the entry's
task_type, task_data and created_at, empty assigned_node_id and zero
started_at and completed_at; every other task and all nodes are unchanged. -/
theorem C7_addTask_inserts_pending {B : Type} (json : Unmarshal B) (now : Int)
    (fsm : TaskManifestFSM) (data : B) (e : AddTaskEntry)
    (hdec : Decodes json data (Entry.addTask e))
    (hnew : GoMap.get fsm.manifest.Tasks e.TaskID = none) :
    (Apply json now fsm data).2 = none ∧
    (Apply json now fsm data).1.manifest.Tasks.length = fsm.manifest.Tasks.length + 1 ∧
    GoMap.get (Apply json now fsm data).1.manifest.Tasks e.TaskID =
      some { TaskId := e.TaskID, TaskType := e.TaskType, Status := TaskStatus.PENDING,
             AssignedNodeId := "", TaskData := e.TaskData, CreatedAt := e.CreatedAt,
             StartedAt := 0, CompletedAt := 0, ResultData := "" } ∧
    (∀ k : String, k ≠ e.TaskID →
      GoMap.get (Apply json now fsm data).1.manifest.Tasks k =
        GoMap.get fsm.manifest.Tasks k) ∧
    (Apply json now fsm data).1.manifest.Nodes = fsm.manifest.Nodes := by
  rw [Apply_of_decodes json _ _ data _ hdec, Apply_addTask]
  refine ⟨rfl, GoMap.length_set_of_get_none _ _ _ hnew, GoMap.get_set_self _ _ _, ?_, rfl⟩
  intro k hk
  exact GoMap.get_set_ne _ _ _ _ hk

theorem C7_addTask_inserts_pending_witness :
    GoMap.get NewTaskManifestFSM.manifest.Tasks "t1" = none ∧
    (Apply entryJson 3 NewTaskManifestFSM
      (Entry.addTask { TaskID := "t1", TaskType := "matmul" })).1.manifest.Tasks.length =
      NewTaskManifestFSM.manifest.Tasks.length + 1 :=
  ⟨by decide,
   (C7_addTask_inserts_pending entryJson 3 NewTaskManifestFSM
      (Entry.addTask { TaskID := "t1", TaskType := "matmul" })
      { TaskID := "t1", TaskType := "matmul" } ⟨_, rfl, rfl⟩ (by decide)).2.1⟩

/-! ## AssignTask -/

/-- C8, as stated, fails: the state in which task `t1` is PENDING and node
`n1` has 2147483647 active tasks is reached by an AddTask and a NodeHeartbeat
entry; the AssignTask entry `(t1, n1)` then leaves `n1` with -2147483648 active
tasks, not one more than before. -/
theorem C8_assignTask_counterexample :
    applyLog entryJson (fun _ => 5) 0 NewTaskManifestFSM
      [Entry.addTask { TaskID := "t1" },
       Entry.nodeHeartbeat { NodeID := "n1", ActiveTasks := 2147483647 }] =
      exampleSaturated ∧
    (GoMap.get exampleSaturated.manifest.Nodes "n1").map Node.ActiveTasks =
      some 2147483647 ∧
    (Apply entryJson 6 exampleSaturated
      (Entry.assignTask { TaskID := "t1", NodeID := "n1" })).2 = none ∧
    (GoMap.get (Apply entryJson 6 exampleSaturated
      (Entry.assignTask { TaskID := "t1", NodeID := "n1" })).1.manifest.Nodes "n1").map
        Node.ActiveTasks = some (-2147483648) := by
  decide

/-- C8, amended. AssignTask effect: when the manifest contains the entry's
task, `Apply` returns no error and afterwards the task has the entry's node as
assigned_node_id and status ASSIGNED (its other fields but started_at are
kept); if the node exists and its active_tasks, an `int32`, is below
2147483647, its active_tasks is exactly one more than before and its other
fields are kept; if the node does not exist the nodes are unchanged; the task
ids and node ids, every other task and every other node are unchanged. -/
theorem C8_assignTask_effect {B : Type} (json : Unmarshal B) (now : Int)
    (fsm : TaskManifestFSM) (data : B) (e : AssignTaskEntry) (task : Task)
    (hdec : Decodes json data (Entry.assignTask e))
    (htask : GoMap.get fsm.manifest.Tasks e.TaskID = some task) :
    (Apply json now fsm data).2 = none ∧
    GoMap.get (Apply json now fsm data).1.manifest.Tasks e.TaskID =
      some { task with AssignedNodeId := e.NodeID, Status := TaskStatus.ASSIGNED,
                       StartedAt := now } ∧
    (∀ node : Node, GoMap.get fsm.manifest.Nodes e.NodeID = some node →
      -2147483648 ≤ node.ActiveTasks → node.ActiveTasks < 2147483647 →
      GoMap.get (Apply json now fsm data).1.manifest.Nodes e.NodeID =
        some { node with ActiveTasks := node.ActiveTasks + 1 }) ∧
    (GoMap.get fsm.manifest.Nodes e.NodeID = none →
      (Apply json now fsm data).1.manifest.Nodes = fsm.manifest.Nodes) ∧
    GoMap.keys (Apply json now fsm data).1.manifest.Tasks = GoMap.keys fsm.manifest.Tasks ∧
    GoMap.keys (Apply json now fsm data).1.manifest.Nodes = GoMap.keys fsm.manifest.Nodes ∧
    (∀ k : String, k ≠ e.TaskID →
      GoMap.get (Apply json now fsm data).1.manifest.Tasks k =
        GoMap.get fsm.manifest.Tasks k) ∧
    (∀ k : String, k ≠ e.NodeID →
      GoMap.get (Apply json now fsm data).1.manifest.Nodes k =
        GoMap.get fsm.manifest.Nodes k) := by
  rw [Apply_of_decodes json _ _ data _ hdec, Apply_assignTask]
  cases hnode : GoMap.get fsm.manifest.Nodes e.NodeID with
  | none =>
    have hA : fsm.manifest.AssignTask now e.TaskID e.NodeID =
        ({ Tasks := GoMap.set fsm.manifest.Tasks e.TaskID
             { task with AssignedNodeId := e.NodeID, Status := TaskStatus.ASSIGNED,
                         StartedAt := now },
           Nodes := fsm.manifest.Nodes }, true) := by
      simp [TaskManifest.AssignTask, htask, hnode]
    rw [hA, if_pos rfl]
    refine ⟨rfl, GoMap.get_set_self _ _ _, ?_, fun _ => rfl,
      GoMap.keys_set_of_get_some _ _ _ _ htask, rfl, ?_, fun _ _ => rfl⟩
    · intro node h
      cases h
    · intro k hk
      exact GoMap.get_set_ne _ _ _ _ hk
  | some node =>
    have hA : fsm.manifest.AssignTask now e.TaskID e.NodeID =
        ({ Tasks := GoMap.set fsm.manifest.Tasks e.TaskID
             { task with AssignedNodeId := e.NodeID, Status := TaskStatus.ASSIGNED,
                         StartedAt := now },
           Nodes := GoMap.set fsm.manifest.Nodes e.NodeID
             { node with ActiveTasks := wrapInt32 (node.ActiveTasks + 1) } }, true) := by
      simp [TaskManifest.AssignTask, htask, hnode]
    rw [hA, if_pos rfl]
    refine ⟨rfl, GoMap.get_set_self _ _ _, ?_, ?_,
      GoMap.keys_set_of_get_some _ _ _ _ htask,
      GoMap.keys_set_of_get_some _ _ _ _ hnode, ?_, ?_⟩
    · intro node' h hlo hhi
      cases h
      show GoMap.get (GoMap.set _ _ _) _ = _
      rw [GoMap.get_set_self, wrapInt32_succ _ hlo hhi]
    · intro h
      cases h
    · intro k hk
      exact GoMap.get_set_ne _ _ _ _ hk
    · intro k hk
      exact GoMap.get_set_ne _ _ _ _ hk

theorem C8_assignTask_effect_witness :
    GoMap.get exampleAssigned.manifest.Tasks "t1" =
      some { TaskId := "t1", TaskType := "matmul", Status := TaskStatus.ASSIGNED,
             AssignedNodeId := "n1", StartedAt := 7 } ∧
    GoMap.get (Apply entryJson 9 exampleAssigned
      (Entry.assignTask { TaskID := "t1", NodeID := "n1" })).1.manifest.Nodes "n1" =
      some { NodeId := "n1", Address := "a:1", ActiveTasks := 1 + 1 } :=
  ⟨by decide,
   (C8_assignTask_effect entryJson 9 exampleAssigned
      (Entry.assignTask { TaskID := "t1", NodeID := "n1" }) { TaskID := "t1", NodeID := "n1" }
      { TaskId := "t1", TaskType := "matmul", Status := TaskStatus.ASSIGNED,
        AssignedNodeId := "n1", StartedAt := 7 } ⟨_, rfl, rfl⟩ (by decide)).2.2.1
      { NodeId := "n1", Address := "a:1", ActiveTasks := 1 } (by decide) (by decide)
      (by decide)⟩

/-! ## UpdateTaskStatus -/

/-- C10, as stated, fails: on a manifest in which task `t1` is COMPLETED, the
UpdateTaskStatus entry `(t1, PENDING)` returns no error and puts the task back
to PENDING. -/
theorem C10_updateTaskStatus_counterexample :
    (GoMap.get exampleCompleted.manifest.Tasks "t1").map Task.Status =
      some TaskStatus.COMPLETED ∧
    (Apply entryJson 9 exampleCompleted
      (Entry.updateTaskStatus { TaskID := "t1", Status := "PENDING" })).2 = none ∧
    (Apply entryJson 9 exampleCompleted
      (Entry.updateTaskStatus { TaskID := "t1", Status := "PENDING" })).1 ≠
      exampleCompleted ∧
    (GoMap.get (Apply entryJson 9 exampleCompleted
      (Entry.updateTaskStatus { TaskID := "t1", Status := "PENDING" })).1.manifest.Tasks
        "t1").map Task.Status = some TaskStatus.PENDING := by
  decide

/-- C10, amended. UpdateTaskStatus overwrites: when the manifest contains the
entry's task, whatever its current status, `Apply` returns no error and the
status of the task becomes the one the entry's string maps to; the other
fields of the task, the task ids, every other task and all nodes are
unchanged. -/
theorem C10_updateTaskStatus_overwrites {B : Type} (json : Unmarshal B) (now : Int)
    (fsm : TaskManifestFSM) (data : B) (e : UpdateTaskStatusEntry) (task : Task)
    (hdec : Decodes json data (Entry.updateTaskStatus e))
    (htask : GoMap.get fsm.manifest.Tasks e.TaskID = some task) :
    (Apply json now fsm data).2 = none ∧
    GoMap.get (Apply json now fsm data).1.manifest.Tasks e.TaskID =
      some { task with Status := stringToTaskStatus e.Status } ∧
    GoMap.keys (Apply json now fsm data).1.manifest.Tasks = GoMap.keys fsm.manifest.Tasks ∧
    (∀ k : String, k ≠ e.TaskID →
      GoMap.get (Apply json now fsm data).1.manifest.Tasks k =
        GoMap.get fsm.manifest.Tasks k) ∧
    (Apply json now fsm data).1.manifest.Nodes = fsm.manifest.Nodes := by
  rw [Apply_of_decodes json _ _ data _ hdec, Apply_updateTaskStatus]
  have hU : fsm.manifest.UpdateTaskStatus e.TaskID (stringToTaskStatus e.Status) =
      ({ Tasks := GoMap.set fsm.manifest.Tasks e.TaskID
           { task with Status := stringToTaskStatus e.Status },
         Nodes := fsm.manifest.Nodes }, true) := by
    simp [TaskManifest.UpdateTaskStatus, htask]
  rw [hU, if_pos rfl]
  refine ⟨rfl, GoMap.get_set_self _ _ _, GoMap.keys_set_of_get_some _ _ _ _ htask, ?_, rfl⟩
  intro k hk
  exact GoMap.get_set_ne _ _ _ _ hk

theorem C10_updateTaskStatus_overwrites_witness :
    GoMap.get exampleCompleted.manifest.Tasks "t1" =
      some { TaskId := "t1", TaskType := "matmul", Status := TaskStatus.COMPLETED,
             AssignedNodeId := "n1", StartedAt := 7, CompletedAt := 8, ResultData := "ok" } ∧
    (Apply entryJson 9 exampleCompleted
      (Entry.updateTaskStatus { TaskID := "t1", Status := "RUNNING" })).2 = none :=
  ⟨by decide,
   (C10_updateTaskStatus_overwrites entryJson 9 exampleCompleted
      (Entry.updateTaskStatus { TaskID := "t1", Status := "RUNNING" })
      { TaskID := "t1", Status := "RUNNING" }
      { TaskId := "t1", TaskType := "matmul", Status := TaskStatus.COMPLETED,
        AssignedNodeId := "n1", StartedAt := 7, CompletedAt := 8, ResultData := "ok" }
      ⟨_, rfl, rfl⟩ (by decide)).1⟩

/-! ## Sequences of entries -/

/-- An entry that does not carry the id `t` leaves the task stored under `t`
as it was. -/
theorem Apply_get_task_of_ne (now : Int) (fsm : TaskManifestFSM) (e : Entry) (t : String)
    (hne : e.taskID ≠ some t) :
    GoMap.get (Apply entryJson now fsm e).1.manifest.Tasks t = GoMap.get fsm.manifest.Tasks t := by
  cases e with
  | addTask e =>
    have h : t ≠ e.TaskID := fun h => hne (by simp [Entry.taskID, h])
    rw [Apply_addTask]
    exact GoMap.get_set_ne _ _ _ _ h
  | assignTask e =>
    have h : t ≠ e.TaskID := fun h => hne (by simp [Entry.taskID, h])
    rw [Apply_assignTask]
    unfold TaskManifest.AssignTask
    cases GoMap.get fsm.manifest.Tasks e.TaskID with
    | none => simp
    | some task =>
      cases GoMap.get fsm.manifest.Nodes e.NodeID with
      | none => simpa using GoMap.get_set_ne _ _ _ _ h
      | some node => simpa using GoMap.get_set_ne _ _ _ _ h
  | updateTaskStatus e =>
    have h : t ≠ e.TaskID := fun h => hne (by simp [Entry.taskID, h])
    rw [Apply_updateTaskStatus]
    unfold TaskManifest.UpdateTaskStatus
    cases GoMap.get fsm.manifest.Tasks e.TaskID with
    | none => simp
    | some task => simpa using GoMap.get_set_ne _ _ _ _ h
  | completeTask e =>
    have h : t ≠ e.TaskID := fun h => hne (by simp [Entry.taskID, h])
    rw [Apply_completeTask]
    unfold TaskManifest.CompleteTask
    cases GoMap.get fsm.manifest.Tasks e.TaskID with
    | none => simp
    | some task => simpa using GoMap.get_set_ne _ _ _ _ h
  | failTask e =>
    have h : t ≠ e.TaskID := fun h => hne (by simp [Entry.taskID, h])
    rw [Apply_failTask]
    unfold TaskManifest.UpdateTaskStatus
    cases GoMap.get fsm.manifest.Tasks e.TaskID with
    | none => simp
    | some task => simpa using GoMap.get_set_ne _ _ _ _ h
  | nodeHeartbeat e =>
    rw [Apply_nodeHeartbeat]
    rfl
  | registerNode e =>
    rw [Apply_registerNode]

/-- The typed decoder decodes an entry to itself only. -/
theorem eq_of_decodes_entryJson (d e : Entry) (h : Decodes entryJson d e) : e = d := by
  obtain ⟨p, h1, h2⟩ := h
  simp only [DecodeLogEntry, entryJson, Option.some.injEq, LogEntry.mk.injEq] at h1
  obtain ⟨_, rfl⟩ := h1
  cases e <;> cases d <;> simp_all [PayloadDecodes, entryJson]

/-- C4, as stated, fails: on a manifest in which task `t1` is COMPLETED, the
log made of one AssignTask entry for `t1` leaves it ASSIGNED, and the log made
of one AddTask entry for `t1` leaves it PENDING. -/
theorem C4_lifecycle_counterexample :
    (GoMap.get exampleCompleted.manifest.Tasks "t1").map Task.Status =
      some TaskStatus.COMPLETED ∧
    (GoMap.get (applyLog entryJson (fun _ => 9) 0 exampleCompleted
      [Entry.assignTask { TaskID := "t1", NodeID := "n1" }]).manifest.Tasks "t1").map
        Task.Status = some TaskStatus.ASSIGNED ∧
    (GoMap.get (applyLog entryJson (fun _ => 9) 0 exampleCompleted
      [Entry.addTask { TaskID := "t1" }]).manifest.Tasks "t1").map
        Task.Status = some TaskStatus.PENDING := by
  decide

/-- C4, amended. A task is changed only by entries that carry its id: for
every manifest with a task stored under `t` (in particular one that is
COMPLETED or FAILED) and every sequence of log entries none of whose
well-formed members carries the task id `t`, after the sequence is applied the
task stored under `t` is the same record, with the same status. -/
theorem C4_status_kept_by_other_entries {B : Type} (json : Unmarshal B) (clock : Nat → Int)
    (i : Nat) (fsm : TaskManifestFSM) (log : List B) (t : String) (task : Task)
    (htask : GoMap.get fsm.manifest.Tasks t = some task)
    (hother : ∀ d ∈ log, ∀ e : Entry, Decodes json d e → e.taskID ≠ some t) :
    GoMap.get (applyLog json clock i fsm log).manifest.Tasks t = some task ∧
    (GoMap.get (applyLog json clock i fsm log).manifest.Tasks t).map Task.Status =
      some task.Status := by
  suffices h : GoMap.get (applyLog json clock i fsm log).manifest.Tasks t = some task by
    simp [h]
  induction log generalizing i fsm with
  | nil => simpa [applyLog] using htask
  | cons d rest ih =>
    simp only [applyLog]
    apply ih
    · rcases Apply_unchanged_or_decodes json (clock i) fsm d with h | ⟨e, he⟩
      · rw [h]; exact htask
      · rw [Apply_of_decodes json _ _ d e he,
          Apply_get_task_of_ne _ _ e t (hother d (List.mem_cons_self _ _) e he)]
        exact htask
    · intro d' hd'
      exact hother d' (List.mem_cons_of_mem _ hd')

theorem C4_status_kept_by_other_entries_witness :
    GoMap.get exampleCompleted.manifest.Tasks "t1" =
      some { TaskId := "t1", TaskType := "matmul", Status := TaskStatus.COMPLETED,
             AssignedNodeId := "n1", StartedAt := 7, CompletedAt := 8, ResultData := "ok" } ∧
    (GoMap.get (applyLog entryJson (fun _ => 9) 0 exampleCompleted
      [Entry.addTask { TaskID := "t2" }, Entry.registerNode { NodeID := "n1" },
       Entry.assignTask { TaskID := "t2", NodeID := "n1" }]).manifest.Tasks "t1").map
        Task.Status = some TaskStatus.COMPLETED :=
  ⟨by decide,
   (C4_status_kept_by_other_entries entryJson (fun _ => 9) 0 exampleCompleted
      [Entry.addTask { TaskID := "t2" }, Entry.registerNode { NodeID := "n1" },
       Entry.assignTask { TaskID := "t2", NodeID := "n1" }] "t1"
      { TaskId := "t1", TaskType := "matmul", Status := TaskStatus.COMPLETED,
        AssignedNodeId := "n1", StartedAt := 7, CompletedAt := 8, ResultData := "ok" }
      (by decide)
      (by
        intro d hd e he
        have hed := eq_of_decodes_entryJson d e he
        subst hed
        simp only [List.mem_cons, List.mem_singleton, List.not_mem_nil, or_false] at hd
        rcases hd with rfl | rfl | rfl <;> decide)).2⟩

/-! ## Wall clock -/

/-- C1 (code bug). The log `exampleLog` of three well-formed entries, an
AddTask, a RegisterNode and an AssignTask with assigned_at = 100, applied to two
fresh FSMs, yields different manifests when one replica applies it at clock
reading 100 and the other at 200: the task's started_at is the clock reading
of the replica. -/
theorem C1_replicas_diverge_on_clock :
    (∀ d ∈ exampleLog, ∃ e : Entry, Decodes entryJson d e) ∧
    applyLog entryJson (fun _ => 100) 0 NewTaskManifestFSM exampleLog ≠
      applyLog entryJson (fun _ => 200) 0 NewTaskManifestFSM exampleLog ∧
    (GoMap.get (applyLog entryJson (fun _ => 100) 0 NewTaskManifestFSM
      exampleLog).manifest.Tasks "t1").map Task.StartedAt = some 100 ∧
    (GoMap.get (applyLog entryJson (fun _ => 200) 0 NewTaskManifestFSM
      exampleLog).manifest.Tasks "t1").map Task.StartedAt = some 200 :=
  ⟨fun d _ => ⟨d, decodes_entryJson d⟩, by decide, by decide, by decide⟩

/-- C9 (code bug). Applied while the clock reads 200, an AssignTask entry with
assigned_at = 100 leaves started_at = 200, a CompleteTask entry with
completed_at = 100 leaves completed_at = 200, a NodeHeartbeat entry with
timestamp = 100 leaves last_heartbeat = 200, and a FailTask entry with
failed_at = 100 leaves completed_at as it was (0 here). -/
theorem C9_timestamps_not_from_entry :
    (GoMap.get (Apply entryJson 200 examplePending
      (Entry.assignTask { TaskID := "t1", NodeID := "n1", AssignedAt := 100 })).1.manifest.Tasks
        "t1").map Task.StartedAt = some 200 ∧
    (GoMap.get (Apply entryJson 200 exampleAssigned
      (Entry.completeTask { TaskID := "t1", ResultData := "ok",
                            CompletedAt := 100 })).1.manifest.Tasks
        "t1").map Task.CompletedAt = some 200 ∧
    (GoMap.get (Apply entryJson 200 exampleAssigned
      (Entry.nodeHeartbeat { NodeID := "n1", ActiveTasks := 1,
                             Timestamp := 100 })).1.manifest.Nodes
        "n1").map Node.LastHeartbeat = some 200 ∧
    (GoMap.get (Apply entryJson 200 exampleAssigned
      (Entry.failTask { TaskID := "t1", ErrorMessage := "boom",
                        FailedAt := 100 })).1.manifest.Tasks
        "t1").map Task.CompletedAt = some 0 := by
  decide

/-! ## Snapshot and restore -/

/-- Copying a map entry by entry into an empty map gives the same map back,
when the map holds each key once. -/
theorem foldl_set_eq_append {α : Type} (l acc : GoMap α)
    (hwf : GoMap.WF (acc ++ l)) :
    l.foldl (fun copy p => GoMap.set copy p.1 p.2) acc = acc ++ l := by
  induction l generalizing acc with
  | nil => simp
  | cons p rest ih =>
    obtain ⟨k, v⟩ := p
    have hk : GoMap.get acc k = none := by
      rw [GoMap.get_eq_none_iff]
      intro hmem
      unfold GoMap.WF GoMap.keys at hwf
      rw [List.map_append, List.nodup_append] at hwf
      exact hwf.2.2 hmem (by simp)
    have hstep : acc ++ (k, v) :: rest = (acc ++ [(k, v)]) ++ rest := by simp
    simp only [List.foldl_cons]
    rw [GoMap.set_eq_append acc k v hk, ih (acc ++ [(k, v)]) (hstep ▸ hwf), hstep]

/-- On a manifest whose maps hold each key once, `copyManifest` returns an
equal manifest. -/
theorem copyManifest_eq (fsm : TaskManifestFSM) (htasks : GoMap.WF fsm.manifest.Tasks)
    (hnodes : GoMap.WF fsm.manifest.Nodes) : copyManifest fsm = fsm.manifest := by
  have h1 := foldl_set_eq_append fsm.manifest.Tasks [] (by simpa using htasks)
  have h2 := foldl_set_eq_append fsm.manifest.Nodes [] (by simpa using hnodes)
  simp only [List.nil_append] at h1 h2
  unfold copyManifest
  rw [h1, h2]

/-- The decrement of `CompleteTask` keeps every node id once. -/
theorem decrementActive_WF (nodes : GoMap Node) (nodeID : String) (hwf : GoMap.WF nodes) :
    GoMap.WF (TaskManifest.decrementActive nodes nodeID) := by
  unfold TaskManifest.decrementActive
  split
  · split
    · exact GoMap.WF_set _ _ _ hwf
    · exact hwf
  · exact hwf

/-- `Apply` keeps every task id and every node id once. -/
theorem Apply_WF {B : Type} (json : Unmarshal B) (now : Int) (fsm : TaskManifestFSM)
    (data : B) (hwf : fsm.manifest.WF) : (Apply json now fsm data).1.manifest.WF := by
  rcases Apply_unchanged_or_decodes json now fsm data with h | ⟨e, he⟩
  · rw [h]; exact hwf
  · rw [Apply_of_decodes json _ _ data e he]
    obtain ⟨ht, hn⟩ := hwf
    cases e with
    | addTask e =>
      rw [Apply_addTask]
      exact ⟨GoMap.WF_set _ _ _ ht, hn⟩
    | assignTask e =>
      rw [Apply_assignTask]
      unfold TaskManifest.AssignTask
      cases GoMap.get fsm.manifest.Tasks e.TaskID with
      | none => exact ⟨ht, hn⟩
      | some task =>
        cases GoMap.get fsm.manifest.Nodes e.NodeID with
        | none => exact ⟨GoMap.WF_set _ _ _ ht, hn⟩
        | some node => exact ⟨GoMap.WF_set _ _ _ ht, GoMap.WF_set _ _ _ hn⟩
    | updateTaskStatus e =>
      rw [Apply_updateTaskStatus]
      unfold TaskManifest.UpdateTaskStatus
      cases GoMap.get fsm.manifest.Tasks e.TaskID with
      | none => exact ⟨ht, hn⟩
      | some task => exact ⟨GoMap.WF_set _ _ _ ht, hn⟩
    | completeTask e =>
      rw [Apply_completeTask]
      unfold TaskManifest.CompleteTask
      cases GoMap.get fsm.manifest.Tasks e.TaskID with
      | none => exact ⟨ht, hn⟩
      | some task => exact ⟨GoMap.WF_set _ _ _ ht, decrementActive_WF _ _ hn⟩
    | failTask e =>
      rw [Apply_failTask]
      unfold TaskManifest.UpdateTaskStatus
      cases GoMap.get fsm.manifest.Tasks e.TaskID with
      | none => exact ⟨ht, hn⟩
      | some task => exact ⟨GoMap.WF_set _ _ _ ht, hn⟩
    | nodeHeartbeat e =>
      rw [Apply_nodeHeartbeat]
      exact ⟨ht, GoMap.WF_set _ _ _ hn⟩
    | registerNode e =>
      rw [Apply_registerNode]
      exact ⟨ht, GoMap.WF_set _ _ _ hn⟩

/-- Applying a log keeps every task id and every node id once. -/
theorem applyLog_WF {B : Type} (json : Unmarshal B) (clock : Nat → Int) (i : Nat)
    (fsm : TaskManifestFSM) (log : List B) (hwf : fsm.manifest.WF) :
    (applyLog json clock i fsm log).manifest.WF := by
  induction log generalizing i fsm with
  | nil => exact hwf
  | cons d rest ih => exact ih _ _ (Apply_WF json _ fsm d hwf)

/-- `Snapshot`, `Persist` and `Restore` add nothing of their own to what the
snapshot codec does: for every FSM state `M` reached from a fresh FSM by
applying log entries, when the codec encodes every snapshot and decodes what it
encoded, persisting `M.Snapshot()` succeeds with some bytes, and `Restore` of
these bytes on a fresh FSM returns no error and leaves it with a manifest equal
to that of `M`. Whether `encoding/json` is such a codec is a separate matter,
which this lemma leaves open. -/
theorem snapshot_roundtrip_of_codec {B S : Type} (json : Unmarshal B)
    (sjson : SnapshotJson S) (clock : Nat → Int) (log : List B)
    (hcodec : ∀ d : TaskManifestSnapshotData,
      ∃ b : S, sjson.encode d = some b ∧ sjson.decode b = some d) :
    ∃ bytes : S,
      (Snapshot (applyLog json clock 0 NewTaskManifestFSM log)).Persist sjson =
        Except.ok bytes ∧
      Restore sjson NewTaskManifestFSM bytes =
        (applyLog json clock 0 NewTaskManifestFSM log, none) := by
  have hwf : (applyLog json clock 0 NewTaskManifestFSM log).manifest.WF :=
    applyLog_WF json clock 0 NewTaskManifestFSM log
      ⟨by simp [NewTaskManifestFSM, NewTaskManifest, GoMap.WF, GoMap.keys],
       by simp [NewTaskManifestFSM, NewTaskManifest, GoMap.WF, GoMap.keys]⟩
  have hcopy := copyManifest_eq _ hwf.1 hwf.2
  obtain ⟨b, henc, hdec⟩ := hcodec
    { Tasks := (applyLog json clock 0 NewTaskManifestFSM log).manifest.Tasks,
      Nodes := (applyLog json clock 0 NewTaskManifestFSM log).manifest.Nodes }
  refine ⟨b, ?_, ?_⟩
  · simp only [TaskManifestSnapshot.Persist, Snapshot, hcopy, henc]
  · simp only [Restore, hdec]

theorem snapshot_roundtrip_of_codec_example :
    (∀ d : TaskManifestSnapshotData,
      ∃ b : TaskManifestSnapshotData,
        plainSnapshotJson.encode d = some b ∧ plainSnapshotJson.decode b = some d) ∧
    ∃ bytes : TaskManifestSnapshotData,
      (Snapshot (applyLog entryJson (fun _ => 100) 0 NewTaskManifestFSM
        exampleLog)).Persist plainSnapshotJson = Except.ok bytes ∧
      Restore plainSnapshotJson NewTaskManifestFSM bytes =
        (applyLog entryJson (fun _ => 100) 0 NewTaskManifestFSM exampleLog, none) :=
  ⟨fun d => ⟨d, rfl, rfl⟩,
   snapshot_roundtrip_of_codec entryJson plainSnapshotJson (fun _ => 100) exampleLog
     (fun d => ⟨d, rfl, rfl⟩)⟩

/-! ## Active-task conservation -/

theorem countP_set_of_get_none {α : Type} (q : α → Bool) (m : GoMap α) (k : String) (v : α)
    (hget : GoMap.get m k = none) :
    (GoMap.set m k v).countP (fun p => q p.2) =
      m.countP (fun p => q p.2) + (if q v = true then 1 else 0) := by
  rw [GoMap.set_eq_append m k v hget, List.countP_append]
  simp [List.countP_cons]

theorem countP_set_of_get_some {α : Type} (q : α → Bool) (m : GoMap α) (k : String)
    (v old : α) (hget : GoMap.get m k = some old) :
    (GoMap.set m k v).countP (fun p => q p.2) + (if q old = true then 1 else 0) =
      m.countP (fun p => q p.2) + (if q v = true then 1 else 0) := by
  induction m with
  | nil => simp [GoMap.get] at hget
  | cons p rest ih =>
    obtain ⟨k', w⟩ := p
    by_cases h : k' = k
    · subst h
      simp only [GoMap.get, if_true, Option.some.injEq] at hget
      subst hget
      simp only [GoMap.set, if_true, List.countP_cons]
      omega
    · simp only [GoMap.get, h, if_false] at hget
      have := ih hget
      simp only [GoMap.set, h, if_false, List.countP_cons]
      omega

theorem activeCount_set_of_get_none (tasks : GoMap Task) (t : String) (v : Task) (n : String)
    (hget : GoMap.get tasks t = none) :
    activeCount (GoMap.set tasks t v) n =
      activeCount tasks n + (if activeFor n v = true then 1 else 0) :=
  countP_set_of_get_none (activeFor n) tasks t v hget

theorem activeCount_set_of_get_some (tasks : GoMap Task) (t : String) (v old : Task)
    (n : String) (hget : GoMap.get tasks t = some old) :
    activeCount (GoMap.set tasks t v) n + (if activeFor n old = true then 1 else 0) =
      activeCount tasks n + (if activeFor n v = true then 1 else 0) :=
  countP_set_of_get_some (activeFor n) tasks t v old hget

/-- An AddTask entry with a new id keeps conservation. -/
theorem conserved_addTask (tm : TaskManifest) (task : Task)
    (hinv : Conserved tm) (hnew : GoMap.get tm.Tasks task.TaskId = none)
    (hpending : task.Status = TaskStatus.PENDING) : Conserved (tm.AddTask task) := by
  intro k node hget
  obtain ⟨h1, h2⟩ := hinv k node hget
  refine ⟨h1, ?_⟩
  show node.ActiveTasks = (activeCount (GoMap.set tm.Tasks task.TaskId task) node.NodeId : Int)
  rw [activeCount_set_of_get_none _ _ _ _ hnew, h2]
  simp [activeFor, hpending, TaskStatus.isActive]

/-- An AssignTask entry for a task that is not active keeps conservation. -/
theorem conserved_assignTask (tm : TaskManifest) (now : Int) (t n : String)
    (hinv : Conserved tm)
    (hidle : ∀ task : Task, GoMap.get tm.Tasks t = some task → task.Status.isActive = false)
    (hroom : activeCount tm.Tasks n < 2147483647) :
    Conserved (tm.AssignTask now t n).1 := by
  unfold TaskManifest.AssignTask
  cases htask : GoMap.get tm.Tasks t with
  | none => exact hinv
  | some task =>
    have hold : ∀ k : String, activeFor k task = false := by
      intro k
      simp [activeFor, hidle task htask]
    have hcount : ∀ k : String,
        activeCount (GoMap.set tm.Tasks t
          { task with AssignedNodeId := n, Status := TaskStatus.ASSIGNED, StartedAt := now }) k =
          activeCount tm.Tasks k + (if n = k then 1 else 0) := by
      intro k
      have h := activeCount_set_of_get_some tm.Tasks t
        { task with AssignedNodeId := n, Status := TaskStatus.ASSIGNED, StartedAt := now }
        task k htask
      simp only [hold k] at h
      simpa [activeFor, TaskStatus.isActive] using h
    cases hnode : GoMap.get tm.Nodes n with
    | none =>
      intro k node hget
      have hget' : GoMap.get tm.Nodes k = some node := hget
      obtain ⟨h1, h2⟩ := hinv k node hget'
      refine ⟨h1, ?_⟩
      have hkn : ¬ n = k := by
        intro h
        subst h
        rw [hnode] at hget'
        cases hget'
      show node.ActiveTasks = (activeCount (GoMap.set tm.Tasks t _) node.NodeId : Int)
      rw [hcount, h1, if_neg hkn, h2, h1]
      simp
    | some node0 =>
      obtain ⟨h01, h02⟩ := hinv n node0 hnode
      intro k node hget
      have hget' : GoMap.get (GoMap.set tm.Nodes n
          { node0 with ActiveTasks := wrapInt32 (node0.ActiveTasks + 1) }) k = some node := hget
      show node.NodeId = k ∧
        node.ActiveTasks = (activeCount (GoMap.set tm.Tasks t _) node.NodeId : Int)
      by_cases hkn : k = n
      · subst hkn
        rw [GoMap.get_set_self] at hget'
        cases hget'
        refine ⟨h01, ?_⟩
        show wrapInt32 (node0.ActiveTasks + 1) = _
        rw [hcount, h01, if_pos rfl, h02, h01, wrapInt32_succ _ (by omega) (by omega)]
        simp
      · rw [GoMap.get_set_ne _ _ _ _ hkn] at hget'
        obtain ⟨h1, h2⟩ := hinv k node hget'
        refine ⟨h1, ?_⟩
        rw [hcount, h1, if_neg (fun h => hkn h.symm), h2, h1]
        simp

/-- An UpdateTaskStatus that keeps its task on the same side of ASSIGNED and
RUNNING keeps conservation. -/
theorem conserved_updateTaskStatus (tm : TaskManifest) (t : String) (status : TaskStatus)
    (hinv : Conserved tm)
    (hside : ∀ task : Task, GoMap.get tm.Tasks t = some task →
      task.Status.isActive = status.isActive) :
    Conserved (tm.UpdateTaskStatus t status).1 := by
  unfold TaskManifest.UpdateTaskStatus
  cases htask : GoMap.get tm.Tasks t with
  | none => exact hinv
  | some task =>
    intro k node hget
    obtain ⟨h1, h2⟩ := hinv k node hget
    refine ⟨h1, ?_⟩
    show node.ActiveTasks =
      (activeCount (GoMap.set tm.Tasks t { task with Status := status }) node.NodeId : Int)
    have h := activeCount_set_of_get_some tm.Tasks t { task with Status := status } task
      node.NodeId htask
    have hsame : activeFor node.NodeId { task with Status := status } =
        activeFor node.NodeId task := by
      simp [activeFor, hside task htask]
    rw [hsame] at h
    rw [h2]
    omega

/-- A CompleteTask entry for an active task keeps conservation. -/
theorem conserved_completeTask (tm : TaskManifest) (now : Int) (t r : String)
    (hinv : Conserved tm)
    (hactive : ∀ task : Task, GoMap.get tm.Tasks t = some task →
      task.Status.isActive = true) :
    Conserved (tm.CompleteTask now t r).1 := by
  unfold TaskManifest.CompleteTask
  cases htask : GoMap.get tm.Tasks t with
  | none => exact hinv
  | some task =>
    have hcount : ∀ k : String,
        activeCount (GoMap.set tm.Tasks t
          { task with Status := TaskStatus.COMPLETED, CompletedAt := now, ResultData := r }) k +
          (if task.AssignedNodeId = k then 1 else 0) = activeCount tm.Tasks k := by
      intro k
      have h := activeCount_set_of_get_some tm.Tasks t
        { task with Status := TaskStatus.COMPLETED, CompletedAt := now, ResultData := r }
        task k htask
      have hnew : activeFor k
          { task with Status := TaskStatus.COMPLETED, CompletedAt := now, ResultData := r } =
          false := by
        simp [activeFor, TaskStatus.isActive]
      have hold : activeFor k task = decide (task.AssignedNodeId = k) := by
        simp [activeFor, hactive task htask]
      rw [hnew, hold] at h
      simpa using h
    intro k node hget
    have hget' : GoMap.get (TaskManifest.decrementActive tm.Nodes task.AssignedNodeId) k =
        some node := hget
    show node.NodeId = k ∧ node.ActiveTasks = (activeCount (GoMap.set tm.Tasks t _) node.NodeId : Int)
    unfold TaskManifest.decrementActive at hget'
    cases hnode : GoMap.get tm.Nodes task.AssignedNodeId with
    | none =>
      rw [hnode] at hget'
      simp only at hget'
      obtain ⟨h1, h2⟩ := hinv k node hget'
      refine ⟨h1, ?_⟩
      have hk : ¬ task.AssignedNodeId = k := by
        intro h
        rw [h, hget'] at hnode
        cases hnode
      have hc := hcount k
      rw [if_neg hk] at hc
      rw [h1, h2, h1]
      omega
    | some node0 =>
      rw [hnode] at hget'
      simp only at hget'
      obtain ⟨h01, h02⟩ := hinv _ node0 hnode
      have hc0 := hcount task.AssignedNodeId
      rw [if_pos rfl] at hc0
      rw [h01] at h02
      have hpos : node0.ActiveTasks > 0 := by omega
      rw [if_pos hpos] at hget'
      by_cases hk : k = task.AssignedNodeId
      · subst hk
        rw [GoMap.get_set_self] at hget'
        cases hget'
        refine ⟨h01, ?_⟩
        show node0.ActiveTasks - 1 = _
        rw [h01]
        omega
      · rw [GoMap.get_set_ne _ _ _ _ hk] at hget'
        obtain ⟨h1, h2⟩ := hinv k node hget'
        refine ⟨h1, ?_⟩
        have hc := hcount k
        rw [if_neg (fun h => hk h.symm)] at hc
        rw [h1, h2, h1]
        omega

/-- A NodeHeartbeat entry that reports the node's count keeps conservation. -/
theorem conserved_heartbeat (tm : TaskManifest) (now : Int) (n : String) (cpu mem : Float64)
    (active : Int) (hinv : Conserved tm)
    (hreport : active = (activeCount tm.Tasks n : Int)) :
    Conserved (tm.UpdateNodeHeartbeat now n cpu mem active) := by
  intro k node hget
  unfold TaskManifest.UpdateNodeHeartbeat at hget
  simp only at hget
  show node.NodeId = k ∧ node.ActiveTasks = (activeCount tm.Tasks node.NodeId : Int)
  by_cases hk : k = n
  · subst hk
    rw [GoMap.get_set_self] at hget
    cases hget
    cases hnode : GoMap.get tm.Nodes k with
    | none => exact ⟨rfl, hreport⟩
    | some node0 =>
      obtain ⟨h01, _⟩ := hinv k node0 hnode
      refine ⟨h01, ?_⟩
      show active = _
      rw [hreport]
      simp only [h01]
  · rw [GoMap.get_set_ne _ _ _ _ hk] at hget
    exact hinv k node hget

/-- A RegisterNode entry for a node without active tasks keeps conservation. -/
theorem conserved_registerNode (tm : TaskManifest) (n : String) (node0 : Node)
    (hinv : Conserved tm) (hid : node0.NodeId = n) (hzero : node0.ActiveTasks = 0)
    (hnone : activeCount tm.Tasks n = 0) :
    Conserved { Tasks := tm.Tasks, Nodes := GoMap.set tm.Nodes n node0 } := by
  intro k node hget
  have hget' : GoMap.get (GoMap.set tm.Nodes n node0) k = some node := hget
  show node.NodeId = k ∧ node.ActiveTasks = (activeCount tm.Tasks node.NodeId : Int)
  by_cases hk : k = n
  · subst hk
    rw [GoMap.get_set_self] at hget'
    cases hget'
    refine ⟨hid, ?_⟩
    rw [hzero, hid, hnone]
    rfl
  · rw [GoMap.get_set_ne _ _ _ _ hk] at hget'
    exact hinv k node hget'

/-- A conforming entry keeps conservation. -/
theorem Apply_conserved (now : Int) (fsm : TaskManifestFSM) (e : Entry)
    (hinv : Conserved fsm.manifest) (hc : conforms fsm.manifest e = true) :
    Conserved (Apply entryJson now fsm e).1.manifest := by
  cases e with
  | addTask e =>
    rw [Apply_addTask]
    simp only [conforms, Option.isNone_iff_eq_none] at hc
    exact conserved_addTask fsm.manifest _ hinv hc rfl
  | assignTask e =>
    rw [Apply_assignTask]
    simp only [conforms, Bool.and_eq_true, decide_eq_true_eq] at hc
    have h := conserved_assignTask fsm.manifest now e.TaskID e.NodeID hinv
      (by
        intro task ht
        have h1 := hc.1
        rw [ht] at h1
        simpa using h1) hc.2
    split <;> exact h
  | updateTaskStatus e =>
    rw [Apply_updateTaskStatus]
    simp only [conforms] at hc
    have h := conserved_updateTaskStatus fsm.manifest e.TaskID (stringToTaskStatus e.Status)
      hinv
      (by
        intro task ht
        rw [ht] at hc
        simpa using hc)
    split <;> exact h
  | completeTask e =>
    rw [Apply_completeTask]
    simp only [conforms] at hc
    have h := conserved_completeTask fsm.manifest now e.TaskID e.ResultData hinv
      (by
        intro task ht
        rw [ht] at hc
        simpa using hc)
    split <;> exact h
  | failTask e => simp [conforms] at hc
  | nodeHeartbeat e =>
    rw [Apply_nodeHeartbeat]
    simp only [conforms, decide_eq_true_eq] at hc
    exact conserved_heartbeat fsm.manifest now e.NodeID e.CPUUsage e.MemoryUsage
      e.ActiveTasks hinv hc
  | registerNode e =>
    rw [Apply_registerNode]
    simp only [conforms, decide_eq_true_eq] at hc
    exact conserved_registerNode fsm.manifest e.NodeID _ hinv rfl rfl hc

/-- A conforming log keeps conservation. -/
theorem applyLog_conserved {B : Type} (json : Unmarshal B) (clock : Nat → Int) (i : Nat)
    (fsm : TaskManifestFSM) (log : List B) (hinv : Conserved fsm.manifest)
    (hlog : ConformingLog json clock i fsm log) :
    Conserved (applyLog json clock i fsm log).manifest := by
  induction log generalizing i fsm with
  | nil => exact hinv
  | cons d rest ih =>
    obtain ⟨hd, hrest⟩ := hlog
    refine ih _ _ ?_ hrest
    rcases Apply_unchanged_or_decodes json (clock i) fsm d with h | ⟨e, he⟩
    · rw [h]; exact hinv
    · rw [Apply_of_decodes json _ _ d e he]
      exact Apply_conserved _ fsm e hinv (hd e he)

/-- C3, as stated, fails: after the single entry NodeHeartbeat(n1, active = 5)
is applied to an empty FSM, node `n1` has active_tasks = 5 although no task is
assigned to it. -/
theorem C3_conservation_counterexample :
    (GoMap.get (applyLog entryJson (fun _ => 100) 0 NewTaskManifestFSM
      [Entry.nodeHeartbeat { NodeID := "n1", ActiveTasks := 5,
                             Timestamp := 100 }]).manifest.Nodes "n1").map
        Node.ActiveTasks = some 5 ∧
    activeCount (applyLog entryJson (fun _ => 100) 0 NewTaskManifestFSM
      [Entry.nodeHeartbeat { NodeID := "n1", ActiveTasks := 5,
                             Timestamp := 100 }]).manifest.Tasks "n1" = 0 := by
  decide

/-- C3, amended. Active-task conservation on logs that follow the lifecycle:
after applying to an empty FSM a sequence of log entries in which every
well-formed entry conforms to the manifest it is applied to (an AddTask carries
a new id, an AssignTask names a task that is not ASSIGNED or RUNNING and a node
with fewer than 2147483647 such tasks, an UpdateTaskStatus does not move its
task into or out of ASSIGNED and RUNNING, a CompleteTask names an ASSIGNED or
RUNNING task, a NodeHeartbeat reports its node's number of such tasks, a
RegisterNode names a node without any, and there is no FailTask entry), every
node N of the manifest is stored under N.node_id and N.active_tasks equals the
number of tasks T with T.assigned_node_id = N.node_id and T.status in
{ASSIGNED, RUNNING}. -/
theorem C3_conservation_on_conforming_logs {B : Type} (json : Unmarshal B)
    (clock : Nat → Int) (log : List B)
    (hlog : ConformingLog json clock 0 NewTaskManifestFSM log) :
    ∀ (k : String) (node : Node),
      GoMap.get (applyLog json clock 0 NewTaskManifestFSM log).manifest.Nodes k = some node →
      node.NodeId = k ∧
      node.ActiveTasks =
        (activeCount (applyLog json clock 0 NewTaskManifestFSM log).manifest.Tasks
          node.NodeId : Int) :=
  applyLog_conserved json clock 0 NewTaskManifestFSM log
    (by intro k node h; simp [NewTaskManifestFSM, NewTaskManifest, GoMap.get] at h) hlog

theorem C3_conservation_on_conforming_logs_witness :
    ConformingLog entryJson (fun _ => 100) 0 NewTaskManifestFSM exampleLog ∧
    ∀ (k : String) (node : Node),
      GoMap.get (applyLog entryJson (fun _ => 100) 0 NewTaskManifestFSM
        exampleLog).manifest.Nodes k = some node →
      node.NodeId = k ∧
      node.ActiveTasks =
        (activeCount (applyLog entryJson (fun _ => 100) 0 NewTaskManifestFSM
          exampleLog).manifest.Tasks node.NodeId : Int) :=
  have hlog : ConformingLog entryJson (fun _ => 100) 0 NewTaskManifestFSM exampleLog := by
    simp only [exampleLog, ConformingLog]
    refine ⟨fun e he => ?_, fun e he => ?_, fun e he => ?_, trivial⟩ <;>
      (rw [eq_of_decodes_entryJson _ _ he]; decide)
  ⟨hlog, C3_conservation_on_conforming_logs entryJson (fun _ => 100) exampleLog hlog⟩


/-! ## CompleteTask and FailTask -/

theorem decrementActive_of_none (nodes : GoMap Node) (n : String)
    (hnode : GoMap.get nodes n = none) : TaskManifest.decrementActive nodes n = nodes := by
  simp [TaskManifest.decrementActive, hnode]

theorem decrementActive_of_nonpos (nodes : GoMap Node) (n : String) (node : Node)
    (hnode : GoMap.get nodes n = some node) (hle : node.ActiveTasks ≤ 0) :
    TaskManifest.decrementActive nodes n = nodes := by
  have h : ¬ node.ActiveTasks > 0 := by omega
  simp [TaskManifest.decrementActive, hnode, h]

theorem decrementActive_of_pos (nodes : GoMap Node) (n : String) (node : Node)
    (hnode : GoMap.get nodes n = some node) (hpos : 0 < node.ActiveTasks) :
    TaskManifest.decrementActive nodes n =
      GoMap.set nodes n { node with ActiveTasks := node.ActiveTasks - 1 } := by
  have h : node.ActiveTasks > 0 := hpos
  simp [TaskManifest.decrementActive, hnode, h]

theorem decrementActive_get_ne (nodes : GoMap Node) (n k : String) (hne : k ≠ n) :
    GoMap.get (TaskManifest.decrementActive nodes n) k = GoMap.get nodes k := by
  unfold TaskManifest.decrementActive
  split
  · split
    · exact GoMap.get_set_ne _ _ _ _ hne
    · rfl
  · rfl

theorem decrementActive_keys (nodes : GoMap Node) (n : String) :
    GoMap.keys (TaskManifest.decrementActive nodes n) = GoMap.keys nodes := by
  unfold TaskManifest.decrementActive
  split
  · rename_i node hnode
    split
    · exact GoMap.keys_set_of_get_some _ _ _ _ hnode
    · rfl
  · rfl

/-- C11. CompleteTask effect: on a manifest that contains task `t`,
`TaskManifest.CompleteTask(t, r)` returns true; afterwards task `t` has status
COMPLETED and result_data `r` (its completed_at is the clock reading, its other
fields are kept); the node named by the task's assigned_node_id, if it exists,
has active_tasks decreased by exactly one when it was positive and is left as it
was when it was zero; if that node does not exist the nodes are unchanged; the
task ids, the node ids, every other task and every other node are unchanged. -/
theorem C11_completeTask_effect (tm : TaskManifest) (now : Int) (t r : String) (task : Task)
    (htask : GoMap.get tm.Tasks t = some task) :
    (tm.CompleteTask now t r).2 = true ∧
    GoMap.get (tm.CompleteTask now t r).1.Tasks t =
      some { task with Status := TaskStatus.COMPLETED, CompletedAt := now,
                       ResultData := r } ∧
    (∀ node : Node, GoMap.get tm.Nodes task.AssignedNodeId = some node →
      0 < node.ActiveTasks →
      GoMap.get (tm.CompleteTask now t r).1.Nodes task.AssignedNodeId =
        some { node with ActiveTasks := node.ActiveTasks - 1 }) ∧
    (∀ node : Node, GoMap.get tm.Nodes task.AssignedNodeId = some node →
      node.ActiveTasks = 0 →
      GoMap.get (tm.CompleteTask now t r).1.Nodes task.AssignedNodeId = some node) ∧
    (GoMap.get tm.Nodes task.AssignedNodeId = none →
      (tm.CompleteTask now t r).1.Nodes = tm.Nodes) ∧
    GoMap.keys (tm.CompleteTask now t r).1.Tasks = GoMap.keys tm.Tasks ∧
    GoMap.keys (tm.CompleteTask now t r).1.Nodes = GoMap.keys tm.Nodes ∧
    (∀ k : String, k ≠ t →
      GoMap.get (tm.CompleteTask now t r).1.Tasks k = GoMap.get tm.Tasks k) ∧
    (∀ k : String, k ≠ task.AssignedNodeId →
      GoMap.get (tm.CompleteTask now t r).1.Nodes k = GoMap.get tm.Nodes k) := by
  have hC : tm.CompleteTask now t r =
      ({ Tasks := GoMap.set tm.Tasks t
           { task with Status := TaskStatus.COMPLETED, CompletedAt := now, ResultData := r },
         Nodes := TaskManifest.decrementActive tm.Nodes task.AssignedNodeId }, true) := by
    simp [TaskManifest.CompleteTask, htask]
  rw [hC]
  refine ⟨rfl, GoMap.get_set_self _ _ _, ?_, ?_, ?_,
    GoMap.keys_set_of_get_some _ _ _ _ htask, decrementActive_keys _ _, ?_, ?_⟩
  · intro node hnode hpos
    show GoMap.get (TaskManifest.decrementActive tm.Nodes task.AssignedNodeId) _ = _
    rw [decrementActive_of_pos _ _ node hnode hpos, GoMap.get_set_self]
  · intro node hnode hzero
    show GoMap.get (TaskManifest.decrementActive tm.Nodes task.AssignedNodeId) _ = _
    rw [decrementActive_of_nonpos _ _ node hnode (by omega), hnode]
  · intro hnode
    exact decrementActive_of_none _ _ hnode
  · intro k hk
    exact GoMap.get_set_ne _ _ _ _ hk
  · intro k hk
    exact decrementActive_get_ne _ _ _ hk

theorem C11_completeTask_effect_witness :
    GoMap.get exampleAssigned.manifest.Tasks "t1" =
      some { TaskId := "t1", TaskType := "matmul", Status := TaskStatus.ASSIGNED,
             AssignedNodeId := "n1", StartedAt := 7 } ∧
    GoMap.get (exampleAssigned.manifest.CompleteTask 9 "t1" "ok").1.Nodes "n1" =
      some { NodeId := "n1", Address := "a:1", ActiveTasks := 1 - 1 } :=
  ⟨by decide,
   (C11_completeTask_effect exampleAssigned.manifest 9 "t1" "ok"
      { TaskId := "t1", TaskType := "matmul", Status := TaskStatus.ASSIGNED,
        AssignedNodeId := "n1", StartedAt := 7 } (by decide)).2.2.1
      { NodeId := "n1", Address := "a:1", ActiveTasks := 1 } (by decide) (by decide)⟩

/-- C12 (code bug). On the manifest in which task `t1` is ASSIGNED to node `n1`,
whose active_tasks is 1, the FailTask entry (t1, boom) applied with `Apply`
leaves the task FAILED but with an empty result_data, and leaves `n1` with
active_tasks = 1; the mutator `TaskManifest.FailTask`, which `Apply` does not
call, stores boom as result_data and brings active_tasks to 0. -/
theorem C12_failTask_entry_skips_mutator :
    GoMap.get (Apply entryJson 200 exampleAssigned
      (Entry.failTask { TaskID := "t1", ErrorMessage := "boom",
                        FailedAt := 100 })).1.manifest.Tasks "t1" =
      some { TaskId := "t1", TaskType := "matmul", Status := TaskStatus.FAILED,
             AssignedNodeId := "n1", StartedAt := 7, CompletedAt := 0, ResultData := "" } ∧
    (GoMap.get (Apply entryJson 200 exampleAssigned
      (Entry.failTask { TaskID := "t1", ErrorMessage := "boom",
                        FailedAt := 100 })).1.manifest.Nodes "n1").map
        Node.ActiveTasks = some 1 ∧
    (GoMap.get (exampleAssigned.manifest.FailTask 200 "t1" "boom").1.Tasks "t1").map
        Task.ResultData = some "boom" ∧
    (GoMap.get (exampleAssigned.manifest.FailTask 200 "t1" "boom").1.Nodes "n1").map
        Node.ActiveTasks = some 0 := by
  decide

/-- C18 (code bug). On the empty manifest, which has no task `ghost`, the
FailTask entry for `ghost` applied with `Apply` returns no error and changes
nothing, although the mutator `TaskManifest.FailTask` reports the missing task
and the CompleteTask entry for `ghost` does return an error. -/
theorem C18_failTask_missing_not_reported :
    GoMap.get NewTaskManifestFSM.manifest.Tasks "ghost" = none ∧
    Apply entryJson 200 NewTaskManifestFSM
      (Entry.failTask { TaskID := "ghost", ErrorMessage := "boom", FailedAt := 100 }) =
      (NewTaskManifestFSM, none) ∧
    (NewTaskManifestFSM.manifest.FailTask 200 "ghost" "boom").2 = false ∧
    (Apply entryJson 200 NewTaskManifestFSM
      (Entry.completeTask { TaskID := "ghost", ResultData := "ok" })).2 =
      some (ApplyError.completeFailed "ghost") := by
  decide

/-! ## NodeHeartbeat and RegisterNode -/

/-- C13. NodeHeartbeat effect: `Apply` returns no error; if the entry's node
was unknown it is created, one node more, with node_id from the entry and empty
address, cloud_provider and region; an existing node keeps its node_id, address,
cloud_provider and region and the node ids are unchanged; in both cases
afterwards the node has status HEALTHY, cpu_usage, memory_usage and
active_tasks from the entry (and the clock reading as last_heartbeat); all
tasks and all other nodes are unchanged. -/
theorem C13_nodeHeartbeat_effect {B : Type} (json : Unmarshal B) (now : Int)
    (fsm : TaskManifestFSM) (data : B) (e : NodeHeartbeatEntry)
    (hdec : Decodes json data (Entry.nodeHeartbeat e)) :
    (Apply json now fsm data).2 = none ∧
    (GoMap.get fsm.manifest.Nodes e.NodeID = none →
      GoMap.get (Apply json now fsm data).1.manifest.Nodes e.NodeID =
        some { NodeId := e.NodeID, Address := "", CloudProvider := "", Region := "",
               Status := NodeStatus.HEALTHY, LastHeartbeat := now,
               CpuUsage := e.CPUUsage, MemoryUsage := e.MemoryUsage,
               ActiveTasks := e.ActiveTasks } ∧
      (Apply json now fsm data).1.manifest.Nodes.length =
        fsm.manifest.Nodes.length + 1) ∧
    (∀ node : Node, GoMap.get fsm.manifest.Nodes e.NodeID = some node →
      GoMap.get (Apply json now fsm data).1.manifest.Nodes e.NodeID =
        some { node with Status := NodeStatus.HEALTHY, LastHeartbeat := now,
                         CpuUsage := e.CPUUsage, MemoryUsage := e.MemoryUsage,
                         ActiveTasks := e.ActiveTasks } ∧
      GoMap.keys (Apply json now fsm data).1.manifest.Nodes =
        GoMap.keys fsm.manifest.Nodes) ∧
    (Apply json now fsm data).1.manifest.Tasks = fsm.manifest.Tasks ∧
    (∀ k : String, k ≠ e.NodeID →
      GoMap.get (Apply json now fsm data).1.manifest.Nodes k =
        GoMap.get fsm.manifest.Nodes k) := by
  rw [Apply_of_decodes json _ _ data _ hdec, Apply_nodeHeartbeat]
  refine ⟨rfl, ?_, ?_, rfl, ?_⟩
  · intro hnode
    have hU : fsm.manifest.UpdateNodeHeartbeat now e.NodeID e.CPUUsage e.MemoryUsage
        e.ActiveTasks =
        { Tasks := fsm.manifest.Tasks,
          Nodes := GoMap.set fsm.manifest.Nodes e.NodeID
            { NodeId := e.NodeID, Status := NodeStatus.HEALTHY, LastHeartbeat := now,
              CpuUsage := e.CPUUsage, MemoryUsage := e.MemoryUsage,
              ActiveTasks := e.ActiveTasks } } := by
      simp [TaskManifest.UpdateNodeHeartbeat, hnode]
    rw [hU]
    exact ⟨GoMap.get_set_self _ _ _, GoMap.length_set_of_get_none _ _ _ hnode⟩
  · intro node hnode
    have hU : fsm.manifest.UpdateNodeHeartbeat now e.NodeID e.CPUUsage e.MemoryUsage
        e.ActiveTasks =
        { Tasks := fsm.manifest.Tasks,
          Nodes := GoMap.set fsm.manifest.Nodes e.NodeID
            { node with Status := NodeStatus.HEALTHY, LastHeartbeat := now,
                        CpuUsage := e.CPUUsage, MemoryUsage := e.MemoryUsage,
                        ActiveTasks := e.ActiveTasks } } := by
      simp [TaskManifest.UpdateNodeHeartbeat, hnode]
    rw [hU]
    exact ⟨GoMap.get_set_self _ _ _, GoMap.keys_set_of_get_some _ _ _ _ hnode⟩
  · intro k hk
    exact GoMap.get_set_ne _ _ _ _ hk

theorem C13_nodeHeartbeat_effect_witness :
    Decodes entryJson (Entry.nodeHeartbeat { NodeID := "n2", ActiveTasks := 3 })
      (Entry.nodeHeartbeat { NodeID := "n2", ActiveTasks := 3 }) ∧
    (Apply entryJson 9 exampleAssigned
      (Entry.nodeHeartbeat { NodeID := "n2", ActiveTasks := 3 })).1.manifest.Tasks =
      exampleAssigned.manifest.Tasks :=
  ⟨⟨_, rfl, rfl⟩,
   (C13_nodeHeartbeat_effect entryJson 9 exampleAssigned
      (Entry.nodeHeartbeat { NodeID := "n2", ActiveTasks := 3 })
      { NodeID := "n2", ActiveTasks := 3 } ⟨_, rfl, rfl⟩).2.2.2.1⟩

/-- C14. RegisterNode effect: `Apply` returns no error and afterwards the node
stored under the entry's node_id has the entry's node_id, address,
cloud_provider and region, status HEALTHY (registered_at as last_heartbeat and
zero usage and active_tasks), whether or not a node with that id existed; the
number of nodes grows by one when the id was new and is unchanged when it was
not; all tasks and all other nodes are unchanged. -/
theorem C14_registerNode_effect {B : Type} (json : Unmarshal B) (now : Int)
    (fsm : TaskManifestFSM) (data : B) (e : RegisterNodeEntry)
    (hdec : Decodes json data (Entry.registerNode e)) :
    (Apply json now fsm data).2 = none ∧
    GoMap.get (Apply json now fsm data).1.manifest.Nodes e.NodeID =
      some { NodeId := e.NodeID, Address := e.Address, CloudProvider := e.CloudProvider,
             Region := e.Region, Status := NodeStatus.HEALTHY,
             LastHeartbeat := e.RegisteredAt, CpuUsage := {}, MemoryUsage := {},
             ActiveTasks := 0 } ∧
    (GoMap.get fsm.manifest.Nodes e.NodeID = none →
      (Apply json now fsm data).1.manifest.Nodes.length =
        fsm.manifest.Nodes.length + 1) ∧
    (∀ node : Node, GoMap.get fsm.manifest.Nodes e.NodeID = some node →
      (Apply json now fsm data).1.manifest.Nodes.length = fsm.manifest.Nodes.length) ∧
    (Apply json now fsm data).1.manifest.Tasks = fsm.manifest.Tasks ∧
    (∀ k : String, k ≠ e.NodeID →
      GoMap.get (Apply json now fsm data).1.manifest.Nodes k =
        GoMap.get fsm.manifest.Nodes k) := by
  rw [Apply_of_decodes json _ _ data _ hdec, Apply_registerNode]
  refine ⟨rfl, GoMap.get_set_self _ _ _, ?_, ?_, rfl, ?_⟩
  · intro hnode
    exact GoMap.length_set_of_get_none _ _ _ hnode
  · intro node hnode
    exact GoMap.length_set_of_get_some _ _ _ _ hnode
  · intro k hk
    exact GoMap.get_set_ne _ _ _ _ hk

theorem C14_registerNode_effect_witness :
    Decodes entryJson (Entry.registerNode { NodeID := "n1", Address := "b:2" })
      (Entry.registerNode { NodeID := "n1", Address := "b:2" }) ∧
    GoMap.get (Apply entryJson 9 exampleAssigned
      (Entry.registerNode { NodeID := "n1", Address := "b:2" })).1.manifest.Nodes "n1" =
      some { NodeId := "n1", Address := "b:2" } :=
  ⟨⟨_, rfl, rfl⟩,
   (C14_registerNode_effect entryJson 9 exampleAssigned
      (Entry.registerNode { NodeID := "n1", Address := "b:2" })
      { NodeID := "n1", Address := "b:2" } ⟨_, rfl, rfl⟩).2.1⟩

/-! ## Errors of `Apply` -/

/-- C16. Malformed entries do not change state: when the envelope fails to
decode, or its type is none of the seven known ones, or its payload fails to
decode for its type, `Apply` returns an error and the FSM after the call equals
the FSM before. -/
theorem C16_malformed_entry_rejected {B : Type} (json : Unmarshal B) (now : Int)
    (fsm : TaskManifestFSM) (data : B) (hbad : Malformed json data) :
    (∃ err : ApplyError, (Apply json now fsm data).2 = some err) ∧
    (Apply json now fsm data).1 = fsm := by
  rcases hbad with h | ⟨entry, h, hbad⟩
  · simp only [DecodeLogEntry] at h
    simp [Apply, DecodeLogEntry, h]
  · simp only [DecodeLogEntry] at h
    obtain ⟨t, p⟩ := entry
    rcases hbad with ⟨h0, h1, h2, h3, h4, h5, h6⟩ | hp
    · simp only at h0 h1 h2 h3 h4 h5 h6
      simp [Apply, DecodeLogEntry, h, h0, h1, h2, h3, h4, h5, h6]
    · rcases hp with ⟨ht, hp⟩ | ⟨ht, hp⟩ | ⟨ht, hp⟩ | ⟨ht, hp⟩ | ⟨ht, hp⟩ | ⟨ht, hp⟩ |
        ⟨ht, hp⟩ <;>
      simp only at ht hp <;>
      subst ht <;>
      simp [Apply, DecodeLogEntry, h, hp, LogEntryAddTask, LogEntryAssignTask,
        LogEntryUpdateTaskStatus, LogEntryCompleteTask, LogEntryFailTask,
        LogEntryNodeHeartbeat, LogEntryRegisterNode, applyAddTask, applyAssignTask,
        applyUpdateTaskStatus, applyCompleteTask, applyFailTask, applyNodeHeartbeat,
        applyRegisterNode]

theorem C16_malformed_entry_rejected_witness :
    Malformed wireJson (Wire.envelope 1 Wire.garbage) ∧
    (Apply wireJson 9 exampleAssigned (Wire.envelope 1 Wire.garbage)).1 = exampleAssigned :=
  have hbad : Malformed wireJson (Wire.envelope 1 Wire.garbage) :=
    Or.inr ⟨{ Type_ := 1, Data := Wire.garbage }, rfl,
      Or.inr (Or.inr (Or.inl ⟨rfl, rfl⟩))⟩
  ⟨hbad, (C16_malformed_entry_rejected wireJson 9 exampleAssigned _ hbad).2⟩

/-- C17. Missing task is a reported precondition failure: for an AssignTask,
UpdateTaskStatus or CompleteTask entry whose task_id is not in the manifest,
`Apply` returns an error and the FSM (tasks and nodes, with every node's
active_tasks) is unchanged. -/
theorem C17_missing_task_reported {B : Type} (json : Unmarshal B) (now : Int)
    (fsm : TaskManifestFSM) (data : B) (e : Entry) (t : String)
    (hdec : Decodes json data e)
    (hkind : e.type = LogEntryAssignTask ∨ e.type = LogEntryUpdateTaskStatus ∨
      e.type = LogEntryCompleteTask)
    (hid : e.taskID = some t)
    (hmissing : GoMap.get fsm.manifest.Tasks t = none) :
    (∃ err : ApplyError, (Apply json now fsm data).2 = some err) ∧
    (Apply json now fsm data).1 = fsm := by
  rw [Apply_of_decodes json _ _ data _ hdec]
  cases e with
  | addTask e =>
    simp [Entry.type, LogEntryAddTask, LogEntryAssignTask, LogEntryUpdateTaskStatus,
      LogEntryCompleteTask] at hkind
  | assignTask e =>
    simp only [Entry.taskID, Option.some.injEq] at hid
    subst hid
    rw [Apply_assignTask]
    simp [TaskManifest.AssignTask, hmissing]
  | updateTaskStatus e =>
    simp only [Entry.taskID, Option.some.injEq] at hid
    subst hid
    rw [Apply_updateTaskStatus]
    simp [TaskManifest.UpdateTaskStatus, hmissing]
  | completeTask e =>
    simp only [Entry.taskID, Option.some.injEq] at hid
    subst hid
    rw [Apply_completeTask]
    simp [TaskManifest.CompleteTask, hmissing]
  | failTask e =>
    simp [Entry.type, LogEntryFailTask, LogEntryAssignTask, LogEntryUpdateTaskStatus,
      LogEntryCompleteTask] at hkind
  | nodeHeartbeat e =>
    simp [Entry.type, LogEntryNodeHeartbeat, LogEntryAssignTask, LogEntryUpdateTaskStatus,
      LogEntryCompleteTask] at hkind
  | registerNode e =>
    simp [Entry.type, LogEntryRegisterNode, LogEntryAssignTask, LogEntryUpdateTaskStatus,
      LogEntryCompleteTask] at hkind

theorem C17_missing_task_reported_witness :
    GoMap.get exampleAssigned.manifest.Tasks "ghost" = none ∧
    (Apply entryJson 9 exampleAssigned
      (Entry.assignTask { TaskID := "ghost", NodeID := "n1" })).1 = exampleAssigned :=
  ⟨by decide,
   (C17_missing_task_reported entryJson 9 exampleAssigned
      (Entry.assignTask { TaskID := "ghost", NodeID := "n1" })
      (Entry.assignTask { TaskID := "ghost", NodeID := "n1" }) "ghost"
      ⟨_, rfl, rfl⟩ (Or.inl rfl) rfl (by decide)).2⟩

/-! ## Restore -/

/-- C19. Restore discards prior state: for two FSM states and bytes that
decode to the snapshot data `d`, `Restore` returns no error on either and leaves
equal manifests, made of exactly the tasks and the nodes of `d`. -/
theorem C19_restore_discards_prior_state {S : Type} (sjson : SnapshotJson S)
    (p1 p2 : TaskManifestFSM) (b : S) (d : TaskManifestSnapshotData)
    (hdec : sjson.decode b = some d) :
    (Restore sjson p1 b).1 = (Restore sjson p2 b).1 ∧
    (Restore sjson p1 b).1.manifest = { Tasks := d.Tasks, Nodes := d.Nodes } ∧
    (Restore sjson p1 b).2 = none ∧
    (Restore sjson p2 b).2 = none := by
  simp [Restore, hdec]

theorem C19_restore_discards_prior_state_witness :
    plainSnapshotJson.decode
      { Tasks := examplePending.manifest.Tasks, Nodes := examplePending.manifest.Nodes } =
      some { Tasks := examplePending.manifest.Tasks,
             Nodes := examplePending.manifest.Nodes } ∧
    (Restore plainSnapshotJson exampleAssigned
      { Tasks := examplePending.manifest.Tasks,
        Nodes := examplePending.manifest.Nodes }).1 =
    (Restore plainSnapshotJson exampleCompleted
      { Tasks := examplePending.manifest.Tasks,
        Nodes := examplePending.manifest.Nodes }).1 :=
  ⟨rfl,
   (C19_restore_discards_prior_state plainSnapshotJson exampleAssigned exampleCompleted
      { Tasks := examplePending.manifest.Tasks, Nodes := examplePending.manifest.Nodes }
      { Tasks := examplePending.manifest.Tasks, Nodes := examplePending.manifest.Nodes }
      rfl).1⟩

/-! ## Non-negative counters -/

/-- The decrement of `CompleteTask` keeps the counters non-negative. -/
theorem decrementActive_nonNegative (tm : TaskManifest) (tasks : GoMap Task) (n : String)
    (hinv : NonNegative tm) :
    NonNegative { Tasks := tasks, Nodes := TaskManifest.decrementActive tm.Nodes n } := by
  intro k node hget
  have hget' : GoMap.get (TaskManifest.decrementActive tm.Nodes n) k = some node := hget
  by_cases hk : k = n
  · subst hk
    cases hnode : GoMap.get tm.Nodes k with
    | none =>
      rw [decrementActive_of_none _ _ hnode, hnode] at hget'
      cases hget'
    | some node0 =>
      by_cases hpos : 0 < node0.ActiveTasks
      · rw [decrementActive_of_pos _ _ node0 hnode hpos, GoMap.get_set_self] at hget'
        cases hget'
        show 0 ≤ node0.ActiveTasks - 1
        omega
      · rw [decrementActive_of_nonpos _ _ node0 hnode (by omega)] at hget'
        exact hinv k node hget'
  · rw [decrementActive_get_ne _ _ _ hk] at hget'
    exact hinv k node hget'

/-- An entry that cannot make a counter negative keeps the counters
non-negative. -/
theorem Apply_nonNegative (now : Int) (fsm : TaskManifestFSM) (e : Entry)
    (hinv : NonNegative fsm.manifest) (hok : keepsNonNegative fsm.manifest e = true) :
    NonNegative (Apply entryJson now fsm e).1.manifest := by
  cases e with
  | addTask e =>
    rw [Apply_addTask]
    exact hinv
  | assignTask e =>
    rw [Apply_assignTask]
    have h : NonNegative (fsm.manifest.AssignTask now e.TaskID e.NodeID).1 := by
      unfold TaskManifest.AssignTask
      cases GoMap.get fsm.manifest.Tasks e.TaskID with
      | none => exact hinv
      | some task =>
        cases hnode : GoMap.get fsm.manifest.Nodes e.NodeID with
        | none => exact hinv
        | some node0 =>
          simp only [keepsNonNegative, hnode, decide_eq_true_eq] at hok
          intro k node hget
          have hget' : GoMap.get (GoMap.set fsm.manifest.Nodes e.NodeID
              { node0 with ActiveTasks := wrapInt32 (node0.ActiveTasks + 1) }) k =
              some node := hget
          by_cases hk : k = e.NodeID
          · subst hk
            rw [GoMap.get_set_self] at hget'
            cases hget'
            have h0 := hinv _ node0 hnode
            show 0 ≤ wrapInt32 (node0.ActiveTasks + 1)
            rw [wrapInt32_succ _ (by omega) hok]
            omega
          · rw [GoMap.get_set_ne _ _ _ _ hk] at hget'
            exact hinv k node hget'
    split <;> exact h
  | updateTaskStatus e =>
    rw [Apply_updateTaskStatus]
    have h : NonNegative
        (fsm.manifest.UpdateTaskStatus e.TaskID (stringToTaskStatus e.Status)).1 := by
      unfold TaskManifest.UpdateTaskStatus
      cases GoMap.get fsm.manifest.Tasks e.TaskID with
      | none => exact hinv
      | some task => exact hinv
    split <;> exact h
  | completeTask e =>
    rw [Apply_completeTask]
    have h : NonNegative (fsm.manifest.CompleteTask now e.TaskID e.ResultData).1 := by
      unfold TaskManifest.CompleteTask
      cases GoMap.get fsm.manifest.Tasks e.TaskID with
      | none => exact hinv
      | some task => exact decrementActive_nonNegative fsm.manifest _ _ hinv
    split <;> exact h
  | failTask e =>
    rw [Apply_failTask]
    unfold TaskManifest.UpdateTaskStatus
    cases GoMap.get fsm.manifest.Tasks e.TaskID with
    | none => exact hinv
    | some task => exact hinv
  | nodeHeartbeat e =>
    rw [Apply_nodeHeartbeat]
    simp only [keepsNonNegative, decide_eq_true_eq] at hok
    intro k node hget
    unfold TaskManifest.UpdateNodeHeartbeat at hget
    simp only at hget
    by_cases hk : k = e.NodeID
    · subst hk
      rw [GoMap.get_set_self] at hget
      cases hget
      exact hok
    · rw [GoMap.get_set_ne _ _ _ _ hk] at hget
      exact hinv k node hget
  | registerNode e =>
    rw [Apply_registerNode]
    intro k node hget
    have hget' : GoMap.get (GoMap.set fsm.manifest.Nodes e.NodeID
        { NodeId := e.NodeID, Address := e.Address, CloudProvider := e.CloudProvider,
          Region := e.Region, Status := NodeStatus.HEALTHY,
          LastHeartbeat := e.RegisteredAt }) k = some node := hget
    by_cases hk : k = e.NodeID
    · subst hk
      rw [GoMap.get_set_self] at hget'
      cases hget'
      exact le_refl _
    · rw [GoMap.get_set_ne _ _ _ _ hk] at hget'
      exact hinv k node hget'

/-- A log of entries that cannot make a counter negative keeps the counters
non-negative. -/
theorem applyLog_nonNegative {B : Type} (json : Unmarshal B) (clock : Nat → Int) (i : Nat)
    (fsm : TaskManifestFSM) (log : List B) (hinv : NonNegative fsm.manifest)
    (hlog : EntriesSatisfy json clock keepsNonNegative i fsm log) :
    NonNegative (applyLog json clock i fsm log).manifest := by
  induction log generalizing i fsm with
  | nil => exact hinv
  | cons d rest ih =>
    obtain ⟨hd, hrest⟩ := hlog
    refine ih _ _ ?_ hrest
    rcases Apply_unchanged_or_decodes json (clock i) fsm d with h | ⟨e, he⟩
    · rw [h]; exact hinv
    · rw [Apply_of_decodes json _ _ d e he]
      exact Apply_nonNegative _ fsm e hinv (hd e he)

/-- C15, as stated, fails: after the single entry NodeHeartbeat(n1, active = -1)
is applied to an empty FSM, node `n1` has active_tasks = -1. -/
theorem C15_negative_counter_counterexample :
    (GoMap.get (applyLog entryJson (fun _ => 100) 0 NewTaskManifestFSM
      [Entry.nodeHeartbeat { NodeID := "n1", ActiveTasks := -1,
                             Timestamp := 100 }]).manifest.Nodes "n1").map
        Node.ActiveTasks = some (-1) := by
  decide

/-- C15, amended. After applying to an empty FSM a sequence of log entries in
which every NodeHeartbeat entry reports active_tasks >= 0 and every AssignTask
entry is applied when its node is unknown or has active_tasks below
2147483647, every node in the manifest has active_tasks >= 0. -/
theorem C15_counters_non_negative {B : Type} (json : Unmarshal B) (clock : Nat → Int)
    (log : List B)
    (hlog : EntriesSatisfy json clock keepsNonNegative 0 NewTaskManifestFSM log) :
    ∀ (k : String) (node : Node),
      GoMap.get (applyLog json clock 0 NewTaskManifestFSM log).manifest.Nodes k = some node →
      0 ≤ node.ActiveTasks :=
  applyLog_nonNegative json clock 0 NewTaskManifestFSM log
    (by intro k node h; simp [NewTaskManifestFSM, NewTaskManifest, GoMap.get] at h) hlog

theorem C15_counters_non_negative_witness :
    EntriesSatisfy entryJson (fun _ => 100) keepsNonNegative 0 NewTaskManifestFSM
      exampleLog ∧
    ∀ (k : String) (node : Node),
      GoMap.get (applyLog entryJson (fun _ => 100) 0 NewTaskManifestFSM
        exampleLog).manifest.Nodes k = some node →
      0 ≤ node.ActiveTasks :=
  have hlog : EntriesSatisfy entryJson (fun _ => 100) keepsNonNegative 0
      NewTaskManifestFSM exampleLog := by
    simp only [exampleLog, EntriesSatisfy]
    refine ⟨fun e he => ?_, fun e he => ?_, fun e he => ?_, trivial⟩ <;>
      (rw [eq_of_decodes_entryJson _ _ he]; decide)
  ⟨hlog, C15_counters_non_negative entryJson (fun _ => 100) exampleLog hlog⟩

/-! ## Read accessors -/

theorem listRange_valid {α : Type} : (listRange : MapRange α).Valid :=
  fun m => List.Perm.refl m

/-- Under a key held once, a map has one value. -/
theorem GoMap.eq_of_mem_of_WF {α : Type} (m : GoMap α) (k : String) (a b : α)
    (hwf : GoMap.WF m) (ha : (k, a) ∈ m) (hb : (k, b) ∈ m) : a = b := by
  induction m with
  | nil => cases ha
  | cons p rest ih =>
    obtain ⟨k', v⟩ := p
    unfold GoMap.WF GoMap.keys at hwf ih
    rw [List.map_cons, List.nodup_cons] at hwf
    have hnot : ∀ c : α, (k', c) ∉ rest := by
      intro c hc
      exact hwf.1 (List.mem_map.2 ⟨(k', c), hc, rfl⟩)
    rcases List.mem_cons.1 ha with ha1 | ha1 <;> rcases List.mem_cons.1 hb with hb1 | hb1
    · cases ha1; cases hb1; rfl
    · cases ha1; exact absurd hb1 (hnot b)
    · cases hb1; exact absurd ha1 (hnot a)
    · exact ih hwf.2 ha1 hb1

/-- The lookup finds the value of an entry of a map that holds each key
once. -/
theorem GoMap.get_of_mem_of_WF {α : Type} (m : GoMap α) (k : String) (a : α)
    (hwf : GoMap.WF m) (ha : (k, a) ∈ m) : GoMap.get m k = some a := by
  induction m with
  | nil => cases ha
  | cons p rest ih =>
    obtain ⟨k', v⟩ := p
    unfold GoMap.WF GoMap.keys at hwf ih
    rw [List.map_cons, List.nodup_cons] at hwf
    rcases List.mem_cons.1 ha with ha1 | ha1
    · cases ha1
      simp [GoMap.get]
    · have hne : ¬ k' = k := by
        intro h
        subst h
        exact hwf.1 (List.mem_map.2 ⟨(k', a), ha1, rfl⟩)
      simp [GoMap.get, hne, ih hwf.2 ha1]

/-- The result of the loop of `SelectLeastLoadedNode`: either the start node,
which no later node undercuts, or the first node of the list that undercuts the
start node and all nodes before it. -/
theorem leastLoaded_spec (minNode : Node) (l : List Node) :
    (TaskManifest.leastLoaded minNode l = minNode ∧
      ∀ x ∈ l, minNode.ActiveTasks ≤ x.ActiveTasks) ∨
    ∃ pre post : List Node, l = pre ++ TaskManifest.leastLoaded minNode l :: post ∧
      (TaskManifest.leastLoaded minNode l).ActiveTasks < minNode.ActiveTasks ∧
      (∀ x ∈ pre, (TaskManifest.leastLoaded minNode l).ActiveTasks < x.ActiveTasks) ∧
      ∀ x ∈ post, (TaskManifest.leastLoaded minNode l).ActiveTasks ≤ x.ActiveTasks := by
  induction l generalizing minNode with
  | nil => left; exact ⟨rfl, fun x hx => by cases hx⟩
  | cons node rest ih =>
    by_cases hlt : node.ActiveTasks < minNode.ActiveTasks
    · have hstep : TaskManifest.leastLoaded minNode (node :: rest) =
          TaskManifest.leastLoaded node rest := by
        simp [TaskManifest.leastLoaded, hlt]
      rw [hstep]
      right
      rcases ih node with ⟨heq, hall⟩ | ⟨pre, post, hl, hless, hpre, hpost⟩
      · refine ⟨[], rest, by rw [heq]; rfl, by rw [heq]; exact hlt, ?_, by rw [heq]; exact hall⟩
        intro x hx
        cases hx
      · refine ⟨node :: pre, post, by rw [List.cons_append, ← hl], by omega, ?_, hpost⟩
        intro x hx
        rcases List.mem_cons.1 hx with rfl | hx
        · exact hless
        · exact hpre x hx
    · have hstep : TaskManifest.leastLoaded minNode (node :: rest) =
          TaskManifest.leastLoaded minNode rest := by
        simp [TaskManifest.leastLoaded, hlt]
      rw [hstep]
      rcases ih minNode with ⟨heq, hall⟩ | ⟨pre, post, hl, hless, hpre, hpost⟩
      · left
        refine ⟨heq, ?_⟩
        intro x hx
        rcases List.mem_cons.1 hx with rfl | hx
        · omega
        · exact hall x hx
      · right
        refine ⟨node :: pre, post, by rw [List.cons_append, ← hl], hless, ?_, hpost⟩
        intro x hx
        rcases List.mem_cons.1 hx with rfl | hx
        · omega
        · exact hpre x hx

/-- The healthy nodes are the nodes of the manifest whose status is HEALTHY. -/
theorem mem_GetHealthyNodes (tm : TaskManifest) (range : MapRange Node)
    (hvalid : range.Valid) (x : Node) :
    x ∈ tm.GetHealthyNodes range ↔
      ∃ k : String, (k, x) ∈ tm.Nodes ∧ x.Status = NodeStatus.HEALTHY := by
  unfold TaskManifest.GetHealthyNodes
  simp only [List.mem_map, List.mem_filter, decide_eq_true_eq, (hvalid tm.Nodes).mem_iff]
  constructor
  · rintro ⟨⟨k, y⟩, ⟨hmem, hst⟩, rfl⟩
    exact ⟨k, hmem, hst⟩
  · rintro ⟨k, hmem, hst⟩
    exact ⟨(k, x), ⟨hmem, hst⟩, rfl⟩

/-- C22. `SelectLeastLoadedNode` returns `nil` exactly when the manifest has no
HEALTHY node; otherwise it returns a node of the manifest whose status is
HEALTHY and whose active_tasks is at most that of every HEALTHY node, and it is
the first such node in the order in which the healthy nodes were visited: every
healthy node visited before it has strictly more active tasks. -/
theorem C22_selectLeastLoadedNode (tm : TaskManifest) (range : MapRange Node)
    (hvalid : range.Valid) :
    (tm.SelectLeastLoadedNode range = none ↔
      ∀ p ∈ tm.Nodes, p.2.Status ≠ NodeStatus.HEALTHY) ∧
    ∀ r : Node, tm.SelectLeastLoadedNode range = some r →
      (∃ k : String, (k, r) ∈ tm.Nodes) ∧
      r.Status = NodeStatus.HEALTHY ∧
      (∀ p ∈ tm.Nodes, p.2.Status = NodeStatus.HEALTHY →
        r.ActiveTasks ≤ p.2.ActiveTasks) ∧
      ∃ pre post : List Node, tm.GetHealthyNodes range = pre ++ r :: post ∧
        ∀ x ∈ pre, r.ActiveTasks < x.ActiveTasks := by
  have hmem := mem_GetHealthyNodes tm range hvalid
  unfold TaskManifest.SelectLeastLoadedNode
  cases hh : tm.GetHealthyNodes range with
  | nil =>
    refine ⟨⟨fun _ p hp hst => ?_, fun _ => rfl⟩, fun r h => by cases h⟩
    have hx := (hmem p.2).2 ⟨p.1, hp, hst⟩
    rw [hh] at hx
    cases hx
  | cons first rest =>
    refine ⟨⟨(fun h => by cases h), fun hnone => ?_⟩, ?_⟩
    · have hfirst := (hmem first).1 (by rw [hh]; exact List.mem_cons_self _ _)
      obtain ⟨k, hk, hst⟩ := hfirst
      exact absurd hst (hnone (k, first) hk)
    · intro r hr
      simp only [Option.some.injEq] at hr
      have hdecomp : ∃ pre post : List Node, first :: rest = pre ++ r :: post ∧
          (∀ x ∈ pre, r.ActiveTasks < x.ActiveTasks) ∧
          ∀ x ∈ post, r.ActiveTasks ≤ x.ActiveTasks := by
        rcases leastLoaded_spec first rest with ⟨heq, hall⟩ | ⟨pre, post, hl, hless, hpre, hpost⟩
        · rw [hr] at heq
          refine ⟨[], rest, by rw [heq]; rfl, (fun x hx => by cases hx), ?_⟩
          rw [heq]
          exact hall
        · rw [hr] at hl hless hpre hpost
          refine ⟨first :: pre, post, by rw [List.cons_append, ← hl], ?_, hpost⟩
          intro x hx
          rcases List.mem_cons.1 hx with rfl | hx
          · exact hless
          · exact hpre x hx
      obtain ⟨pre, post, hl, hpre, hpost⟩ := hdecomp
      have hrmem : r ∈ first :: rest := by
        rw [hl]
        exact List.mem_append_right _ (List.mem_cons_self _ _)
      have hr2 := (hmem r).1 (by rw [hh]; exact hrmem)
      obtain ⟨k, hk, hst⟩ := hr2
      refine ⟨⟨k, hk⟩, hst, ?_, pre, post, hl, hpre⟩
      intro p hp hpst
      have hp2 : p.2 ∈ first :: rest := by
        rw [← hh]
        exact (hmem p.2).2 ⟨p.1, hp, hpst⟩
      rw [hl] at hp2
      rcases List.mem_append.1 hp2 with h1 | h1
      · exact le_of_lt (hpre _ h1)
      · rcases List.mem_cons.1 h1 with h2 | h2
        · rw [h2]
        · exact hpost _ h2

theorem C22_selectLeastLoadedNode_witness :
    (listRange : MapRange Node).Valid ∧
    ∀ r : Node, exampleFleet.manifest.SelectLeastLoadedNode listRange = some r →
      r.Status = NodeStatus.HEALTHY :=
  ⟨listRange_valid,
   fun r h => ((C22_selectLeastLoadedNode exampleFleet.manifest listRange
     listRange_valid).2 r h).2.1⟩

/-- In range, the `int64` result is the integer result. -/
theorem wrapInt64_of_range (x : Int) (hlo : -9223372036854775808 ≤ x)
    (hhi : x < 9223372036854775808) : wrapInt64 x = x := by
  unfold wrapInt64
  omega

/-- C23, as stated, fails: a node registered with the least `int64` as
registered_at is HEALTHY and, read at clock 1700000000, its heartbeat is older
than 30 seconds, yet `CheckStaleNodes(30)` returns no id: the `int64`
difference wraps around to a negative number. -/
theorem C23_checkStaleNodes_counterexample :
    (Apply entryJson 0 NewTaskManifestFSM
      (Entry.registerNode { NodeID := "n1",
                            RegisteredAt := -9223372036854775808 })).1 = exampleAncient ∧
    (GoMap.get exampleAncient.manifest.Nodes "n1").map Node.Status =
      some NodeStatus.HEALTHY ∧
    (1700000000 : Int) - (-9223372036854775808) > 30 ∧
    exampleAncient.manifest.CheckStaleNodes listRange 1700000000 30 = [] := by
  decide

/-- C23, amended. On a manifest that holds each node id once and in which no
difference now - last_heartbeat leaves the `int64` range, `CheckStaleNodes`
returns, each exactly once, the ids of exactly those nodes whose status is
HEALTHY and for which now - last_heartbeat > timeout, where now is the clock
reading of the call; and whatever the differences, for timeout >= 0 a node whose
last_heartbeat equals now is not returned. -/
theorem C23_checkStaleNodes (tm : TaskManifest) (range : MapRange Node) (now timeout : Int)
    (hvalid : range.Valid) (hwf : GoMap.WF tm.Nodes) :
    ((∀ p ∈ tm.Nodes, -9223372036854775808 ≤ now - p.2.LastHeartbeat ∧
        now - p.2.LastHeartbeat < 9223372036854775808) →
      ∀ k : String, k ∈ tm.CheckStaleNodes range now timeout ↔
        ∃ node : Node, (k, node) ∈ tm.Nodes ∧ node.Status = NodeStatus.HEALTHY ∧
          now - node.LastHeartbeat > timeout) ∧
    (tm.CheckStaleNodes range now timeout).Nodup ∧
    (0 ≤ timeout → ∀ (k : String) (node : Node), (k, node) ∈ tm.Nodes →
      node.LastHeartbeat = now → k ∉ tm.CheckStaleNodes range now timeout) := by
  have hmem : ∀ k : String, k ∈ tm.CheckStaleNodes range now timeout ↔
      ∃ node : Node, (k, node) ∈ tm.Nodes ∧ node.Status = NodeStatus.HEALTHY ∧
        wrapInt64 (now - node.LastHeartbeat) > timeout := by
    intro k
    unfold TaskManifest.CheckStaleNodes
    simp only [List.mem_map, List.mem_filter, Bool.and_eq_true, decide_eq_true_eq,
      (hvalid tm.Nodes).mem_iff]
    constructor
    · rintro ⟨⟨k', node⟩, ⟨hm, hst, hold⟩, rfl⟩
      exact ⟨node, hm, hst, hold⟩
    · rintro ⟨node, hm, hst, hold⟩
      exact ⟨(k, node), ⟨hm, hst, hold⟩, rfl⟩
  refine ⟨?_, ?_, ?_⟩
  · intro hrange k
    rw [hmem k]
    constructor
    · rintro ⟨node, hm, hst, hold⟩
      rw [wrapInt64_of_range _ (hrange _ hm).1 (hrange _ hm).2] at hold
      exact ⟨node, hm, hst, hold⟩
    · rintro ⟨node, hm, hst, hold⟩
      refine ⟨node, hm, hst, ?_⟩
      rw [wrapInt64_of_range _ (hrange _ hm).1 (hrange _ hm).2]
      exact hold
  · unfold TaskManifest.CheckStaleNodes
    have hkeys : ((range tm.Nodes).map Prod.fst).Nodup :=
      (((hvalid tm.Nodes).map Prod.fst).nodup_iff).2 hwf
    exact List.Nodup.sublist (List.Sublist.map _ (List.filter_sublist _)) hkeys
  · intro htimeout k node hm hfresh hk
    obtain ⟨node', hm', _, hold⟩ := (hmem k).1 hk
    have heq := GoMap.eq_of_mem_of_WF tm.Nodes k node node' hwf hm hm'
    subst heq
    rw [hfresh] at hold
    have h0 : wrapInt64 (now - now) = 0 := by
      rw [sub_self]
      rfl
    rw [h0] at hold
    omega

theorem C23_checkStaleNodes_witness :
    (listRange : MapRange Node).Valid ∧ GoMap.WF exampleFleet.manifest.Nodes ∧
    (exampleFleet.manifest.CheckStaleNodes listRange 100 30).Nodup :=
  ⟨listRange_valid, by unfold GoMap.WF GoMap.keys; decide,
   (C23_checkStaleNodes exampleFleet.manifest listRange 100 30 listRange_valid
     (by unfold GoMap.WF GoMap.keys; decide)).2.1⟩

/-! ## Creation and deletion -/

/-- An assignment to a map keeps the keys or adds the assigned key. -/
theorem GoMap.keys_set {α : Type} (m : GoMap α) (k : String) (v : α) :
    GoMap.keys (GoMap.set m k v) = GoMap.keys m ∨
    (k ∉ GoMap.keys m ∧ GoMap.keys (GoMap.set m k v) = GoMap.keys m ++ [k]) := by
  cases hget : GoMap.get m k with
  | none =>
    right
    refine ⟨(GoMap.get_eq_none_iff m k).1 hget, ?_⟩
    rw [GoMap.set_eq_append m k v hget]
    simp [GoMap.keys]
  | some w => left; exact GoMap.keys_set_of_get_some m k v w hget

/-- The task ids after an entry: the same, or one more when the entry is an
AddTask. -/
theorem Apply_task_keys (now : Int) (fsm : TaskManifestFSM) (e : Entry) :
    GoMap.keys (Apply entryJson now fsm e).1.manifest.Tasks = GoMap.keys fsm.manifest.Tasks ∨
    ∃ a : AddTaskEntry, e = Entry.addTask a ∧
      GoMap.keys (Apply entryJson now fsm e).1.manifest.Tasks =
        GoMap.keys fsm.manifest.Tasks ++ [a.TaskID] := by
  cases e with
  | addTask e =>
    rw [Apply_addTask]
    rcases GoMap.keys_set fsm.manifest.Tasks e.TaskID
      { TaskId := e.TaskID, TaskType := e.TaskType, Status := TaskStatus.PENDING,
        TaskData := e.TaskData, CreatedAt := e.CreatedAt } with h | ⟨_, h⟩
    · left; exact h
    · right; exact ⟨e, rfl, h⟩
  | assignTask e =>
    left
    rw [Apply_assignTask]
    unfold TaskManifest.AssignTask
    cases htask : GoMap.get fsm.manifest.Tasks e.TaskID with
    | none => simp
    | some task =>
      cases GoMap.get fsm.manifest.Nodes e.NodeID with
      | none => simpa using GoMap.keys_set_of_get_some _ _ _ _ htask
      | some node => simpa using GoMap.keys_set_of_get_some _ _ _ _ htask
  | updateTaskStatus e =>
    left
    rw [Apply_updateTaskStatus]
    unfold TaskManifest.UpdateTaskStatus
    cases htask : GoMap.get fsm.manifest.Tasks e.TaskID with
    | none => simp
    | some task => simpa using GoMap.keys_set_of_get_some _ _ _ _ htask
  | completeTask e =>
    left
    rw [Apply_completeTask]
    unfold TaskManifest.CompleteTask
    cases htask : GoMap.get fsm.manifest.Tasks e.TaskID with
    | none => simp
    | some task => simpa using GoMap.keys_set_of_get_some _ _ _ _ htask
  | failTask e =>
    left
    rw [Apply_failTask]
    unfold TaskManifest.UpdateTaskStatus
    cases htask : GoMap.get fsm.manifest.Tasks e.TaskID with
    | none => simp
    | some task => simpa using GoMap.keys_set_of_get_some _ _ _ _ htask
  | nodeHeartbeat e => left; rw [Apply_nodeHeartbeat]; rfl
  | registerNode e => left; rw [Apply_registerNode]

/-- The node ids after an entry: the same, or one more when the entry is a
RegisterNode or a NodeHeartbeat. -/
theorem Apply_node_keys (now : Int) (fsm : TaskManifestFSM) (e : Entry) :
    GoMap.keys (Apply entryJson now fsm e).1.manifest.Nodes = GoMap.keys fsm.manifest.Nodes ∨
    ∃ k : String,
      ((∃ r : RegisterNodeEntry, e = Entry.registerNode r ∧ r.NodeID = k) ∨
        (∃ h : NodeHeartbeatEntry, e = Entry.nodeHeartbeat h ∧ h.NodeID = k)) ∧
      GoMap.keys (Apply entryJson now fsm e).1.manifest.Nodes =
        GoMap.keys fsm.manifest.Nodes ++ [k] := by
  cases e with
  | addTask e => left; rw [Apply_addTask]; rfl
  | assignTask e =>
    left
    rw [Apply_assignTask]
    unfold TaskManifest.AssignTask
    cases GoMap.get fsm.manifest.Tasks e.TaskID with
    | none => simp
    | some task =>
      cases hnode : GoMap.get fsm.manifest.Nodes e.NodeID with
      | none => simp
      | some node => simpa using GoMap.keys_set_of_get_some _ _ _ _ hnode
  | updateTaskStatus e =>
    left
    rw [Apply_updateTaskStatus]
    unfold TaskManifest.UpdateTaskStatus
    cases GoMap.get fsm.manifest.Tasks e.TaskID with
    | none => simp
    | some task => simp
  | completeTask e =>
    left
    rw [Apply_completeTask]
    unfold TaskManifest.CompleteTask
    cases GoMap.get fsm.manifest.Tasks e.TaskID with
    | none => simp
    | some task => simpa using decrementActive_keys _ _
  | failTask e =>
    left
    rw [Apply_failTask]
    unfold TaskManifest.UpdateTaskStatus
    cases GoMap.get fsm.manifest.Tasks e.TaskID with
    | none => simp
    | some task => simp
  | nodeHeartbeat e =>
    rw [Apply_nodeHeartbeat]
    unfold TaskManifest.UpdateNodeHeartbeat
    simp only
    rcases GoMap.keys_set fsm.manifest.Nodes e.NodeID
      { (match GoMap.get fsm.manifest.Nodes e.NodeID with
          | some node => node
          | none => { NodeId := e.NodeID, Status := NodeStatus.HEALTHY }) with
        LastHeartbeat := now, CpuUsage := e.CPUUsage, MemoryUsage := e.MemoryUsage,
        ActiveTasks := e.ActiveTasks, Status := NodeStatus.HEALTHY } with h | ⟨_, h⟩
    · left; exact h
    · right; exact ⟨e.NodeID, Or.inr ⟨e, rfl, rfl⟩, h⟩
  | registerNode e =>
    rw [Apply_registerNode]
    rcases GoMap.keys_set fsm.manifest.Nodes e.NodeID
      { NodeId := e.NodeID, Address := e.Address, CloudProvider := e.CloudProvider,
        Region := e.Region, Status := NodeStatus.HEALTHY,
        LastHeartbeat := e.RegisteredAt } with h | ⟨_, h⟩
    · left; exact h
    · right; exact ⟨e.NodeID, Or.inl ⟨e, rfl, rfl⟩, h⟩

/-- C21. `Apply` never deletes and creates only through the designated kinds:
whatever the bytes of the log entry, every task id and every node id of the
manifest before the call is in the manifest after it; a task id that was absent
before and is present after is the task_id of the AddTask entry the bytes decode
to; a node id that was absent before and is present after is the node_id of the
RegisterNode or NodeHeartbeat entry the bytes decode to. -/
theorem C21_apply_creates_by_kind {B : Type} (json : Unmarshal B) (now : Int)
    (fsm : TaskManifestFSM) (data : B) :
    (∀ k : String, k ∈ GoMap.keys fsm.manifest.Tasks →
      k ∈ GoMap.keys (Apply json now fsm data).1.manifest.Tasks) ∧
    (∀ k : String, k ∈ GoMap.keys fsm.manifest.Nodes →
      k ∈ GoMap.keys (Apply json now fsm data).1.manifest.Nodes) ∧
    (∀ k : String, k ∉ GoMap.keys fsm.manifest.Tasks →
      k ∈ GoMap.keys (Apply json now fsm data).1.manifest.Tasks →
      ∃ a : AddTaskEntry, Decodes json data (Entry.addTask a) ∧ a.TaskID = k) ∧
    (∀ k : String, k ∉ GoMap.keys fsm.manifest.Nodes →
      k ∈ GoMap.keys (Apply json now fsm data).1.manifest.Nodes →
      (∃ r : RegisterNodeEntry, Decodes json data (Entry.registerNode r) ∧ r.NodeID = k) ∨
      (∃ h : NodeHeartbeatEntry, Decodes json data (Entry.nodeHeartbeat h) ∧
        h.NodeID = k)) := by
  rcases Apply_unchanged_or_decodes json now fsm data with h | ⟨e, he⟩
  · rw [h]
    exact ⟨fun _ hk => hk, fun _ hk => hk, fun _ hk hk' => absurd hk' hk,
      fun _ hk hk' => absurd hk' hk⟩
  · rw [Apply_of_decodes json _ _ data e he]
    refine ⟨?_, ?_, ?_, ?_⟩
    · intro k hk
      rcases Apply_task_keys now fsm e with h | ⟨a, _, h⟩
      · rw [h]; exact hk
      · rw [h]; exact List.mem_append_left _ hk
    · intro k hk
      rcases Apply_node_keys now fsm e with h | ⟨k', _, h⟩
      · rw [h]; exact hk
      · rw [h]; exact List.mem_append_left _ hk
    · intro k hk hk'
      rcases Apply_task_keys now fsm e with h | ⟨a, ha, h⟩
      · rw [h] at hk'; exact absurd hk' hk
      · rw [h] at hk'
        rcases List.mem_append.1 hk' with h1 | h1
        · exact absurd h1 hk
        · subst ha
          exact ⟨a, he, (List.mem_singleton.1 h1).symm⟩
    · intro k hk hk'
      rcases Apply_node_keys now fsm e with h | ⟨k', hkind, h⟩
      · rw [h] at hk'; exact absurd hk' hk
      · rw [h] at hk'
        rcases List.mem_append.1 hk' with h1 | h1
        · exact absurd h1 hk
        · have hkk : k = k' := List.mem_singleton.1 h1
          subst hkk
          rcases hkind with ⟨r, hr, hid⟩ | ⟨hb, hhb, hid⟩
          · subst hr
            exact Or.inl ⟨r, he, hid⟩
          · subst hhb
            exact Or.inr ⟨hb, he, hid⟩

theorem C21_apply_creates_by_kind_witness :
    "t1" ∈ GoMap.keys exampleAssigned.manifest.Tasks ∧
    "t1" ∈ GoMap.keys (Apply entryJson 9 exampleAssigned
      (Entry.completeTask { TaskID := "t1", ResultData := "42" })).1.manifest.Tasks :=
  ⟨by decide,
   (C21_apply_creates_by_kind entryJson 9 exampleAssigned
     (Entry.completeTask { TaskID := "t1", ResultData := "42" })).1 "t1" (by decide)⟩

/-! ## ListTasks -/

/-- Without a positive limit the loop of `ListTasks` appends every task that
the filter test does not skip. -/
theorem listTasksLoop_unlimited (statusFilter : TaskStatus) (limit : Int) (hlimit : limit ≤ 0)
    (l : List (String × Task)) (tasks : List Task) :
    TaskServiceServer.listTasksLoop statusFilter limit l tasks =
      tasks ++ (l.filter (passesFilter statusFilter)).map Prod.snd := by
  induction l generalizing tasks with
  | nil => simp [TaskServiceServer.listTasksLoop]
  | cons p rest ih =>
    obtain ⟨k, task⟩ := p
    have hnot : ¬ limit > 0 := by omega
    by_cases hskip : statusFilter ≠ TaskStatus.PENDING ∧ task.Status ≠ statusFilter
    · have hp : passesFilter statusFilter (k, task) = false := by
        simp [passesFilter, hskip.1, hskip.2]
      rw [TaskServiceServer.listTasksLoop, if_pos hskip, ih]
      simp [List.filter_cons, hp]
    · have hp : passesFilter statusFilter (k, task) = true := by
        simp only [passesFilter, Bool.or_eq_true, decide_eq_true_eq]
        by_contra hc
        push_neg at hc
        exact hskip ⟨hc.1, hc.2⟩
      rw [TaskServiceServer.listTasksLoop, if_neg hskip, if_neg (fun h => hnot h.1), ih]
      simp [List.filter_cons, hp]

/-- With a positive limit the loop of `ListTasks` appends the tasks that the
filter test does not skip, until the slice has `limit` elements. -/
theorem listTasksLoop_limited (statusFilter : TaskStatus) (limit : Int) (hpos : 0 < limit)
    (hmax : limit ≤ 2147483647) (l : List (String × Task)) (tasks : List Task)
    (hroom : (tasks.length : Int) < limit) :
    TaskServiceServer.listTasksLoop statusFilter limit l tasks =
      tasks ++ ((l.filter (passesFilter statusFilter)).map Prod.snd).take
        (limit.toNat - tasks.length) := by
  induction l generalizing tasks with
  | nil => simp [TaskServiceServer.listTasksLoop]
  | cons p rest ih =>
    obtain ⟨k, task⟩ := p
    by_cases hskip : statusFilter ≠ TaskStatus.PENDING ∧ task.Status ≠ statusFilter
    · have hp : passesFilter statusFilter (k, task) = false := by
        simp [passesFilter, hskip.1, hskip.2]
      rw [TaskServiceServer.listTasksLoop, if_pos hskip, ih tasks hroom]
      simp [List.filter_cons, hp]
    · have hp : passesFilter statusFilter (k, task) = true := by
        simp only [passesFilter, Bool.or_eq_true, decide_eq_true_eq]
        by_contra hc
        push_neg at hc
        exact hskip ⟨hc.1, hc.2⟩
      have hlen : ((tasks ++ [task]).length : Int) = tasks.length + 1 := by simp
      have hwrap : wrapInt32 ((tasks ++ [task]).length : Int) = tasks.length + 1 := by
        rw [hlen]
        unfold wrapInt32
        omega
      have hsucc : limit.toNat - tasks.length = (limit.toNat - (tasks.length + 1)) + 1 := by
        omega
      have hfilter : ((((k, task) :: rest).filter (passesFilter statusFilter)).map Prod.snd) =
          task :: (rest.filter (passesFilter statusFilter)).map Prod.snd := by
        simp [List.filter_cons, hp]
      rw [TaskServiceServer.listTasksLoop, if_neg hskip, hfilter, hsucc, List.take_succ_cons]
      by_cases hfull : (tasks.length : Int) + 1 ≥ limit
      · have hone : limit.toNat - (tasks.length + 1) = 0 := by omega
        rw [if_pos ⟨hpos, by rw [hwrap]; exact hfull⟩, hone, List.take_zero]
      · have hroom' : ((tasks ++ [task]).length : Int) < limit := by
          rw [hlen]
          omega
        have hlen2 : (tasks ++ [task]).length = tasks.length + 1 := by simp
        rw [if_neg (fun h => hfull (by rw [← hwrap]; exact h.2)),
          ih (tasks ++ [task]) hroom', hlen2]
        simp

/-- C24, as stated, fails: on a manifest whose only task is COMPLETED,
`ListTasks` with status_filter = PENDING and limit = 0 returns that task. -/
theorem C24_listTasks_pending_counterexample :
    (GoMap.get exampleTaskServer.cluster.fsm.manifest.Tasks "t1").map Task.Status =
      some TaskStatus.COMPLETED ∧
    ((exampleTaskServer.ListTasks listRange
      { StatusFilter := TaskStatus.PENDING, Limit := 0 }).response.Tasks.map
        (fun t => (t.TaskId, t.Status))) = [("t1", TaskStatus.COMPLETED)] := by
  decide

/-- C24, amended. ListTasks status filter, with limit = 0: for a status_filter
other than PENDING the response holds exactly the tasks of the manifest whose
status equals the filter; for status_filter = PENDING, which the handler takes
as no filter, it holds every task of the manifest. -/
theorem C24_listTasks_filter {B : Type} (s : TaskServiceServer B) (range : MapRange Task)
    (statusFilter : TaskStatus) (hvalid : range.Valid) :
    (statusFilter ≠ TaskStatus.PENDING →
      ∀ task : Task,
        task ∈ (s.ListTasks range
          { StatusFilter := statusFilter, Limit := 0 }).response.Tasks ↔
        (∃ k : String, (k, task) ∈ s.cluster.fsm.manifest.Tasks) ∧
          task.Status = statusFilter) ∧
    (statusFilter = TaskStatus.PENDING →
      ∀ task : Task,
        task ∈ (s.ListTasks range
          { StatusFilter := statusFilter, Limit := 0 }).response.Tasks ↔
        ∃ k : String, (k, task) ∈ s.cluster.fsm.manifest.Tasks) := by
  have hR : (s.ListTasks range { StatusFilter := statusFilter, Limit := 0 }).response.Tasks =
      ((range s.cluster.fsm.manifest.Tasks).filter (passesFilter statusFilter)).map
        Prod.snd := by
    simp only [TaskServiceServer.ListTasks, RaftCluster.GetFSM]
    rw [listTasksLoop_unlimited statusFilter 0 (le_refl _)]
    simp
  rw [hR]
  have hmem : ∀ task : Task,
      task ∈ ((range s.cluster.fsm.manifest.Tasks).filter (passesFilter statusFilter)).map
        Prod.snd ↔
      ∃ k : String, (k, task) ∈ s.cluster.fsm.manifest.Tasks ∧
        (statusFilter = TaskStatus.PENDING ∨ task.Status = statusFilter) := by
    intro task
    simp only [List.mem_map, List.mem_filter, passesFilter, Bool.or_eq_true,
      decide_eq_true_eq, (hvalid s.cluster.fsm.manifest.Tasks).mem_iff]
    constructor
    · rintro ⟨⟨k, t⟩, ⟨hm, hpass⟩, rfl⟩
      exact ⟨k, hm, hpass⟩
    · rintro ⟨k, hm, hpass⟩
      exact ⟨(k, task), ⟨hm, hpass⟩, rfl⟩
  refine ⟨fun hne task => ?_, fun heq task => ?_⟩
  · rw [hmem task]
    constructor
    · rintro ⟨k, hm, hpass⟩
      rcases hpass with h | h
      · exact absurd h hne
      · exact ⟨⟨k, hm⟩, h⟩
    · rintro ⟨⟨k, hm⟩, h⟩
      exact ⟨k, hm, Or.inr h⟩
  · rw [hmem task]
    constructor
    · rintro ⟨k, hm, _⟩
      exact ⟨k, hm⟩
    · rintro ⟨k, hm⟩
      exact ⟨k, hm, Or.inl heq⟩

theorem C24_listTasks_filter_witness :
    (listRange : MapRange Task).Valid ∧
    ∀ task : Task,
      task ∈ (exampleTaskServer.ListTasks listRange
        { StatusFilter := TaskStatus.COMPLETED, Limit := 0 }).response.Tasks ↔
      (∃ k : String, (k, task) ∈ exampleTaskServer.cluster.fsm.manifest.Tasks) ∧
        task.Status = TaskStatus.COMPLETED :=
  ⟨listRange_valid,
   (C24_listTasks_filter exampleTaskServer listRange TaskStatus.COMPLETED
     listRange_valid).1 (by decide)⟩

/-- C25, as stated, fails: on a manifest whose only task is COMPLETED, no task
has the status PENDING, yet `ListTasks` with status_filter = PENDING and
limit = 5 returns one task, and its status is not PENDING. -/
theorem C25_listTasks_limit_counterexample :
    exampleTaskServer.cluster.fsm.manifest.Tasks.countP
      (fun p => decide (p.2.Status = TaskStatus.PENDING)) = 0 ∧
    (exampleTaskServer.ListTasks listRange
      { StatusFilter := TaskStatus.PENDING, Limit := 5 }).response.Tasks.length = 1 ∧
    ((exampleTaskServer.ListTasks listRange
      { StatusFilter := TaskStatus.PENDING, Limit := 5 }).response.Tasks.map
        Task.Status) = [TaskStatus.COMPLETED] := by
  decide

/-- C25, amended. ListTasks limit, where a task passes the filter when its
status equals the filter or the filter is PENDING, and m is the number of tasks
of the manifest that pass: for an `int32` limit > 0 the response holds
min(limit, m) tasks, and for limit <= 0 it holds m of them; all tasks of the
response pass the filter, and they are the tasks of distinct entries of the
manifest, in the order in which the map was visited. -/
theorem C25_listTasks_limit {B : Type} (s : TaskServiceServer B) (range : MapRange Task)
    (statusFilter : TaskStatus) (limit : Int) (hvalid : range.Valid)
    (hmax : limit ≤ 2147483647) :
    (0 < limit →
      (s.ListTasks range
        { StatusFilter := statusFilter, Limit := limit }).response.Tasks.length =
        min limit.toNat
          (s.cluster.fsm.manifest.Tasks.countP (passesFilter statusFilter))) ∧
    (limit ≤ 0 →
      (s.ListTasks range
        { StatusFilter := statusFilter, Limit := limit }).response.Tasks.length =
        s.cluster.fsm.manifest.Tasks.countP (passesFilter statusFilter)) ∧
    (∀ task ∈ (s.ListTasks range
        { StatusFilter := statusFilter, Limit := limit }).response.Tasks,
      statusFilter = TaskStatus.PENDING ∨ task.Status = statusFilter) ∧
    ∃ es : List (String × Task), es.Sublist (range s.cluster.fsm.manifest.Tasks) ∧
      (s.ListTasks range
        { StatusFilter := statusFilter, Limit := limit }).response.Tasks =
        es.map Prod.snd ∧
      (GoMap.WF s.cluster.fsm.manifest.Tasks → (es.map Prod.fst).Nodup) := by
  have hcount : ((range s.cluster.fsm.manifest.Tasks).filter
      (passesFilter statusFilter)).length =
      s.cluster.fsm.manifest.Tasks.countP (passesFilter statusFilter) := by
    rw [← List.countP_eq_length_filter]
    exact (hvalid s.cluster.fsm.manifest.Tasks).countP_eq _
  have hnodup : ∀ es : List (String × Task),
      es.Sublist (range s.cluster.fsm.manifest.Tasks) →
      GoMap.WF s.cluster.fsm.manifest.Tasks → (es.map Prod.fst).Nodup := by
    intro es hsub hwf
    have hkeys : ((range s.cluster.fsm.manifest.Tasks).map Prod.fst).Nodup :=
      (((hvalid s.cluster.fsm.manifest.Tasks).map Prod.fst).nodup_iff).2 hwf
    exact List.Nodup.sublist (List.Sublist.map _ hsub) hkeys
  have hpass : ∀ es : List (String × Task),
      es.Sublist ((range s.cluster.fsm.manifest.Tasks).filter (passesFilter statusFilter)) →
      ∀ task ∈ es.map Prod.snd, statusFilter = TaskStatus.PENDING ∨
        task.Status = statusFilter := by
    intro es hsub task htask
    obtain ⟨p, hp, rfl⟩ := List.mem_map.1 htask
    have h := (List.mem_filter.1 (hsub.subset hp)).2
    simpa [passesFilter] using h
  by_cases hpos : 0 < limit
  · have hR : (s.ListTasks range
        { StatusFilter := statusFilter, Limit := limit }).response.Tasks =
        (((range s.cluster.fsm.manifest.Tasks).filter (passesFilter statusFilter)).take
          limit.toNat).map Prod.snd := by
      simp only [TaskServiceServer.ListTasks, RaftCluster.GetFSM]
      rw [listTasksLoop_limited statusFilter limit hpos hmax _ [] (by simpa using hpos)]
      simp [List.map_take]
    rw [hR]
    refine ⟨fun _ => ?_, fun hle => by omega, ?_, ?_⟩
    · rw [List.length_map, List.length_take, hcount]
    · exact hpass _ (List.take_sublist _ _)
    · exact ⟨_, (List.take_sublist _ _).trans (List.filter_sublist _), rfl,
        hnodup _ ((List.take_sublist _ _).trans (List.filter_sublist _))⟩
  · have hle : limit ≤ 0 := by omega
    have hR : (s.ListTasks range
        { StatusFilter := statusFilter, Limit := limit }).response.Tasks =
        ((range s.cluster.fsm.manifest.Tasks).filter (passesFilter statusFilter)).map
          Prod.snd := by
      simp only [TaskServiceServer.ListTasks, RaftCluster.GetFSM]
      rw [listTasksLoop_unlimited statusFilter limit hle]
      simp
    rw [hR]
    refine ⟨fun h => absurd h hpos, fun _ => ?_, ?_, ?_⟩
    · rw [List.length_map, hcount]
    · exact hpass _ (List.Sublist.refl _)
    · exact ⟨_, List.filter_sublist _, rfl, hnodup _ (List.filter_sublist _)⟩

theorem C25_listTasks_limit_witness :
    (listRange : MapRange Task).Valid ∧ (5 : Int) ≤ 2147483647 ∧
    (exampleTaskServer.ListTasks listRange
      { StatusFilter := TaskStatus.COMPLETED, Limit := 5 }).response.Tasks.length =
      min (5 : Int).toNat
        (exampleTaskServer.cluster.fsm.manifest.Tasks.countP
          (passesFilter TaskStatus.COMPLETED)) :=
  ⟨listRange_valid, by decide,
   (C25_listTasks_limit exampleTaskServer listRange TaskStatus.COMPLETED 5
     listRange_valid (by decide)).1 (by decide)⟩

/-! ## RPC handlers -/

/-- The message of a non-leader is not empty. -/
theorem notLeader_message_ne_empty (leader : String) :
    "not leader, current leader: " ++ leader ≠ "" := by
  intro h
  have hlen := congrArg String.length h
  rw [String.length_append] at hlen
  have h28 : "not leader, current leader: ".length = 28 := by decide
  rw [h28] at hlen
  simp at hlen

/-- C26. SubmitTask leader gating: while the node is not the leader,
`SubmitTask` returns success = false, an empty task_id and the non-empty
error_message made of a fixed text followed by the value of `GetLeader()`, and
proposes nothing; while the node is the leader, the AddTask entry carrying the
generated id, the request's task_type and task_data encodes to `data` and the
propose of `data` succeeds, it returns success = true with the generated id,
which is not empty when the generator gives a non-empty id, and `data` is the
one byte string proposed. -/
theorem C26_submitTask_leader_gating {B : Type} (s : TaskServiceServer B) (json : Marshal B)
    (uuid : String) (now : Int) (req : SubmitTaskRequest) :
    (s.cluster.IsLeader = false →
      (s.SubmitTask json uuid now req).response.Success = false ∧
      (s.SubmitTask json uuid now req).response.TaskId = "" ∧
      (s.SubmitTask json uuid now req).response.ErrorMessage =
        "not leader, current leader: " ++ s.cluster.GetLeader ∧
      (s.SubmitTask json uuid now req).response.ErrorMessage ≠ "" ∧
      (s.SubmitTask json uuid now req).err = none ∧
      (s.SubmitTask json uuid now req).proposed = []) ∧
    (s.cluster.IsLeader = true → ∀ data : B,
      EncodeLogEntry json LogEntryAddTask (Entry.addTask
        { TaskID := uuid, TaskType := req.TaskType, TaskData := req.TaskData,
          CreatedAt := now }) = Except.ok data →
      s.cluster.Apply 0 data = none →
      (s.SubmitTask json uuid now req).response.Success = true ∧
      (s.SubmitTask json uuid now req).response.TaskId = uuid ∧
      (uuid ≠ "" → (s.SubmitTask json uuid now req).response.TaskId ≠ "") ∧
      (s.SubmitTask json uuid now req).err = none ∧
      (s.SubmitTask json uuid now req).proposed = [data]) := by
  refine ⟨fun hl => ?_, fun hl data henc hok => ?_⟩
  · have hR : s.SubmitTask json uuid now req =
        { response := { Success := false,
                        ErrorMessage := "not leader, current leader: " ++
                          s.cluster.GetLeader } } := by
      simp [TaskServiceServer.SubmitTask, hl]
    rw [hR]
    exact ⟨rfl, rfl, rfl, notLeader_message_ne_empty _, rfl, rfl⟩
  · have hR : s.SubmitTask json uuid now req =
        { response := { TaskId := uuid, Success := true }, proposed := [data] } := by
      simp [TaskServiceServer.SubmitTask, hl, henc, hok]
    rw [hR]
    exact ⟨rfl, rfl, fun h => h, rfl, rfl⟩

theorem C26_submitTask_leader_gating_witness :
    followerTaskServer.cluster.IsLeader = false ∧
    (followerTaskServer.SubmitTask wireMarshal "id-1" 100
      { TaskType := "matmul", TaskData := "42" }).response.ErrorMessage =
      "not leader, current leader: " ++ followerTaskServer.cluster.GetLeader ∧
    exampleTaskServer.cluster.IsLeader = true ∧
    (exampleTaskServer.SubmitTask wireMarshal "id-1" 100
      { TaskType := "matmul", TaskData := "42" }).proposed =
      [Wire.envelope 0 (Wire.payload (Entry.addTask
        { TaskID := "id-1", TaskType := "matmul", TaskData := "42", CreatedAt := 100 }))] :=
  ⟨rfl,
   ((C26_submitTask_leader_gating followerTaskServer wireMarshal "id-1" 100
      { TaskType := "matmul", TaskData := "42" }).1 rfl).2.2.1,
   rfl,
   ((C26_submitTask_leader_gating exampleTaskServer wireMarshal "id-1" 100
      { TaskType := "matmul", TaskData := "42" }).2 rfl _ rfl rfl).2.2.2.2⟩

/-- C27 (code bug). When the consensus library reports the leader pair
(address 10.0.0.1:7000, id node-1), `GetLeader` returns node-1, the id, and not
the address. -/
theorem C27_getLeader_returns_id :
    leaderRaft.leaderWithID = ("10.0.0.1:7000", "node-1") ∧
    exampleTaskServer.cluster.GetLeader = "node-1" ∧
    exampleTaskServer.cluster.GetLeader ≠ leaderRaft.leaderWithID.1 := by
  decide

/-- C28, as stated, fails: on the leader, a Heartbeat request whose cpu_usage
is a NaN has no JSON encoding, so the handler returns acknowledged = false with
an error and proposes nothing. -/
theorem C28_heartbeat_counterexample :
    exampleNodeServer.cluster.IsLeader = true ∧
    nanHeartbeat.CpuUsage.isFinite = false ∧
    (exampleNodeServer.Heartbeat wireMarshal 100 nanHeartbeat).response.Acknowledged =
      false ∧
    (exampleNodeServer.Heartbeat wireMarshal 100 nanHeartbeat).proposed = [] ∧
    (exampleNodeServer.Heartbeat wireMarshal 100 nanHeartbeat).err.isSome = true := by
  decide

/-- C28, amended. Heartbeat acknowledgement: the response has
acknowledged = true exactly when the node is the leader and the NodeHeartbeat
entry built from the request encodes, whatever the consensus library answers
to proposals; on a non-leader nothing is proposed and the response carries
acknowledged = false with the value of `GetLeader()`; on the leader, when the
entry carrying the request's node_id, cpu_usage, memory_usage and active_tasks
encodes, exactly that one entry is proposed, and when it does not encode
nothing is proposed and an error is returned. -/
theorem C28_heartbeat_acknowledgement {B : Type} (s : NodeServiceServer B) (json : Marshal B)
    (now : Int) (req : HeartbeatRequest) :
    (s.cluster.IsLeader = false →
      (s.Heartbeat json now req).response =
        { Acknowledged := false, LeaderAddress := s.cluster.GetLeader } ∧
      (s.Heartbeat json now req).err = none ∧
      (s.Heartbeat json now req).proposed = []) ∧
    (s.cluster.IsLeader = true → ∀ data : B,
      EncodeLogEntry json LogEntryNodeHeartbeat (Entry.nodeHeartbeat
        { NodeID := req.NodeId, CPUUsage := req.CpuUsage, MemoryUsage := req.MemoryUsage,
          ActiveTasks := req.ActiveTasks, Timestamp := now }) = Except.ok data →
      (s.Heartbeat json now req).response =
        { Acknowledged := true, LeaderAddress := s.cluster.GetLeader } ∧
      (s.Heartbeat json now req).err = none ∧
      (s.Heartbeat json now req).proposed = [data]) ∧
    (s.cluster.IsLeader = true → ∀ text : String,
      EncodeLogEntry json LogEntryNodeHeartbeat (Entry.nodeHeartbeat
        { NodeID := req.NodeId, CPUUsage := req.CpuUsage, MemoryUsage := req.MemoryUsage,
          ActiveTasks := req.ActiveTasks, Timestamp := now }) = Except.error text →
      (s.Heartbeat json now req).response =
        { Acknowledged := false, LeaderAddress := s.cluster.GetLeader } ∧
      (s.Heartbeat json now req).err = some ("failed to encode heartbeat: " ++ text) ∧
      (s.Heartbeat json now req).proposed = []) ∧
    (∀ answers : Nat → B → ApplyFuture,
      (({ cluster := { raft := { s.cluster.raft with apply := answers },
                       fsm := s.cluster.fsm } } : NodeServiceServer B).Heartbeat
        json now req).response = (s.Heartbeat json now req).response) := by
  refine ⟨fun hl => ?_, fun hl data henc => ?_, fun hl text henc => ?_, fun answers => ?_⟩
  · have hR : s.Heartbeat json now req =
        { response := { Acknowledged := false, LeaderAddress := s.cluster.GetLeader } } := by
      simp [NodeServiceServer.Heartbeat, hl]
    rw [hR]
    exact ⟨rfl, rfl, rfl⟩
  · have hR : s.Heartbeat json now req =
        { response := { Acknowledged := true, LeaderAddress := s.cluster.GetLeader },
          proposed := [data] } := by
      simp [NodeServiceServer.Heartbeat, hl, henc]
    rw [hR]
    exact ⟨rfl, rfl, rfl⟩
  · have hR : s.Heartbeat json now req =
        { response := { Acknowledged := false, LeaderAddress := s.cluster.GetLeader },
          err := some ("failed to encode heartbeat: " ++ text) } := by
      simp [NodeServiceServer.Heartbeat, hl, henc]
    rw [hR]
    exact ⟨rfl, rfl, rfl⟩
  · simp only [NodeServiceServer.Heartbeat, RaftCluster.IsLeader, RaftCluster.GetLeader]

theorem C28_heartbeat_acknowledgement_witness :
    followerNodeServer.cluster.IsLeader = false ∧
    (followerNodeServer.Heartbeat wireMarshal 100
      { NodeId := "n1", ActiveTasks := 1 }).response =
      { Acknowledged := false, LeaderAddress := "node-1" } ∧
    exampleNodeServer.cluster.IsLeader = true ∧
    (exampleNodeServer.Heartbeat wireMarshal 100
      { NodeId := "n1", ActiveTasks := 1 }).proposed =
      [Wire.envelope 5 (Wire.payload (Entry.nodeHeartbeat
        { NodeID := "n1", ActiveTasks := 1, Timestamp := 100 }))] :=
  ⟨rfl,
   ((C28_heartbeat_acknowledgement followerNodeServer wireMarshal 100
      { NodeId := "n1", ActiveTasks := 1 }).1 rfl).1,
   rfl,
   ((C28_heartbeat_acknowledgement exampleNodeServer wireMarshal 100
      { NodeId := "n1", ActiveTasks := 1 }).2.1 rfl _ rfl).2.2⟩

/-- C30, as stated, fails: on the leader, a ReportTaskResult request with
final_status = COMPLETED and an empty result_data, which is not a JSON text,
has no encoding as a CompleteTask entry, so the handler proposes nothing and
returns acknowledged = false with an error. -/
theorem C30_reportTaskResult_counterexample :
    exampleNodeServer.cluster.IsLeader = true ∧
    (exampleNodeServer.ReportTaskResult wireMarshal 100
      { TaskId := "t1", FinalStatus := TaskStatus.COMPLETED,
        ResultData := "" }).proposed = [] ∧
    (exampleNodeServer.ReportTaskResult wireMarshal 100
      { TaskId := "t1", FinalStatus := TaskStatus.COMPLETED,
        ResultData := "" }).response.Acknowledged = false ∧
    (exampleNodeServer.ReportTaskResult wireMarshal 100
      { TaskId := "t1", FinalStatus := TaskStatus.COMPLETED,
        ResultData := "" }).err.isSome = true := by
  decide

/-- C30, amended. ReportTaskResult on the leader: for a final_status that is
neither COMPLETED nor FAILED it returns acknowledged = false with an error and
proposes nothing; for COMPLETED, when the CompleteTask entry carrying the
request's task_id and result_data encodes to `data`, and for FAILED, when the
FailTask entry carrying them encodes to `data`, it proposes exactly `data` and
acknowledged is true exactly when that propose succeeds; when the entry does
not encode it proposes nothing and returns acknowledged = false with an
error. -/
theorem C30_reportTaskResult {B : Type} (s : NodeServiceServer B) (json : Marshal B)
    (now : Int) (req : ReportTaskResultRequest) (hleader : s.cluster.IsLeader = true) :
    (req.FinalStatus ≠ TaskStatus.COMPLETED → req.FinalStatus ≠ TaskStatus.FAILED →
      (s.ReportTaskResult json now req).response.Acknowledged = false ∧
      (s.ReportTaskResult json now req).err =
        some ("invalid final status: " ++ req.FinalStatus.String) ∧
      (s.ReportTaskResult json now req).proposed = []) ∧
    (req.FinalStatus = TaskStatus.COMPLETED → ∀ data : B,
      EncodeLogEntry json LogEntryCompleteTask (Entry.completeTask
        { TaskID := req.TaskId, ResultData := req.ResultData, CompletedAt := now }) =
        Except.ok data →
      (s.ReportTaskResult json now req).proposed = [data] ∧
      ((s.ReportTaskResult json now req).response.Acknowledged = true ↔
        s.cluster.Apply 0 data = none)) ∧
    (req.FinalStatus = TaskStatus.FAILED → ∀ data : B,
      EncodeLogEntry json LogEntryFailTask (Entry.failTask
        { TaskID := req.TaskId, ErrorMessage := req.ResultData, FailedAt := now }) =
        Except.ok data →
      (s.ReportTaskResult json now req).proposed = [data] ∧
      ((s.ReportTaskResult json now req).response.Acknowledged = true ↔
        s.cluster.Apply 0 data = none)) ∧
    (req.FinalStatus = TaskStatus.COMPLETED → ∀ text : String,
      EncodeLogEntry json LogEntryCompleteTask (Entry.completeTask
        { TaskID := req.TaskId, ResultData := req.ResultData, CompletedAt := now }) =
        Except.error text →
      (s.ReportTaskResult json now req).response.Acknowledged = false ∧
      (s.ReportTaskResult json now req).err =
        some ("failed to encode log entry: " ++ text) ∧
      (s.ReportTaskResult json now req).proposed = []) ∧
    (req.FinalStatus = TaskStatus.FAILED → ∀ text : String,
      EncodeLogEntry json LogEntryFailTask (Entry.failTask
        { TaskID := req.TaskId, ErrorMessage := req.ResultData, FailedAt := now }) =
        Except.error text →
      (s.ReportTaskResult json now req).response.Acknowledged = false ∧
      (s.ReportTaskResult json now req).err =
        some ("failed to encode log entry: " ++ text) ∧
      (s.ReportTaskResult json now req).proposed = []) := by
  have hF : TaskStatus.FAILED ≠ TaskStatus.COMPLETED := by decide
  refine ⟨fun h1 h2 => ?_, fun h data henc => ?_, fun h data henc => ?_,
    fun h text henc => ?_, fun h text henc => ?_⟩
  · simp [NodeServiceServer.ReportTaskResult, hleader, h1, h2]
  · cases hok : s.cluster.Apply 0 data <;>
      simp [NodeServiceServer.ReportTaskResult, hleader, h, henc, hok]
  · cases hok : s.cluster.Apply 0 data <;>
      simp [NodeServiceServer.ReportTaskResult, hleader, h, hF, henc, hok]
  · simp [NodeServiceServer.ReportTaskResult, hleader, h, henc]
  · simp [NodeServiceServer.ReportTaskResult, hleader, h, hF, henc]

theorem C30_reportTaskResult_witness :
    exampleNodeServer.cluster.IsLeader = true ∧
    (exampleNodeServer.ReportTaskResult wireMarshal 100
      { TaskId := "t1", FinalStatus := TaskStatus.RUNNING,
        ResultData := "42" }).proposed = [] :=
  ⟨rfl,
   ((C30_reportTaskResult exampleNodeServer wireMarshal 100
      { TaskId := "t1", FinalStatus := TaskStatus.RUNNING, ResultData := "42" } rfl).1
      (by decide) (by decide)).2.2⟩

/-- The pending tasks are the tasks of the manifest whose status is PENDING. -/
theorem mem_GetPendingTasks (tm : TaskManifest) (range : MapRange Task)
    (hvalid : range.Valid) (x : Task) :
    x ∈ tm.GetPendingTasks range ↔
      ∃ k : String, (k, x) ∈ tm.Tasks ∧ x.Status = TaskStatus.PENDING := by
  unfold TaskManifest.GetPendingTasks
  simp only [List.mem_map, List.mem_filter, decide_eq_true_eq, (hvalid tm.Tasks).mem_iff]
  constructor
  · rintro ⟨⟨k, y⟩, ⟨hmem, hst⟩, rfl⟩
    exact ⟨k, hmem, hst⟩
  · rintro ⟨k, hmem, hst⟩
    exact ⟨(k, x), ⟨hmem, hst⟩, rfl⟩

/-- The task named by an AssignTask entry, after the entry is applied. -/
theorem get_task_after_assignTask (now : Int) (fsm : TaskManifestFSM) (e : AssignTaskEntry)
    (task : Task) (htask : GoMap.get fsm.manifest.Tasks e.TaskID = some task) :
    GoMap.get (Apply entryJson now fsm (Entry.assignTask e)).1.manifest.Tasks e.TaskID =
      some { task with AssignedNodeId := e.NodeID, Status := TaskStatus.ASSIGNED,
                       StartedAt := now } := by
  rw [Apply_assignTask]
  unfold TaskManifest.AssignTask
  rw [htask]
  cases GoMap.get fsm.manifest.Nodes e.NodeID with
  | none => simpa using GoMap.get_set_self _ _ _
  | some node => simpa using GoMap.get_set_self _ _ _

/-- The task named by an UpdateTaskStatus entry, after the entry is applied. -/
theorem get_task_after_updateTaskStatus (now : Int) (fsm : TaskManifestFSM)
    (e : UpdateTaskStatusEntry) (task : Task)
    (htask : GoMap.get fsm.manifest.Tasks e.TaskID = some task) :
    GoMap.get (Apply entryJson now fsm (Entry.updateTaskStatus e)).1.manifest.Tasks
      e.TaskID = some { task with Status := stringToTaskStatus e.Status } := by
  rw [Apply_updateTaskStatus]
  unfold TaskManifest.UpdateTaskStatus
  rw [htask]
  simpa using GoMap.get_set_self _ _ _

/-- An entry of a map after an assignment is the assigned one or an entry of
the map before. -/
theorem GoMap.mem_set {α : Type} (m : GoMap α) (k : String) (v : α) (p : String × α)
    (hp : p ∈ GoMap.set m k v) : p = (k, v) ∨ p ∈ m := by
  induction m with
  | nil =>
    simp only [GoMap.set, List.mem_singleton] at hp
    exact Or.inl hp
  | cons q rest ih =>
    obtain ⟨k', v'⟩ := q
    unfold GoMap.set at hp
    by_cases hk : k' = k
    · rw [if_pos hk] at hp
      rcases List.mem_cons.1 hp with h | h
      · exact Or.inl h
      · exact Or.inr (List.mem_cons_of_mem _ h)
    · rw [if_neg hk] at hp
      rcases List.mem_cons.1 hp with h | h
      · exact Or.inr (h ▸ List.mem_cons_self _ _)
      · rcases ih h with h1 | h1
        · exact Or.inl h1
        · exact Or.inr (List.mem_cons_of_mem _ h1)

/-- A value found by the lookup is an entry of the map. -/
theorem GoMap.mem_of_get {α : Type} (m : GoMap α) (k : String) (v : α)
    (h : GoMap.get m k = some v) : (k, v) ∈ m := by
  induction m with
  | nil => cases h
  | cons q rest ih =>
    obtain ⟨k', v'⟩ := q
    unfold GoMap.get at h
    by_cases hk : k' = k
    · rw [if_pos hk] at h
      cases h
      rw [hk]
      exact List.mem_cons_self _ _
    · rw [if_neg hk] at h
      exact List.mem_cons_of_mem _ (ih h)

/-- Writing back under its key a task whose id is kept keeps every task stored
under its task_id. -/
theorem storedUnderId_set (tasks : GoMap Task) (k : String) (old new : Task)
    (hids : ∀ p ∈ tasks, p.1 = p.2.TaskId) (hget : GoMap.get tasks k = some old)
    (hid : new.TaskId = old.TaskId) :
    ∀ p ∈ GoMap.set tasks k new, p.1 = p.2.TaskId := by
  intro p hp
  rcases GoMap.mem_set _ _ _ _ hp with h | h
  · rw [h]
    show k = new.TaskId
    rw [hid]
    exact hids (k, old) (GoMap.mem_of_get _ _ _ hget)
  · exact hids p h

/-- No entry stores a task under a key other than its task_id. -/
theorem Apply_storedUnderId (now : Int) (fsm : TaskManifestFSM) (e : Entry)
    (hids : ∀ p ∈ fsm.manifest.Tasks, p.1 = p.2.TaskId) :
    ∀ p ∈ (Apply entryJson now fsm e).1.manifest.Tasks, p.1 = p.2.TaskId := by
  cases e with
  | addTask e =>
    rw [Apply_addTask]
    intro p hp
    rcases GoMap.mem_set _ _ _ _ hp with h | h
    · rw [h]
    · exact hids p h
  | assignTask e =>
    rw [Apply_assignTask]
    have h : ∀ p ∈ (fsm.manifest.AssignTask now e.TaskID e.NodeID).1.Tasks,
        p.1 = p.2.TaskId := by
      unfold TaskManifest.AssignTask
      cases htask : GoMap.get fsm.manifest.Tasks e.TaskID with
      | none => exact hids
      | some task =>
        cases GoMap.get fsm.manifest.Nodes e.NodeID with
        | none => exact storedUnderId_set _ _ task _ hids htask rfl
        | some node => exact storedUnderId_set _ _ task _ hids htask rfl
    split <;> exact h
  | updateTaskStatus e =>
    rw [Apply_updateTaskStatus]
    have h : ∀ p ∈ (fsm.manifest.UpdateTaskStatus e.TaskID
        (stringToTaskStatus e.Status)).1.Tasks, p.1 = p.2.TaskId := by
      unfold TaskManifest.UpdateTaskStatus
      cases htask : GoMap.get fsm.manifest.Tasks e.TaskID with
      | none => exact hids
      | some task => exact storedUnderId_set _ _ task _ hids htask rfl
    split <;> exact h
  | completeTask e =>
    rw [Apply_completeTask]
    have h : ∀ p ∈ (fsm.manifest.CompleteTask now e.TaskID e.ResultData).1.Tasks,
        p.1 = p.2.TaskId := by
      unfold TaskManifest.CompleteTask
      cases htask : GoMap.get fsm.manifest.Tasks e.TaskID with
      | none => exact hids
      | some task => exact storedUnderId_set _ _ task _ hids htask rfl
    split <;> exact h
  | failTask e =>
    rw [Apply_failTask]
    unfold TaskManifest.UpdateTaskStatus
    cases htask : GoMap.get fsm.manifest.Tasks e.TaskID with
    | none => exact hids
    | some task => exact storedUnderId_set _ _ task _ hids htask rfl
  | nodeHeartbeat e =>
    rw [Apply_nodeHeartbeat]
    exact hids
  | registerNode e =>
    rw [Apply_registerNode]
    exact hids

/-- In every state reached from a fresh FSM by applying log entries, every
task is stored under its task_id. -/
theorem applyLog_storedUnderId {B : Type} (json : Unmarshal B) (clock : Nat → Int) (i : Nat)
    (fsm : TaskManifestFSM) (log : List B)
    (hids : ∀ p ∈ fsm.manifest.Tasks, p.1 = p.2.TaskId) :
    ∀ p ∈ (applyLog json clock i fsm log).manifest.Tasks, p.1 = p.2.TaskId := by
  induction log generalizing i fsm with
  | nil => exact hids
  | cons d rest ih =>
    refine ih _ _ ?_
    rcases Apply_unchanged_or_decodes json (clock i) fsm d with h | ⟨e, he⟩
    · rw [h]; exact hids
    · rw [Apply_of_decodes json _ _ d e he]
      exact Apply_storedUnderId _ fsm e hids

/-- A well-formed entry of a kind other than AddTask stores no pointer in the
task map. -/
theorem storesTask_of_decodes {B : Type} (json : Unmarshal B) (data : B) (e : Entry)
    (k : String) (h : Decodes json data e) (hkind : e.type ≠ LogEntryAddTask) :
    storesTask json data k = false := by
  obtain ⟨p, h1, _⟩ := h
  simp [storesTask, h1, hkind]

/-- When every task is stored under its task_id, the first pending task is held
under its task_id. -/
theorem firstPendingKey_of_pending (tm : TaskManifest) (range : MapRange Task)
    (hvalid : range.Valid) (hids : ∀ p ∈ tm.Tasks, p.1 = p.2.TaskId) (task : Task)
    (rest : List Task) (hpend : tm.GetPendingTasks range = task :: rest) :
    firstPendingKey tm range = some task.TaskId := by
  unfold TaskManifest.GetPendingTasks at hpend
  unfold firstPendingKey
  cases hL : (range tm.Tasks).filter (fun p => decide (p.2.Status = TaskStatus.PENDING)) with
  | nil =>
    rw [hL] at hpend
    cases hpend
  | cons q L =>
    rw [hL] at hpend
    have hq : q.2 = task := by
      simp only [List.map_cons, List.cons.injEq] at hpend
      exact hpend.1
    have hmem : q ∈ (range tm.Tasks).filter
        (fun p => decide (p.2.Status = TaskStatus.PENDING)) := by
      rw [hL]
      exact List.mem_cons_self _ _
    have hin : q ∈ tm.Tasks := ((hvalid tm.Tasks).mem_iff).1 (List.mem_filter.1 hmem).1
    simp only [List.map_cons, List.head?_cons]
    rw [hids q hin, hq]

/-- C29. PollTask assignment: on a non-leader, or on a leader whose manifest
has no PENDING task, `PollTask` returns has_task = false and proposes nothing;
on a leader with a PENDING task it picks one task `t` of the manifest that is
PENDING and, the AssignTask entry (t, node_id) and the UpdateTaskStatus entry
(t, RUNNING) encoding to `d1` and `d2`: if the propose of `d1` succeeds it
proposes `d1` then `d2` and returns has_task = true with a task and no error;
if the propose of `d1` fails it returns has_task = false with an error and
proposes only `d1`; and when `d1` and `d2` decode to the entries they encode
and every task is stored once, under its task_id, applying `d1` then `d2`
leaves task `t` with assigned_node_id = node_id and status RUNNING, and the
task of the response is task `t` as the FSM of this node has left it when the
handler returns: with assigned_node_id = node_id, started_at set by the FSM,
and status RUNNING when the second propose was applied too, ASSIGNED when it
failed. -/
theorem C29_pollTask_assignment {B : Type} [Inhabited B] (s : NodeServiceServer B)
    (mjson : Marshal B) (json : Unmarshal B) (range : MapRange Task)
    (now1 now2 fsmNow1 fsmNow2 : Int) (req : PollTaskRequest) (hvalid : range.Valid) :
    (s.cluster.fsm.manifest.GetPendingTasks range = [] ↔
      ∀ p ∈ s.cluster.fsm.manifest.Tasks, p.2.Status ≠ TaskStatus.PENDING) ∧
    ((s.cluster.IsLeader = false ∨ s.cluster.fsm.manifest.GetPendingTasks range = []) →
      (s.PollTask mjson json range now1 now2 fsmNow1 fsmNow2 req).response =
        { Task := none, HasTask := false } ∧
      (s.PollTask mjson json range now1 now2 fsmNow1 fsmNow2 req).err = none ∧
      (s.PollTask mjson json range now1 now2 fsmNow1 fsmNow2 req).proposed = []) ∧
    (s.cluster.IsLeader = true → ∀ (task : Task) (rest : List Task),
      s.cluster.fsm.manifest.GetPendingTasks range = task :: rest →
      ∀ d1 d2 : B,
      EncodeLogEntry mjson LogEntryAssignTask (Entry.assignTask
        { TaskID := task.TaskId, NodeID := req.NodeId, AssignedAt := now1 }) =
        Except.ok d1 →
      EncodeLogEntry mjson LogEntryUpdateTaskStatus (Entry.updateTaskStatus
        { TaskID := task.TaskId, Status := "RUNNING", UpdatedAt := now2 }) =
        Except.ok d2 →
      ((∃ k : String, (k, task) ∈ s.cluster.fsm.manifest.Tasks) ∧
        task.Status = TaskStatus.PENDING) ∧
      (s.cluster.Apply 0 d1 = none →
        (s.PollTask mjson json range now1 now2 fsmNow1 fsmNow2 req).response.HasTask = true ∧
        (s.PollTask mjson json range now1 now2 fsmNow1 fsmNow2 req).response.Task ≠ none ∧
        (s.PollTask mjson json range now1 now2 fsmNow1 fsmNow2 req).err = none ∧
        (s.PollTask mjson json range now1 now2 fsmNow1 fsmNow2 req).proposed = [d1, d2]) ∧
      (∀ err : String, s.cluster.Apply 0 d1 = some err →
        (s.PollTask mjson json range now1 now2 fsmNow1 fsmNow2 req).response =
          { Task := none, HasTask := false } ∧
        (s.PollTask mjson json range now1 now2 fsmNow1 fsmNow2 req).err =
          some ("failed to apply assignment: " ++ err) ∧
        (s.PollTask mjson json range now1 now2 fsmNow1 fsmNow2 req).proposed = [d1]) ∧
      (Decodes json d1 (Entry.assignTask
          { TaskID := task.TaskId, NodeID := req.NodeId, AssignedAt := now1 }) →
        Decodes json d2 (Entry.updateTaskStatus
          { TaskID := task.TaskId, Status := "RUNNING", UpdatedAt := now2 }) →
        GoMap.WF s.cluster.fsm.manifest.Tasks →
        (∀ p ∈ s.cluster.fsm.manifest.Tasks, p.1 = p.2.TaskId) →
        (∀ clock : Nat → Int,
          GoMap.get (applyLog json clock 0 s.cluster.fsm [d1, d2]).manifest.Tasks
            task.TaskId =
            some { task with AssignedNodeId := req.NodeId, Status := TaskStatus.RUNNING,
                             StartedAt := clock 0 }) ∧
        (s.cluster.Apply 0 d1 = none → s.cluster.applies 1 d2 = true →
          (s.PollTask mjson json range now1 now2 fsmNow1 fsmNow2 req).response =
            { Task := some { task with AssignedNodeId := req.NodeId,
                                       Status := TaskStatus.RUNNING,
                                       StartedAt := fsmNow1 },
              HasTask := true }) ∧
        (s.cluster.Apply 0 d1 = none → s.cluster.applies 1 d2 = false →
          (s.PollTask mjson json range now1 now2 fsmNow1 fsmNow2 req).response =
            { Task := some { task with AssignedNodeId := req.NodeId,
                                       Status := TaskStatus.ASSIGNED,
                                       StartedAt := fsmNow1 },
              HasTask := true }))) := by
  have hmem := mem_GetPendingTasks s.cluster.fsm.manifest range hvalid
  refine ⟨?_, ?_, ?_⟩
  · constructor
    · intro hnil p hp hst
      have hx := (hmem p.2).2 ⟨p.1, hp, hst⟩
      rw [hnil] at hx
      cases hx
    · intro hall
      cases hpend : s.cluster.fsm.manifest.GetPendingTasks range with
      | nil => rfl
      | cons x rest =>
        have hx := (hmem x).1 (by rw [hpend]; exact List.mem_cons_self _ _)
        obtain ⟨k, hk, hst⟩ := hx
        exact absurd hst (hall (k, x) hk)
  · intro h
    rcases h with hl | hnil
    · have hR : s.PollTask mjson json range now1 now2 fsmNow1 fsmNow2 req =
          { response := { HasTask := false } } := by
        simp [NodeServiceServer.PollTask, hl]
      rw [hR]
      exact ⟨rfl, rfl, rfl⟩
    · have hR : s.PollTask mjson json range now1 now2 fsmNow1 fsmNow2 req =
          { response := { HasTask := false } } := by
        simp only [NodeServiceServer.PollTask, RaftCluster.GetFSM, hnil]
        split <;> rfl
      rw [hR]
      exact ⟨rfl, rfl, rfl⟩
  · intro hl task rest hpend d1 d2 henc1 henc2
    have htask := (hmem task).1 (by rw [hpend]; exact List.mem_cons_self _ _)
    obtain ⟨k, hk, hst⟩ := htask
    refine ⟨⟨⟨k, hk⟩, hst⟩, ?_, ?_, ?_⟩
    · intro hok
      simp [NodeServiceServer.PollTask, RaftCluster.GetFSM, hl, hpend, henc1, henc2, hok]
    · intro err herr
      have hR : s.PollTask mjson json range now1 now2 fsmNow1 fsmNow2 req =
          { response := { HasTask := false },
            err := some ("failed to apply assignment: " ++ err), proposed := [d1] } := by
        simp [NodeServiceServer.PollTask, RaftCluster.GetFSM, hl, hpend, henc1, herr]
      rw [hR]
      exact ⟨rfl, rfl, rfl⟩
    · intro hdec1 hdec2 hwf hids
      have hkey : k = task.TaskId := hids (k, task) hk
      have hstored : GoMap.get s.cluster.fsm.manifest.Tasks task.TaskId = some task :=
        GoMap.get_of_mem_of_WF _ _ _ hwf (hkey ▸ hk)
      have hslot := firstPendingKey_of_pending s.cluster.fsm.manifest range hvalid hids
        task rest hpend
      have hs1 := storesTask_of_decodes json d1 _ task.TaskId hdec1
        (by simp [Entry.type, LogEntryAssignTask, LogEntryAddTask])
      have hs2 := storesTask_of_decodes json d2 _ task.TaskId hdec2
        (by simp [Entry.type, LogEntryUpdateTaskStatus, LogEntryAddTask])
      have hrun : stringToTaskStatus "RUNNING" = TaskStatus.RUNNING := by decide
      have h1 : ∀ now : Int,
          GoMap.get (Apply json now s.cluster.fsm d1).1.manifest.Tasks task.TaskId =
            some { task with AssignedNodeId := req.NodeId, Status := TaskStatus.ASSIGNED,
                             StartedAt := now } := by
        intro now
        rw [Apply_of_decodes json _ _ d1 _ hdec1]
        exact get_task_after_assignTask now s.cluster.fsm
          { TaskID := task.TaskId, NodeID := req.NodeId, AssignedAt := now1 } task hstored
      have h2 : ∀ now now' : Int,
          GoMap.get (Apply json now' (Apply json now s.cluster.fsm d1).1 d2).1.manifest.Tasks
            task.TaskId =
            some { task with AssignedNodeId := req.NodeId, Status := TaskStatus.RUNNING,
                             StartedAt := now } := by
        intro now now'
        rw [Apply_of_decodes json _ _ d2 _ hdec2]
        have h := get_task_after_updateTaskStatus now' (Apply json now s.cluster.fsm d1).1
          { TaskID := task.TaskId, Status := "RUNNING", UpdatedAt := now2 } _ (h1 now)
        rw [h, hrun]
      refine ⟨?_, ?_, ?_⟩
      · intro clock
        simp only [applyLog]
        exact h2 (clock 0) (clock (0 + 1))
      · intro hok happ
        simp [NodeServiceServer.PollTask, RaftCluster.GetFSM, hl, hpend, henc1, henc2, hok,
          happ, hslot, TaskPointer.afterApply, hs1, hs2, h1, h2]
      · intro hok happ
        simp [NodeServiceServer.PollTask, RaftCluster.GetFSM, hl, hpend, henc1, henc2, hok,
          happ, hslot, TaskPointer.afterApply, hs1, h1]

theorem C29_pollTask_assignment_witness :
    (listRange : MapRange Task).Valid ∧
    exampleNodeServer.cluster.IsLeader = true ∧
    (exampleNodeServer.PollTask wireMarshal wireJson listRange 100 101 102 103
      { NodeId := "n1" }).proposed =
      [Wire.envelope 1 (Wire.payload (Entry.assignTask
         { TaskID := "t1", NodeID := "n1", AssignedAt := 100 })),
       Wire.envelope 2 (Wire.payload (Entry.updateTaskStatus
         { TaskID := "t1", Status := "RUNNING", UpdatedAt := 101 }))] ∧
    (exampleNodeServer.PollTask wireMarshal wireJson listRange 100 101 102 103
      { NodeId := "n1" }).response =
      { Task := some { TaskId := "t1", TaskType := "matmul", Status := TaskStatus.RUNNING,
                       AssignedNodeId := "n1", CreatedAt := 1, StartedAt := 102 },
        HasTask := true } :=
  ⟨listRange_valid, rfl,
   ((((C29_pollTask_assignment exampleNodeServer wireMarshal wireJson listRange 100 101
      102 103 { NodeId := "n1" } listRange_valid).2.2 rfl
      { TaskId := "t1", TaskType := "matmul", CreatedAt := 1 } [] rfl _ _ rfl rfl).2.1)
      rfl).2.2.2,
   (((C29_pollTask_assignment exampleNodeServer wireMarshal wireJson listRange 100 101
      102 103 { NodeId := "n1" } listRange_valid).2.2 rfl
      { TaskId := "t1", TaskType := "matmul", CreatedAt := 1 } [] rfl _ _ rfl rfl).2.2.2
      ⟨_, rfl, rfl⟩ ⟨_, rfl, rfl⟩ (by unfold GoMap.WF GoMap.keys; decide)
      (by decide)).2.1 rfl rfl⟩

/-! ## Bootstrap -/

/-- The loop over the peers appends one server per peer, in order. -/
theorem bootstrapServers_eq (servers : List Server) (peers : List String) :
    bootstrapServers servers peers =
      servers ++ peers.map (fun a => { ID := "node-" ++ a, Address := a }) := by
  induction peers generalizing servers with
  | nil => simp [bootstrapServers]
  | cons a rest ih => simp [bootstrapServers, ih]

/-- On a fresh data directory `bootstrap` submits the one configuration made
of this node and of the peers. -/
theorem bootstrap_submitted_of_fresh (config : ClusterConfig) (lib : ClusterLib)
    (hs : lib.hasExistingState = Except.ok false) :
    (RaftCluster.bootstrap config lib).submitted =
      [{ Servers := { ID := config.NodeID, Address := config.BindAddress } ::
          config.Peers.map (fun a => { ID := "node-" ++ a, Address := a }) }] := by
  unfold RaftCluster.bootstrap
  rw [hs]
  simp only [bootstrapServers_eq, List.singleton_append]
  cases lib.bootstrapCluster _ <;> rfl

/-- When the check of the existing state fails or finds a state, `bootstrap`
submits nothing. -/
theorem bootstrap_submitted_of_not_fresh (config : ClusterConfig) (lib : ClusterLib)
    (hs : lib.hasExistingState ≠ Except.ok false) :
    (RaftCluster.bootstrap config lib).submitted = [] := by
  unfold RaftCluster.bootstrap
  cases h : lib.hasExistingState with
  | error err => rfl
  | ok b =>
    cases b with
    | true => rfl
    | false => exact absurd h hs

/-- What `NewRaftCluster` submits is what `bootstrap` submits, when it is
called. -/
theorem NewRaftCluster_submitted (config : ClusterConfig) (lib : ClusterLib) :
    (NewRaftCluster config lib).submitted =
      if lib.setup = none ∧ config.BootstrapExpect > 0 then
        (RaftCluster.bootstrap config lib).submitted
      else [] := by
  unfold NewRaftCluster
  cases hsetup : lib.setup with
  | some err => simp
  | none =>
    by_cases hexp : config.BootstrapExpect > 0
    · simp only [if_pos hexp, true_and]
      cases (RaftCluster.bootstrap config lib).err <;> rfl
    · simp [hexp]

/-- C31. Bootstrap configuration: `NewRaftCluster`, once the stores, the
transport and the consensus instance are set up, submits a bootstrap to the
consensus library if and only if bootstrap_expect > 0 and the
has-existing-state check returns false; it submits at most one configuration,
and the submitted configuration lists exactly 1 + len(peers) servers, the first
being this node (id = node_id, address = bind_address), followed by one server
per configured peer in order, with address equal to the peer address and id
equal to the string node- followed by that address. -/
theorem C31_bootstrap_configuration (config : ClusterConfig) (lib : ClusterLib) :
    ((NewRaftCluster config lib).submitted ≠ [] ↔
      lib.setup = none ∧ config.BootstrapExpect > 0 ∧
        lib.hasExistingState = Except.ok false) ∧
    (NewRaftCluster config lib).submitted.length ≤ 1 ∧
    ∀ c ∈ (NewRaftCluster config lib).submitted,
      c.Servers.length = 1 + config.Peers.length ∧
      c.Servers.head? = some { ID := config.NodeID, Address := config.BindAddress } ∧
      c.Servers.tail = config.Peers.map (fun a => { ID := "node-" ++ a, Address := a }) ∧
      ∀ (i : Nat) (a : String), config.Peers[i]? = some a →
        c.Servers[i + 1]? = some { ID := "node-" ++ a, Address := a } := by
  rw [NewRaftCluster_submitted]
  by_cases h1 : lib.setup = none ∧ config.BootstrapExpect > 0
  · by_cases h2 : lib.hasExistingState = Except.ok false
    · rw [if_pos h1, bootstrap_submitted_of_fresh config lib h2]
      refine ⟨⟨fun _ => ⟨h1.1, h1.2, h2⟩, fun _ => by simp⟩, by simp, ?_⟩
      intro c hc
      rw [List.mem_singleton] at hc
      subst hc
      refine ⟨by simp [Nat.add_comm], rfl, rfl, ?_⟩
      intro i a ha
      simp [ha]
    · rw [if_pos h1, bootstrap_submitted_of_not_fresh config lib h2]
      refine ⟨⟨fun h => absurd rfl h, fun h => absurd h.2.2 h2⟩, by simp, ?_⟩
      intro c hc
      cases hc
  · rw [if_neg h1]
    refine ⟨⟨fun h => absurd rfl h, fun h => absurd ⟨h.1, h.2.1⟩ h1⟩, by simp, ?_⟩
    intro c hc
    cases hc

theorem C31_bootstrap_configuration_witness :
    (NewRaftCluster exampleConfig freshLib).submitted ≠ [] ∧
    ∀ c ∈ (NewRaftCluster exampleConfig freshLib).submitted,
      c.Servers =
        [{ ID := "node-1", Address := "10.0.0.1:7000" },
         { ID := "node-10.0.0.2:7000", Address := "10.0.0.2:7000" },
         { ID := "node-10.0.0.3:7000", Address := "10.0.0.3:7000" }] ∧
      c.Servers.length = 1 + exampleConfig.Peers.length :=
  ⟨(C31_bootstrap_configuration exampleConfig freshLib).1.2 ⟨rfl, by decide, rfl⟩,
   fun c hc =>
    ⟨by
      have h : (NewRaftCluster exampleConfig freshLib).submitted =
          [{ Servers :=
              [{ ID := "node-1", Address := "10.0.0.1:7000" },
               { ID := "node-10.0.0.2:7000", Address := "10.0.0.2:7000" },
               { ID := "node-10.0.0.3:7000", Address := "10.0.0.3:7000" }] }] := by
        decide
      rw [h, List.mem_singleton] at hc
      rw [hc],
     ((C31_bootstrap_configuration exampleConfig freshLib).2.2 c hc).1⟩⟩

/-! ## Restore on a reader that is not a snapshot -/

/-- C32. Restore is atomic on failure: for every FSM state and every reader
whose content fails to decode as a snapshot, `Restore` returns an error and the
FSM, hence its manifest (tasks and nodes), is exactly what it was before the
call. -/
theorem C32_restore_atomic_on_failure {S : Type} (sjson : SnapshotJson S)
    (fsm : TaskManifestFSM) (rc : S) (hfail : sjson.decode rc = none) :
    (Restore sjson fsm rc).2 = some SnapshotError.decodeSnapshot ∧
    (Restore sjson fsm rc).1 = fsm ∧
    (Restore sjson fsm rc).1.manifest.Tasks = fsm.manifest.Tasks ∧
    (Restore sjson fsm rc).1.manifest.Nodes = fsm.manifest.Nodes := by
  simp [Restore, hfail]

theorem C32_restore_atomic_on_failure_witness :
    partialSnapshotJson.decode none = none ∧
    (Restore partialSnapshotJson exampleAssigned none).2 =
      some SnapshotError.decodeSnapshot ∧
    (Restore partialSnapshotJson exampleAssigned none).1 = exampleAssigned :=
  ⟨rfl,
   (C32_restore_atomic_on_failure partialSnapshotJson exampleAssigned none rfl).1,
   (C32_restore_atomic_on_failure partialSnapshotJson exampleAssigned none rfl).2.1⟩

/-! ## Healthy nodes -/

/-- The decrement of `CompleteTask` keeps every node HEALTHY. -/
theorem decrementActive_allHealthy (tm : TaskManifest) (tasks : GoMap Task) (n : String)
    (hinv : AllHealthy tm) :
    AllHealthy { Tasks := tasks, Nodes := TaskManifest.decrementActive tm.Nodes n } := by
  intro k node hget
  have hget' : GoMap.get (TaskManifest.decrementActive tm.Nodes n) k = some node := hget
  by_cases hk : k = n
  · subst hk
    cases hnode : GoMap.get tm.Nodes k with
    | none =>
      rw [decrementActive_of_none _ _ hnode, hnode] at hget'
      cases hget'
    | some node0 =>
      by_cases hpos : 0 < node0.ActiveTasks
      · rw [decrementActive_of_pos _ _ node0 hnode hpos, GoMap.get_set_self] at hget'
        cases hget'
        exact hinv k node0 hnode
      · rw [decrementActive_of_nonpos _ _ node0 hnode (by omega)] at hget'
        exact hinv k node hget'
  · rw [decrementActive_get_ne _ _ _ hk] at hget'
    exact hinv k node hget'

/-- No entry makes a node unhealthy. -/
theorem Apply_allHealthy (now : Int) (fsm : TaskManifestFSM) (e : Entry)
    (hinv : AllHealthy fsm.manifest) :
    AllHealthy (Apply entryJson now fsm e).1.manifest := by
  cases e with
  | addTask e =>
    rw [Apply_addTask]
    exact hinv
  | assignTask e =>
    rw [Apply_assignTask]
    have h : AllHealthy (fsm.manifest.AssignTask now e.TaskID e.NodeID).1 := by
      unfold TaskManifest.AssignTask
      cases GoMap.get fsm.manifest.Tasks e.TaskID with
      | none => exact hinv
      | some task =>
        cases hnode : GoMap.get fsm.manifest.Nodes e.NodeID with
        | none => exact hinv
        | some node0 =>
          intro k node hget
          have hget' : GoMap.get (GoMap.set fsm.manifest.Nodes e.NodeID
              { node0 with ActiveTasks := wrapInt32 (node0.ActiveTasks + 1) }) k =
              some node := hget
          by_cases hk : k = e.NodeID
          · subst hk
            rw [GoMap.get_set_self] at hget'
            cases hget'
            exact hinv _ node0 hnode
          · rw [GoMap.get_set_ne _ _ _ _ hk] at hget'
            exact hinv k node hget'
    split <;> exact h
  | updateTaskStatus e =>
    rw [Apply_updateTaskStatus]
    have h : AllHealthy
        (fsm.manifest.UpdateTaskStatus e.TaskID (stringToTaskStatus e.Status)).1 := by
      unfold TaskManifest.UpdateTaskStatus
      cases GoMap.get fsm.manifest.Tasks e.TaskID with
      | none => exact hinv
      | some task => exact hinv
    split <;> exact h
  | completeTask e =>
    rw [Apply_completeTask]
    have h : AllHealthy (fsm.manifest.CompleteTask now e.TaskID e.ResultData).1 := by
      unfold TaskManifest.CompleteTask
      cases GoMap.get fsm.manifest.Tasks e.TaskID with
      | none => exact hinv
      | some task => exact decrementActive_allHealthy fsm.manifest _ _ hinv
    split <;> exact h
  | failTask e =>
    rw [Apply_failTask]
    unfold TaskManifest.UpdateTaskStatus
    cases GoMap.get fsm.manifest.Tasks e.TaskID with
    | none => exact hinv
    | some task => exact hinv
  | nodeHeartbeat e =>
    rw [Apply_nodeHeartbeat]
    intro k node hget
    unfold TaskManifest.UpdateNodeHeartbeat at hget
    simp only at hget
    by_cases hk : k = e.NodeID
    · subst hk
      rw [GoMap.get_set_self] at hget
      cases hget
      rfl
    · rw [GoMap.get_set_ne _ _ _ _ hk] at hget
      exact hinv k node hget
  | registerNode e =>
    rw [Apply_registerNode]
    intro k node hget
    have hget' : GoMap.get (GoMap.set fsm.manifest.Nodes e.NodeID
        { NodeId := e.NodeID, Address := e.Address, CloudProvider := e.CloudProvider,
          Region := e.Region, Status := NodeStatus.HEALTHY,
          LastHeartbeat := e.RegisteredAt }) k = some node := hget
    by_cases hk : k = e.NodeID
    · subst hk
      rw [GoMap.get_set_self] at hget'
      cases hget'
      rfl
    · rw [GoMap.get_set_ne _ _ _ _ hk] at hget'
      exact hinv k node hget'

/-- No log makes a node unhealthy. -/
theorem applyLog_allHealthy {B : Type} (json : Unmarshal B) (clock : Nat → Int) (i : Nat)
    (fsm : TaskManifestFSM) (log : List B) (hinv : AllHealthy fsm.manifest) :
    AllHealthy (applyLog json clock i fsm log).manifest := by
  induction log generalizing i fsm with
  | nil => exact hinv
  | cons d rest ih =>
    refine ih _ _ ?_
    rcases Apply_unchanged_or_decodes json (clock i) fsm d with h | ⟨e, he⟩
    · rw [h]; exact hinv
    · rw [Apply_of_decodes json _ _ d e he]
      exact Apply_allHealthy _ fsm e hinv

/-- On a manifest whose nodes are all HEALTHY and held once, the healthy nodes
are all the nodes. -/
theorem GetHealthyNodes_eq_GetAllNodes (tm : TaskManifest) (range : MapRange Node)
    (hvalid : range.Valid) (hwf : GoMap.WF tm.Nodes) (hinv : AllHealthy tm) :
    tm.GetHealthyNodes range = tm.GetAllNodes range := by
  unfold TaskManifest.GetHealthyNodes TaskManifest.GetAllNodes
  congr 1
  rw [List.filter_eq_self]
  intro p hp
  have hmem : (p.1, p.2) ∈ tm.Nodes := ((hvalid tm.Nodes).mem_iff).1 hp
  simpa using hinv p.1 p.2 (GoMap.get_of_mem_of_WF _ _ _ hwf hmem)

/-- The nodes returned by `GetAllNodes` are the nodes of the manifest. -/
theorem mem_GetAllNodes (tm : TaskManifest) (range : MapRange Node)
    (hvalid : range.Valid) (x : Node) :
    x ∈ tm.GetAllNodes range ↔ ∃ k : String, (k, x) ∈ tm.Nodes := by
  unfold TaskManifest.GetAllNodes
  simp only [List.mem_map, (hvalid tm.Nodes).mem_iff]
  constructor
  · rintro ⟨⟨k, y⟩, hmem, rfl⟩
    exact ⟨k, hmem⟩
  · rintro ⟨k, hmem⟩
    exact ⟨(k, x), hmem, rfl⟩

/-- C33. No log entry makes a node unhealthy: after applying any sequence of
log entries to an empty FSM, every node in the manifest has status HEALTHY, so
`GetHealthyNodes` returns the same list as `GetAllNodes` under one order of
visit of the map, and the same set of nodes under any two orders. -/
theorem C33_no_entry_makes_node_unhealthy {B : Type} (json : Unmarshal B)
    (clock : Nat → Int) (log : List B) :
    (∀ (k : String) (node : Node),
      GoMap.get (applyLog json clock 0 NewTaskManifestFSM log).manifest.Nodes k = some node →
      node.Status = NodeStatus.HEALTHY) ∧
    (∀ range : MapRange Node, range.Valid →
      (applyLog json clock 0 NewTaskManifestFSM log).manifest.GetHealthyNodes range =
        (applyLog json clock 0 NewTaskManifestFSM log).manifest.GetAllNodes range) ∧
    (∀ r1 r2 : MapRange Node, r1.Valid → r2.Valid → ∀ x : Node,
      (x ∈ (applyLog json clock 0 NewTaskManifestFSM log).manifest.GetHealthyNodes r1 ↔
        x ∈ (applyLog json clock 0 NewTaskManifestFSM log).manifest.GetAllNodes r2)) := by
  have hwf : (applyLog json clock 0 NewTaskManifestFSM log).manifest.WF :=
    applyLog_WF json clock 0 NewTaskManifestFSM log
      ⟨by simp [NewTaskManifestFSM, NewTaskManifest, GoMap.WF, GoMap.keys],
       by simp [NewTaskManifestFSM, NewTaskManifest, GoMap.WF, GoMap.keys]⟩
  have hinv : AllHealthy (applyLog json clock 0 NewTaskManifestFSM log).manifest :=
    applyLog_allHealthy json clock 0 NewTaskManifestFSM log
      (by intro k node h; simp [NewTaskManifestFSM, NewTaskManifest, GoMap.get] at h)
  refine ⟨hinv, fun range hvalid => GetHealthyNodes_eq_GetAllNodes _ range hvalid hwf.2 hinv, ?_⟩
  intro r1 r2 h1 h2 x
  rw [GetHealthyNodes_eq_GetAllNodes _ r1 h1 hwf.2 hinv, mem_GetAllNodes _ r1 h1,
    mem_GetAllNodes _ r2 h2]

theorem C33_no_entry_makes_node_unhealthy_witness :
    (GoMap.get (applyLog entryJson (fun _ => 100) 0 NewTaskManifestFSM
      exampleLog).manifest.Nodes "n1").map Node.Status = some NodeStatus.HEALTHY ∧
    (applyLog entryJson (fun _ => 100) 0 NewTaskManifestFSM
        exampleLog).manifest.GetHealthyNodes listRange =
      (applyLog entryJson (fun _ => 100) 0 NewTaskManifestFSM
        exampleLog).manifest.GetAllNodes listRange :=
  ⟨by decide,
   (C33_no_entry_makes_node_unhealthy entryJson (fun _ => 100) exampleLog).2.1
     listRange listRange_valid⟩

/-! ## Status strings -/

/-- C34. Status strings map totally, defaulting to PENDING:
`stringToTaskStatus` maps the exact strings PENDING, ASSIGNED, RUNNING,
COMPLETED and FAILED to the enum value of the same name and every other string,
the empty string and other letter cases among them, to PENDING; consequently,
for every manifest containing task `t`, applying an UpdateTaskStatus entry for
`t` with an unrecognized status string returns no error and leaves `t` with
status PENDING, its other fields unchanged. -/
theorem C34_status_strings_default_pending {B : Type} (json : Unmarshal B) (now : Int)
    (fsm : TaskManifestFSM) (data : B) (e : UpdateTaskStatusEntry) (task : Task)
    (hdec : Decodes json data (Entry.updateTaskStatus e))
    (htask : GoMap.get fsm.manifest.Tasks e.TaskID = some task)
    (hother : e.Status ≠ "PENDING" ∧ e.Status ≠ "ASSIGNED" ∧ e.Status ≠ "RUNNING" ∧
      e.Status ≠ "COMPLETED" ∧ e.Status ≠ "FAILED") :
    (stringToTaskStatus "PENDING" = TaskStatus.PENDING ∧
      stringToTaskStatus "ASSIGNED" = TaskStatus.ASSIGNED ∧
      stringToTaskStatus "RUNNING" = TaskStatus.RUNNING ∧
      stringToTaskStatus "COMPLETED" = TaskStatus.COMPLETED ∧
      stringToTaskStatus "FAILED" = TaskStatus.FAILED) ∧
    (∀ s : String, s ≠ "PENDING" → s ≠ "ASSIGNED" → s ≠ "RUNNING" → s ≠ "COMPLETED" →
      s ≠ "FAILED" → stringToTaskStatus s = TaskStatus.PENDING) ∧
    stringToTaskStatus "" = TaskStatus.PENDING ∧
    stringToTaskStatus "running" = TaskStatus.PENDING ∧
    stringToTaskStatus "Completed" = TaskStatus.PENDING ∧
    (Apply json now fsm data).2 = none ∧
    GoMap.get (Apply json now fsm data).1.manifest.Tasks e.TaskID =
      some { task with Status := TaskStatus.PENDING } := by
  have hdefault : ∀ s : String, s ≠ "PENDING" → s ≠ "ASSIGNED" → s ≠ "RUNNING" →
      s ≠ "COMPLETED" → s ≠ "FAILED" → stringToTaskStatus s = TaskStatus.PENDING := by
    intro s h1 h2 h3 h4 h5
    simp [stringToTaskStatus, h1, h2, h3, h4, h5]
  have hst : stringToTaskStatus e.Status = TaskStatus.PENDING :=
    hdefault e.Status hother.1 hother.2.1 hother.2.2.1 hother.2.2.2.1 hother.2.2.2.2
  refine ⟨⟨by decide, by decide, by decide, by decide, by decide⟩, hdefault, by decide,
    by decide, by decide, ?_, ?_⟩
  · rw [Apply_of_decodes json _ _ data _ hdec, Apply_updateTaskStatus]
    have hU : (fsm.manifest.UpdateTaskStatus e.TaskID (stringToTaskStatus e.Status)).2 =
        true := by
      simp [TaskManifest.UpdateTaskStatus, htask]
    rw [if_pos hU]
  · rw [Apply_of_decodes json _ _ data _ hdec, get_task_after_updateTaskStatus _ _ _ _ htask,
      hst]

theorem C34_status_strings_default_pending_witness :
    GoMap.get exampleCompleted.manifest.Tasks "t1" =
      some { TaskId := "t1", TaskType := "matmul", Status := TaskStatus.COMPLETED,
             AssignedNodeId := "n1", StartedAt := 7, CompletedAt := 8, ResultData := "ok" } ∧
    (Apply entryJson 9 exampleCompleted
      (Entry.updateTaskStatus { TaskID := "t1", Status := "done" })).2 = none ∧
    GoMap.get (Apply entryJson 9 exampleCompleted
      (Entry.updateTaskStatus { TaskID := "t1", Status := "done" })).1.manifest.Tasks "t1" =
      some { TaskId := "t1", TaskType := "matmul", Status := TaskStatus.PENDING,
             AssignedNodeId := "n1", StartedAt := 7, CompletedAt := 8, ResultData := "ok" } :=
  ⟨by decide,
   (C34_status_strings_default_pending entryJson 9 exampleCompleted
      (Entry.updateTaskStatus { TaskID := "t1", Status := "done" })
      { TaskID := "t1", Status := "done" }
      { TaskId := "t1", TaskType := "matmul", Status := TaskStatus.COMPLETED,
        AssignedNodeId := "n1", StartedAt := 7, CompletedAt := 8, ResultData := "ok" }
      ⟨_, rfl, rfl⟩ (by decide) (by decide)).2.2.2.2.2⟩

end ControlPlane
